import Mathlib

/-!
# HeadUnit notification manager

A shallow embedding of `NotificationManager` (src/NotificationManager.cpp,
src/NotificationManager.h) and theorems about it.

Conventions of the embedding
* a notification (`QVariantMap` in the source) is a record with one field per
  key the source ever writes; an absent `dismissedAt` key is `none`, an absent
  `snoozed` key is `false`;
* the empty `QVariantMap` returned by the decoder is `none`;
* `QDateTime::currentDateTime()` is an explicit argument `now` (whole seconds,
  the resolution of the ISO rendering the source stores);
* `emit` appends to the field `emitted`; `writeCharacteristic` appends the
  packet to the field `written`;
* the compile-time switch `Q_OS_WIN` is the field `mockMode`.
-/

namespace HeadUnit

/-! ## Data model -/

/-- One byte of a `QByteArray`, read as `quint8`. -/
abbrev Byte := Fin 256

/-- Enumerator `NotificationPriority::Silent`. -/
def Silent : Int := -1
/-- Enumerator `NotificationPriority::Low`. -/
def Low : Int := 0
/-- Enumerator `NotificationPriority::Normal`. -/
def Normal : Int := 1
/-- Enumerator `NotificationPriority::High`. -/
def High : Int := 2
/-- Enumerator `NotificationPriority::Urgent`. -/
def Urgent : Int := 3

/-- Enumerator `NotificationCategory::Other`. -/
def Other : Int := 0
/-- Enumerator `NotificationCategory::Social`. -/
def Social : Int := 4
/-- Enumerator `NotificationCategory::Schedule`. -/
def Schedule : Int := 5
/-- Enumerator `NotificationCategory::Email`. -/
def Email : Int := 6

/-- The keys of the `QVariantMap` that describes one notification. -/
structure Notification where
  id : String
  appId : String
  appName : String
  title : String
  message : String
  timestamp : Int
  category : Int
  priority : Int
  read : Bool
  dismissedAt : Option Int
  snoozed : Bool
deriving DecidableEq

/-- The signals of the class (`signals:` section of the header). -/
inductive Signal where
  | connectionChanged
  | platformChanged
  | notificationsChanged
  | notificationCountChanged
  | hasUnreadChanged
  | doNotDisturbChanged
  | allowedAppsChanged
  | blockedAppsChanged
  | showPreviewsChanged
  | autoDismissAfterChanged
  | quickRepliesChanged
  | notificationReceived (n : Notification)
  | notificationDismissed (notificationId : String)
  | notificationUpdated (notificationId : String)
  | notificationRead (notificationId : String)
  | urgentNotification (n : Notification)
  | replySent (notificationId : String) (replyText : String)
  | error (msg : String)
deriving DecidableEq

/-- The values `saveSettings` writes to the `QSettings` store. -/
structure Settings where
  doNotDisturb : Bool
  allowedApps : List String
  blockedApps : List String
  showPreviews : Bool
  autoDismissAfter : Int
  quickReplies : List String
deriving DecidableEq

/-- A single-shot `QTimer` created by `snoozeNotification`: the object's
identity, the notification captured by the connected lambda, the interval in
milliseconds and the time it was started. -/
structure SnoozeTimer where
  handle : Nat
  notification : Notification
  interval : Int
  startedAt : Int
deriving DecidableEq

/-- The member variables of `NotificationManager`, with the trace of emitted
signals and of packets written to the control point. -/
structure Manager where
  m_isConnected : Bool
  m_deviceAddress : String
  m_platform : String
  m_notifications : List Notification
  m_history : List Notification
  m_doNotDisturb : Bool
  m_allowedApps : List String
  m_blockedApps : List String
  m_showPreviews : Bool
  m_autoDismissAfter : Int
  m_quickReplies : List String
  dismissTimerActive : Bool
  m_snoozeTimers : List (String × Nat)
  timers : List SnoozeTimer
  nextHandle : Nat
  mockMode : Bool
  controlPointValid : Bool
  settings : Settings
  emitted : List Signal
  written : List (List Byte)
deriving DecidableEq

/-- Statement `emit s;`. -/
def emit (m : Manager) (s : Signal) : Manager :=
  { m with emitted := m.emitted ++ [s] }

/-! ## Settings persistence -/

/-- Member function `saveSettings`. -/
def saveSettings (m : Manager) : Manager :=
  { m with settings :=
      { doNotDisturb := m.m_doNotDisturb
        allowedApps := m.m_allowedApps
        blockedApps := m.m_blockedApps
        showPreviews := m.m_showPreviews
        autoDismissAfter := m.m_autoDismissAfter
        quickReplies := m.m_quickReplies } }

/-- The quick replies the constructor installs before `loadSettings`. -/
def defaultQuickReplies : List String :=
  ["OK", "Thanks", "I'm driving, will respond later", "On my way",
   "Can't talk now", "Yes", "No"]

/-- The constructor followed by `loadSettings`: every list is empty, the
persisted settings `st` are copied into the members. -/
def construct (st : Settings) (mock : Bool) : Manager :=
  { m_isConnected := false
    m_deviceAddress := ""
    m_platform := "unknown"
    m_notifications := []
    m_history := []
    m_doNotDisturb := st.doNotDisturb
    m_allowedApps := st.allowedApps
    m_blockedApps := st.blockedApps
    m_showPreviews := st.showPreviews
    m_autoDismissAfter := st.autoDismissAfter
    m_quickReplies := st.quickReplies
    dismissTimerActive := false
    m_snoozeTimers := []
    timers := []
    nextHandle := 0
    mockMode := mock
    controlPointValid := false
    settings := st
    emitted := []
    written := [] }

/-- The store a first run finds: the defaults given to `settings.value`. -/
def defaultSettings : Settings :=
  { doNotDisturb := false
    allowedApps := []
    blockedApps := []
    showPreviews := true
    autoDismissAfter := 30
    quickReplies := defaultQuickReplies }

/-! ## Admission policy -/

/-- Member function `isAppAllowed`. -/
def isAppAllowed (m : Manager) (appId : String) : Bool :=
  if m.m_blockedApps.contains appId then false
  else if m.m_allowedApps.isEmpty then true
  else m.m_allowedApps.contains appId

/-- Member function `shouldShowNotification`. -/
def shouldShowNotification (m : Manager) (priority : Int) : Bool :=
  if !m.m_doNotDisturb then true
  else priority == Urgent

/-! ## Store mutations -/

/-- Member function `addNotification`. -/
def addNotification (m : Manager) (notification : Notification) : Manager :=
  let appId := notification.appId
  let priority := notification.priority
  if !isAppAllowed m appId then m
  else if !shouldShowNotification m priority then m
  else
    let m1 := { m with m_notifications := notification :: m.m_notifications }
    let m2 := emit m1 Signal.notificationsChanged
    let m3 := emit m2 Signal.notificationCountChanged
    let m4 := emit m3 Signal.hasUnreadChanged
    let m5 := emit m4 (Signal.notificationReceived notification)
    if priority == Urgent then emit m5 (Signal.urgentNotification notification)
    else m5

/-- The loop `while (m_history.size() > 100) m_history.removeLast();` with a
bound on the number of iterations. -/
def limitLoop : Nat → List Notification → List Notification
  | 0, h => h
  | fuel + 1, h => if 100 < h.length then limitLoop fuel h.dropLast else h

/-- The history-limiting loop of `removeNotification`: every iteration drops
one element, so `h.length` iterations are never exceeded
(`limitHistory_eq_take` shows the loop has finished by then). -/
def limitHistory (h : List Notification) : List Notification :=
  limitLoop h.length h

/-- The index of the first element of `l` whose id is `notificationId`: the
scan `for (int i = 0; i < size; ++i)` of `removeNotification`. -/
def findIndex (notificationId : String) : List Notification → Option Nat
  | [] => none
  | n :: rest =>
    if n.id == notificationId then some 0
    else (findIndex notificationId rest).map (· + 1)

/-- Member function `removeNotification`. -/
def removeNotification (m : Manager) (now : Int) (notificationId : String) : Manager :=
  match findIndex notificationId m.m_notifications with
  | none => m
  | some i =>
    match m.m_notifications.get? i with
    | none => m
    | some found =>
      let notif := { found with dismissedAt := some now }
      let m1 := { m with m_history := limitHistory (notif :: m.m_history) }
      let m2 := { m1 with m_notifications := m1.m_notifications.eraseIdx i }
      let m3 := emit m2 Signal.notificationsChanged
      let m4 := emit m3 Signal.notificationCountChanged
      emit m4 Signal.hasUnreadChanged

/-- The loop `for (const QString &id : toRemove) removeNotification(id);`
shared by `setDoNotDisturb`, `blockApp` and `onNotificationTimeout`. -/
def removeEach (m : Manager) (now : Int) (toRemove : List String) : Manager :=
  toRemove.foldl (fun acc id => removeNotification acc now id) m

/-! ## Wire format -/

/-- Element access `data[i]` of a `QByteArray`, read as `quint8`. -/
def byteAt (data : List Byte) (i : Nat) : Nat :=
  (data.getD i 0).val

/-- The call `qFromBigEndian<quint32>(data.constData() + 4)`. -/
def notificationUID (data : List Byte) : Nat :=
  byteAt data 4 * 16777216 + byteAt data 5 * 65536 + byteAt data 6 * 256 + byteAt data 7

/-- The expression `QString("ancs_%1").arg(notificationUID)`. -/
def ancsId (uid : Nat) : String :=
  "ancs_" ++ Nat.repr uid

/-- Member function `parseAncsNotification`; `none` is the empty map. -/
def parseAncsNotification (data : List Byte) (now : Int) : Option Notification :=
  if data.length < 8 then none
  else
    let eventFlags := byteAt data 1
    let categoryId := byteAt data 2
    let uid := notificationUID data
    some
      { id := ancsId uid
        category := (categoryId : Int)
        priority := if eventFlags &&& 2 ≠ 0 then Urgent else Normal
        timestamp := now
        read := false
        appName := "Unknown App"
        appId := "unknown"
        title := "New Notification"
        message := "Tap for details"
        dismissedAt := none
        snoozed := false }

/-- Slot `onCharacteristicChanged`; `isNotificationSource` is the test
`characteristic.uuid() == ANCS_NOTIFICATION_SOURCE_UUID`. -/
def onCharacteristicChanged (m : Manager) (isNotificationSource : Bool)
    (value : List Byte) (now : Int) : Manager :=
  if isNotificationSource then
    match parseAncsNotification value now with
    | none => m
    | some notification => addNotification m notification
  else m

/-- Qt library function `QString::mid(5)`. -/
def mid5 (s : String) : String :=
  String.mk (s.data.drop 5)

/-- Qt library function `QString::toUInt(&ok)` in base 10: surrounding white
space is skipped, one leading plus sign is accepted, the rest must be a
non-empty run of decimal digits whose value fits 32 bits; `none` is
`ok == false`. -/
def toUInt (s : String) : Option Nat :=
  let trimmed :=
    ((s.data.dropWhile Char.isWhitespace).reverse.dropWhile Char.isWhitespace).reverse
  let digits :=
    match trimmed with
    | '+' :: rest => rest
    | cs => cs
  if digits.isEmpty || !digits.all Char.isDigit then none
  else
    let v := digits.foldl (fun acc c => acc * 10 + (c.toNat - 48)) 0
    if v < 4294967296 then some v else none

/-- The four bytes `packet.append(reinterpret_cast<const char*>(&uid), 4)`
copies: the object representation of a `quint32` on the little-endian targets
the head unit is built for. -/
def uidBytes (uid : Nat) : List Byte :=
  [⟨uid % 256, Nat.mod_lt _ (by decide)⟩,
   ⟨uid / 256 % 256, Nat.mod_lt _ (by decide)⟩,
   ⟨uid / 65536 % 256, Nat.mod_lt _ (by decide)⟩,
   ⟨uid / 16777216 % 256, Nat.mod_lt _ (by decide)⟩]

/-- Member function `sendAncsCommand`. -/
def sendAncsCommand (m : Manager) (command : Byte) (notificationId : String) : Manager :=
  if !m.controlPointValid then m
  else
    match toUInt (mid5 notificationId) with
    | none => m
    | some uid => { m with written := m.written ++ [command :: uidBytes uid] }

/-! ## Notification actions -/

/-- Slot `dismissNotification`. -/
def dismissNotification (m : Manager) (now : Int) (notificationId : String) : Manager :=
  let m1 :=
    if m.mockMode then removeNotification m now notificationId
    else
      let m0 := if m.m_platform == "ios" then sendAncsCommand m 2 notificationId else m
      removeNotification m0 now notificationId
  emit m1 (Signal.notificationDismissed notificationId)

/-- Slot `dismissAll`. -/
def dismissAll (m : Manager) (now : Int) : Manager :=
  let ids := m.m_notifications.map (·.id)
  ids.foldl (fun acc id => dismissNotification acc now id) m

/-- The loop of `markAsRead` over the active list: the first record with the
id gets `read = true`; the result is `none` when no record has the id. -/
def markFirstRead (notificationId : String) : List Notification → Option (List Notification)
  | [] => none
  | n :: rest =>
    if n.id == notificationId then some ({ n with read := true } :: rest)
    else (markFirstRead notificationId rest).map (n :: ·)

/-- Slot `markAsRead`. -/
def markAsRead (m : Manager) (notificationId : String) : Manager :=
  match markFirstRead notificationId m.m_notifications with
  | none => m
  | some l =>
    let m1 := { m with m_notifications := l }
    let m2 := emit m1 Signal.notificationsChanged
    let m3 := emit m2 (Signal.notificationUpdated notificationId)
    emit m3 Signal.hasUnreadChanged

/-- Slot `replyToNotification`. -/
def replyToNotification (m : Manager) (now : Int) (notificationId : String)
    (message : String) : Manager :=
  if m.mockMode then
    let reply : Notification :=
      { id := "reply_" ++ notificationId
        appId := "com.apple.MobileSMS"
        appName := "Messages"
        title := "You"
        message := message
        timestamp := now
        category := Other
        priority := Silent
        read := true
        dismissedAt := none
        snoozed := false }
    let m1 := addNotification m reply
    let m2 := dismissNotification m1 now notificationId
    emit m2 (Signal.replySent notificationId message)
  else
    emit m (Signal.replySent notificationId message)

/-- Slot `openNotification`. -/
def openNotification (m : Manager) (now : Int) (notificationId : String) : Manager :=
  let m0 :=
    if !m.mockMode && m.m_platform == "ios" then sendAncsCommand m 0 notificationId else m
  removeNotification m0 now notificationId

/-- Conversion of a mathematical result to the 32-bit `int` that holds it. -/
def toInt32 (x : Int) : Int :=
  (x + 2147483648) % 4294967296 - 2147483648

/-- The expression `minutes * 60 * 1000` in `int` arithmetic. -/
def snoozeInterval (minutes : Int) : Int :=
  toInt32 (toInt32 (minutes * 60) * 1000)

/-- The lookup loop at the head of `snoozeNotification` (also
`getNotification`): the first active record with the id. -/
def findNotification (notificationId : String) (l : List Notification) : Option Notification :=
  l.find? (fun n => n.id == notificationId)

/-- Assignment `m_snoozeTimers[id] = timer` on the `QMap`. -/
def mapInsert (k : String) (v : Nat) (mp : List (String × Nat)) : List (String × Nat) :=
  (k, v) :: mp.filter (fun e => e.1 != k)

/-- Slot `snoozeNotification`. -/
def snoozeNotification (m : Manager) (now : Int) (notificationId : String)
    (minutes : Int) : Manager :=
  match findNotification notificationId m.m_notifications with
  | none => m
  | some notification =>
    let m1 := removeNotification m now notificationId
    let snoozeTimer : SnoozeTimer :=
      { handle := m1.nextHandle
        notification := notification
        interval := snoozeInterval minutes
        startedAt := now }
    { m1 with
      nextHandle := m1.nextHandle + 1
      m_snoozeTimers := mapInsert notificationId snoozeTimer.handle m1.m_snoozeTimers
      timers := m1.timers ++ [snoozeTimer] }

/-- The lambda connected to the timeout of the snooze timer `handle`; a timer
that is not pending does not fire. -/
def onSnoozeTimeout (m : Manager) (handle : Nat) : Manager :=
  match m.timers.find? (fun t => t.handle == handle) with
  | none => m
  | some t =>
    let m0 := { m with timers := m.timers.filter (fun x => x.handle != handle) }
    let snoozed := { t.notification with snoozed := true }
    let m1 := addNotification m0 snoozed
    let id := t.notification.id
    match m1.m_snoozeTimers.find? (fun e => e.1 == id) with
    | none => m1
    | some e =>
      { m1 with
        timers := m1.timers.filter (fun x => x.handle != e.2)
        m_snoozeTimers := m1.m_snoozeTimers.filter (fun x => x.1 != id) }

/-- Slot `performAction`. -/
def performAction (m : Manager) (_notificationId _actionId : String) : Manager :=
  m

/-! ## Filtering and settings -/

/-- Slot `setDoNotDisturb`. -/
def setDoNotDisturb (m : Manager) (now : Int) (enabled : Bool) : Manager :=
  if m.m_doNotDisturb != enabled then
    let m1 := { m with m_doNotDisturb := enabled }
    let m2 := emit m1 Signal.doNotDisturbChanged
    let m3 := saveSettings m2
    if enabled then
      let toRemove :=
        (m3.m_notifications.filter (fun n => n.priority != Urgent)).map (·.id)
      removeEach m3 now toRemove
    else m3
  else m

/-- Slot `setAllowedApps`. -/
def setAllowedApps (m : Manager) (apps : List String) : Manager :=
  saveSettings (emit { m with m_allowedApps := apps } Signal.allowedAppsChanged)

/-- Slot `setBlockedApps`. -/
def setBlockedApps (m : Manager) (apps : List String) : Manager :=
  saveSettings (emit { m with m_blockedApps := apps } Signal.blockedAppsChanged)

/-- Slot `allowApp`. -/
def allowApp (m : Manager) (appId : String) : Manager :=
  let m1 :=
    if !m.m_allowedApps.contains appId then
      saveSettings (emit { m with m_allowedApps := m.m_allowedApps ++ [appId] }
        Signal.allowedAppsChanged)
    else m
  if m1.m_blockedApps.contains appId then
    emit { m1 with m_blockedApps := m1.m_blockedApps.filter (· != appId) }
      Signal.blockedAppsChanged
  else m1

/-- Slot `blockApp`. -/
def blockApp (m : Manager) (now : Int) (appId : String) : Manager :=
  let m1 :=
    if !m.m_blockedApps.contains appId then
      saveSettings (emit { m with m_blockedApps := m.m_blockedApps ++ [appId] }
        Signal.blockedAppsChanged)
    else m
  let m2 :=
    if m1.m_allowedApps.contains appId then
      emit { m1 with m_allowedApps := m1.m_allowedApps.filter (· != appId) }
        Signal.allowedAppsChanged
    else m1
  let toRemove := (m2.m_notifications.filter (fun n => n.appId == appId)).map (·.id)
  removeEach m2 now toRemove

/-- Slot `setShowPreviews`. -/
def setShowPreviews (m : Manager) (enabled : Bool) : Manager :=
  if m.m_showPreviews != enabled then
    saveSettings (emit { m with m_showPreviews := enabled } Signal.showPreviewsChanged)
  else m

/-- Slot `setAutoDismissAfter`. -/
def setAutoDismissAfter (m : Manager) (seconds : Int) : Manager :=
  let m1 := saveSettings (emit { m with m_autoDismissAfter := seconds }
    Signal.autoDismissAfterChanged)
  { m1 with dismissTimerActive := decide (seconds > 0) }

/-- Slot `clearHistory`. -/
def clearHistory (m : Manager) : Manager :=
  { m with m_history := [] }

/-- Slot `setQuickReplies`. -/
def setQuickReplies (m : Manager) (replies : List String) : Manager :=
  saveSettings (emit { m with m_quickReplies := replies } Signal.quickRepliesChanged)

/-- Slot `sendQuickReply`. -/
def sendQuickReply (m : Manager) (now : Int) (notificationId : String)
    (replyIndex : Int) : Manager :=
  if replyIndex < 0 ∨ replyIndex ≥ (m.m_quickReplies.length : Int) then m
  else
    match m.m_quickReplies.get? replyIndex.toNat with
    | none => m
    | some reply => replyToNotification m now notificationId reply

/-- Slot `onNotificationTimeout`, the body of the one-second sweep. -/
def onNotificationTimeout (m : Manager) (now : Int) : Manager :=
  if m.m_autoDismissAfter ≤ 0 then m
  else
    let toRemove :=
      (m.m_notifications.filter
        (fun n => decide (now - n.timestamp ≥ m.m_autoDismissAfter))).map (·.id)
    removeEach m now toRemove

/-! ## Mock data and connection -/

/-- The three records of `generateMockNotifications`. -/
def mockNotifs (now : Int) : List Notification :=
  [ { id := "notif_1", appId := "com.whatsapp", appName := "WhatsApp", title := "Mom"
      message := "Don't forget dinner tonight!", timestamp := now
      category := Social, priority := Normal, read := false
      dismissedAt := none, snoozed := false },
    { id := "notif_2", appId := "com.google.Gmail", appName := "Gmail", title := "New Email"
      message := "Meeting reminder: Team sync at 3 PM", timestamp := now - 300
      category := Email, priority := Normal, read := false
      dismissedAt := none, snoozed := false },
    { id := "notif_3", appId := "com.apple.mobilecal", appName := "Calendar"
      title := "Event in 15 minutes", message := "Dentist Appointment"
      timestamp := now - 60, category := Schedule, priority := Urgent, read := false
      dismissedAt := none, snoozed := false } ]

/-- Member function `generateMockNotifications`. -/
def generateMockNotifications (m : Manager) (now : Int) : Manager :=
  (mockNotifs now).foldl addNotification m

/-- The single-shot lambda the constructor schedules in mock mode. -/
def mockStartup (m : Manager) (now : Int) : Manager :=
  let m1 := { m with m_isConnected := true, m_platform := "ios" }
  let m2 := emit (emit m1 Signal.connectionChanged) Signal.platformChanged
  generateMockNotifications m2 now

/-- Qt library function `QString::toLower`, on the ASCII letters. -/
def toLower (s : String) : String :=
  String.mk (s.data.map Char.toLower)

/-- Slot `connectToDevice`.  In real mode with platform "ios" the slot sets
`m_bleController = nullptr` and then calls `m_bleController->connectToDevice()`:
the call does not return, which is the result `none`. -/
def connectToDevice (m : Manager) (deviceAddress platform : String) : Option Manager :=
  let m1 := emit { m with m_deviceAddress := deviceAddress, m_platform := toLower platform }
    Signal.platformChanged
  if m1.mockMode then some (emit { m1 with m_isConnected := true } Signal.connectionChanged)
  else if m1.m_platform == "ios" then none
  else if m1.m_platform == "android" then
    some (emit m1 (Signal.error "Android notifications require companion app"))
  else some m1

/-- Slot `disconnect`. -/
def disconnect (m : Manager) : Manager :=
  emit { m with m_isConnected := false } Signal.connectionChanged

/-- Slot `onServiceStateChanged`; the three flags are `isValid()` of the
control point, of the notification source and of its configuration
descriptor. -/
def onServiceStateChanged (m : Manager) (discovered controlPoint source descriptor : Bool) :
    Manager :=
  if discovered then
    let m1 := { m with controlPointValid := controlPoint }
    if source && descriptor then emit { m1 with m_isConnected := true } Signal.connectionChanged
    else m1
  else m

/-! ## The engine as a transition system -/

/-- The events the object reacts to: its public slots, its timers and, in
real mode, the Bluetooth callbacks. -/
inductive Op where
  | connectToDevice (deviceAddress platform : String)
  | disconnect
  | dismissNotification (now : Int) (notificationId : String)
  | dismissAll (now : Int)
  | markAsRead (notificationId : String)
  | openNotification (now : Int) (notificationId : String)
  | replyToNotification (now : Int) (notificationId message : String)
  | snoozeNotification (now : Int) (notificationId : String) (minutes : Int)
  | performAction (notificationId actionId : String)
  | sendQuickReply (now : Int) (notificationId : String) (replyIndex : Int)
  | setDoNotDisturb (now : Int) (enabled : Bool)
  | setAllowedApps (apps : List String)
  | setBlockedApps (apps : List String)
  | allowApp (appId : String)
  | blockApp (now : Int) (appId : String)
  | setShowPreviews (enabled : Bool)
  | setAutoDismissAfter (seconds : Int)
  | setQuickReplies (replies : List String)
  | clearHistory
  | notificationTimeout (now : Int)
  | snoozeTimeout (handle : Nat)
  | mockStartup (now : Int)
  | serviceStateChanged (discovered controlPoint source descriptor : Bool)
  | characteristicChanged (isNotificationSource : Bool) (value : List Byte) (now : Int)

/-- One event applied to the object.  The sweep runs only while the dismiss
timer is started; the mock start-up exists only in mock mode and the
Bluetooth callbacks only in real mode.  A call of `connectToDevice` that does
not return ends the life of the object, so it is followed by no state: `step`
leaves the object as it was, and the states of `run` are the states of the
runs in which every call returns. -/
def step (m : Manager) : Op → Manager
  | .connectToDevice a p => (connectToDevice m a p).getD m
  | .disconnect => disconnect m
  | .dismissNotification now id => dismissNotification m now id
  | .dismissAll now => dismissAll m now
  | .markAsRead id => markAsRead m id
  | .openNotification now id => openNotification m now id
  | .replyToNotification now id msg => replyToNotification m now id msg
  | .snoozeNotification now id minutes => snoozeNotification m now id minutes
  | .performAction id a => performAction m id a
  | .sendQuickReply now id i => sendQuickReply m now id i
  | .setDoNotDisturb now e => setDoNotDisturb m now e
  | .setAllowedApps apps => setAllowedApps m apps
  | .setBlockedApps apps => setBlockedApps m apps
  | .allowApp a => allowApp m a
  | .blockApp now a => blockApp m now a
  | .setShowPreviews e => setShowPreviews m e
  | .setAutoDismissAfter s => setAutoDismissAfter m s
  | .setQuickReplies r => setQuickReplies m r
  | .clearHistory => clearHistory m
  | .notificationTimeout now => if m.dismissTimerActive then onNotificationTimeout m now else m
  | .snoozeTimeout h => onSnoozeTimeout m h
  | .mockStartup now => if m.mockMode then mockStartup m now else m
  | .serviceStateChanged d c s e => if m.mockMode then m else onServiceStateChanged m d c s e
  | .characteristicChanged b v now =>
    if m.mockMode then m else onCharacteristicChanged m b v now

/-- A run: the events of `ops` applied in order. -/
def run (m : Manager) (ops : List Op) : Manager :=
  ops.foldl step m

/-- The states the object can be in: a freshly constructed object after any
finite sequence of events. -/
def Reachable (m : Manager) : Prop :=
  ∃ st mock ops, m = run (construct st mock) ops

/-! ## Sample data -/

/-- The record used to exercise the admission theorems. -/
def sampleRecord : Notification :=
  { id := "ancs_7", appId := "com.whatsapp", appName := "WhatsApp", title := "Mom"
    message := "hello", timestamp := 10, category := Social, priority := Normal
    read := false, dismissedAt := none, snoozed := false }

/-- A policy state with `com.whatsapp` on both lists and do-not-disturb on. -/
def strictManager : Manager :=
  { construct defaultSettings false with
    m_allowedApps := ["com.whatsapp"]
    m_blockedApps := ["com.whatsapp"]
    m_doNotDisturb := true }

/-! ## Specification vocabulary -/

/-- The Boolean admission decision of `addNotification`: both guards pass. -/
def passesPolicy (m : Manager) (n : Notification) : Bool :=
  isAppAllowed m n.appId && shouldShowNotification m n.priority

/-- The signals `addNotification` emits for an passesPolicy record. -/
def admissionSignals (n : Notification) : List Signal :=
  [Signal.notificationsChanged, Signal.notificationCountChanged, Signal.hasUnreadChanged,
    Signal.notificationReceived n] ++
  (if n.priority = Urgent then [Signal.urgentNotification n] else [])

/-- The characters a decimal rendering is made of. -/
def decimalChars : List Char :=
  ['0', '1', '2', '3', '4', '5', '6', '7', '8', '9']

/-- The frame of the decoding scenario: flags 0, category 5, UID 42. -/
def scenarioFrame : List Byte :=
  [0x00, 0x00, 0x05, 0x01, 0x00, 0x00, 0x00, 0x2A]

/-- The three signals `removeNotification` emits after a removal. -/
def removalSignals : List Signal :=
  [Signal.notificationsChanged, Signal.notificationCountChanged, Signal.hasUnreadChanged]

/-- The copy of `n` that is written to the history: `dismissedAt` set. -/
def dismissedCopy (now : Int) (n : Notification) : Notification :=
  { n with dismissedAt := some now }

/-- A second sample record, Urgent, with the id of `sampleRecord`. -/
def urgentRecord : Notification :=
  { id := "ancs_7", appId := "com.apple.mobilecal", appName := "Calendar", title := "Event"
    message := "Dentist", timestamp := 20, category := Schedule, priority := Urgent
    read := false, dismissedAt := none, snoozed := false }

/-- A third sample record with an id of its own. -/
def otherRecord : Notification :=
  { id := "ancs_8", appId := "com.google.Gmail", appName := "Gmail", title := "New Email"
    message := "Meeting", timestamp := 30, category := Email, priority := Normal
    read := false, dismissedAt := none, snoozed := false }

/-- A fresh object whose active list holds `otherRecord` then `sampleRecord`. -/
def twoActive : Manager :=
  { construct defaultSettings false with m_notifications := [otherRecord, sampleRecord] }

/-- One insertion at the head of the history followed by the limiting loop,
as `removeNotification` performs it. -/
def pushHistory (now : Int) (h : List Notification) (r : Notification) : List Notification :=
  (dismissedCopy now r :: h).take 100

/-- The signals of `k` successive removals. -/
def repeatedRemovalSignals : Nat → List Signal
  | 0 => []
  | k + 1 => removalSignals ++ repeatedRemovalSignals k

/-- The app every record with a given id comes from.  Records enter the store
in three places only: the decoder (id "ancs_" + UID, app "unknown"), the
reply echo (id "reply_" + id, app Messages) and the three mock records. -/
def originApp (id : String) : String :=
  if id.data.take 5 = "ancs_".data then "unknown"
  else if id.data.take 6 = "reply_".data then "com.apple.MobileSMS"
  else if id = "notif_1" then "com.whatsapp"
  else if id = "notif_2" then "com.google.Gmail"
  else "com.apple.mobilecal"

/-- What every reachable object satisfies: the history holds at most 100
entries, and the app of every active record and of every record parked in a
snooze timer is the one its id stands for. -/
structure StoreInvariant (m : Manager) : Prop where
  history_le : m.m_history.length ≤ 100
  active_ok : ∀ r ∈ m.m_notifications, r.appId = originApp r.id
  timers_ok : ∀ t ∈ m.timers, t.notification.appId = originApp t.notification.id

/-- The ids of the active list, in order. -/
def activeIds (m : Manager) : List String :=
  m.m_notifications.map (·.id)

/-- The ids held by the three places a record can be in: the active list, the
records parked in pending snooze timers, and the history. -/
def allIds (m : Manager) : List String :=
  m.m_notifications.map (·.id) ++ m.timers.map (·.notification.id) ++ m.m_history.map (·.id)

/-- An object whose history is full: 100 entries, one active record. -/
def fullHistory : Manager :=
  { construct defaultSettings false with
    m_notifications := [sampleRecord]
    m_history := List.replicate 100 otherRecord }

/-- The real-mode run in which the scenario frame arrives twice. -/
def sameFrameTwice : Manager :=
  run (construct defaultSettings false)
    [Op.characteristicChanged true scenarioFrame 0,
     Op.characteristicChanged true scenarioFrame 1]

/-- The real-mode run in which the scenario frame arrives, the record is
snoozed for one minute and the snooze timer fires. -/
def snoozedAndBack : Manager :=
  run (construct defaultSettings false)
    [Op.characteristicChanged true scenarioFrame 0,
     Op.snoozeNotification 5 "ancs_42" 1,
     Op.snoozeTimeout 0]

/-- The mock-mode run that has produced the three mock records. -/
def mockStarted : Manager :=
  run (construct defaultSettings true) [Op.mockStartup 100]

/-- The two policy lists share no app id. -/
def Exclusive (m : Manager) : Prop :=
  ∀ a ∈ m.m_allowedApps, a ∉ m.m_blockedApps

/-- A fresh object whose block-list holds `com.whatsapp` and whose allow-list
is empty. -/
def whatsappBlocked : Manager :=
  { construct defaultSettings false with m_blockedApps := ["com.whatsapp"] }

/-- A fresh object whose allow-list holds `com.whatsapp` and `com.google.Gmail`
and whose block-list holds `com.apple.mobilecal`. -/
def mixedPolicy : Manager :=
  { construct defaultSettings false with
    m_allowedApps := ["com.whatsapp", "com.google.Gmail"]
    m_blockedApps := ["com.apple.mobilecal"] }

/-- The real-mode run in which the scenario frame has arrived: one active
record "ancs_42", empty history, no timer. -/
def oneArrived : Manager :=
  run (construct defaultSettings false) [Op.characteristicChanged true scenarioFrame 0]

/-- The record a snooze timer hands to `addNotification` when it fires: the
captured record with the key `snoozed` set. -/
def resurfaced (n : Notification) : Notification :=
  { n with snoozed := true }

/-- The pending timers after the timer `handle` that holds a record with id
`id` has fired: the timer itself is no longer pending, and the timer the
registry names for the id has been deleted. -/
def timersAfterFiring (m : Manager) (handle : Nat) (id : String) : List SnoozeTimer :=
  match m.m_snoozeTimers.find? (fun e => e.1 == id) with
  | none => m.timers.filter (fun x => x.handle != handle)
  | some e => (m.timers.filter (fun x => x.handle != handle)).filter (fun x => x.handle != e.2)

/-- The real-mode run in which the scenario record is snoozed, its app is then
blocked, and the snooze timer fires. -/
def blockedWhileParked : Manager :=
  run (construct defaultSettings false)
    [Op.characteristicChanged true scenarioFrame 0,
     Op.snoozeNotification 5 "ancs_42" 1,
     Op.blockApp 10 "unknown",
     Op.snoozeTimeout 0]

/-- The real-mode run in which the scenario record is snoozed and
do-not-disturb is then enabled, before the snooze timer fires. -/
def dndWhileParked : Manager :=
  run (construct defaultSettings false)
    [Op.characteristicChanged true scenarioFrame 0,
     Op.snoozeNotification 5 "ancs_42" 1,
     Op.setDoNotDisturb 10 true,
     Op.snoozeTimeout 0]

/-- The real-mode run in which the scenario record is snoozed, then its id is
dismissed and the history is cleared, all before the timer fires. -/
def dismissedWhileParked : Manager :=
  run (construct defaultSettings false)
    [Op.characteristicChanged true scenarioFrame 0,
     Op.snoozeNotification 5 "ancs_42" 1,
     Op.dismissNotification 6 "ancs_42",
     Op.clearHistory]

/-- The local echo record built by `replyToNotification` in mock mode. -/
def replyEcho (now : Int) (notificationId message : String) : Notification :=
  { id := "reply_" ++ notificationId
    appId := "com.apple.MobileSMS"
    appName := "Messages"
    title := "You"
    message := message
    timestamp := now
    category := Other
    priority := Silent
    read := true
    dismissedAt := none
    snoozed := false }

/-- A property `G` of records and a property `H` of snooze timers that the
engine cannot break: `G` holds of every record the engine creates (decoded,
echo, mock), survives the marking as read and as snoozed, and `H` holds of
every timer that is created with a handle of at least `B` for a record
satisfying `G`. -/
structure Admissible (G : Notification → Prop) (H : SnoozeTimer → Prop) (B : Nat) : Prop where
  read : ∀ r : Notification, G r → G { r with read := true }
  snoozed : ∀ r : Notification, G r → G (resurfaced r)
  decoded : ∀ (data : List Byte) (now : Int) (n : Notification),
    parseAncsNotification data now = some n → G n
  echo : ∀ (now : Int) (notificationId message : String),
    G (replyEcho now notificationId message)
  mock : ∀ (now : Int), ∀ r ∈ mockNotifs now, G r
  fresh : ∀ (h : Nat) (r : Notification) (i s : Int), B ≤ h → G r → H ⟨h, r, i, s⟩

/-- The invariant that goes with an admissible pair: every active record
satisfies `G`, every pending timer holds a record satisfying `G`, satisfies
`H` and has a handle below the next one to be given out, which in turn is at
least `B`. -/
structure ParkedInvariant (G : Notification → Prop) (H : SnoozeTimer → Prop) (B : Nat)
    (m : Manager) : Prop where
  active_ok : ∀ r ∈ m.m_notifications, G r
  timers_ok : ∀ t ∈ m.timers, G t.notification ∧ H t ∧ t.handle < m.nextHandle
  bound : B ≤ m.nextHandle

/-- The record the scenario frame decodes to at time 0. -/
def scenarioRecord : Notification :=
  { id := "ancs_42", appId := "unknown", appName := "Unknown App", title := "New Notification"
    message := "Tap for details", timestamp := 0, category := Schedule, priority := Normal
    read := false, dismissedAt := none, snoozed := false }

/-- The real-mode run in which the sweep is started with a threshold of 30
seconds and UID 42 arrives at time 0 and again at time 25: two active records
share the id, the one at the head is 25 seconds younger. -/
def sameUidTwoTimes : Manager :=
  run (construct defaultSettings false)
    [Op.setAutoDismissAfter 30,
     Op.characteristicChanged true scenarioFrame 0,
     Op.characteristicChanged true scenarioFrame 25]

/-- The age test of the sweep: `timestamp.secsTo(now) >= m_autoDismissAfter`. -/
def expired (m : Manager) (now : Int) (n : Notification) : Bool :=
  decide (now - n.timestamp ≥ m.m_autoDismissAfter)

/-- The state the command slots are written for: a real-mode object with
platform "ios", a valid control point and the scenario record active.  No run
produces it, because in real mode `connectToDevice` does not return for
"ios"; it serves to evaluate the slots where their precondition holds. -/
def linkUp : Manager :=
  { oneArrived with
    m_isConnected := true
    m_deviceAddress := "AA:BB:CC:DD:EE:FF"
    m_platform := "ios"
    controlPointValid := true }

/-- The value of four bytes read least significant byte first. -/
def littleEndian (bytes : List Byte) : Nat :=
  (bytes.getD 0 0).val + (bytes.getD 1 0).val * 256 + (bytes.getD 2 0).val * 65536
    + (bytes.getD 3 0).val * 16777216

/-- A fresh mock-mode object on which do-not-disturb is on. -/
def dndMock : Manager :=
  construct { defaultSettings with doNotDisturb := true } true

/-- A fresh mock-mode object whose block-list holds the Messages app. -/
def messagesBlockedMock : Manager :=
  construct { defaultSettings with blockedApps := ["com.apple.MobileSMS"] } true

/-- The three signals `markAsRead` emits when it has found the id. -/
def readSignals (notificationId : String) : List Signal :=
  [Signal.notificationsChanged, Signal.notificationUpdated notificationId,
    Signal.hasUnreadChanged]

/-- The scenario frame with flag bit 0x02 set. -/
def importantFrame : List Byte :=
  [0x00, 0x02, 0x05, 0x01, 0x00, 0x00, 0x00, 0x2A]

/-- The packet `sendAncsCommand` builds for a command and a UID. -/
def commandPacket (command : Byte) (uid : Nat) : List Byte :=
  command :: uidBytes uid

/-- The UID `dismissNotification` sends a command for: the id parses and the
object is a real-mode object on platform "ios" with a valid control point. -/
def deviceUid (m : Manager) (notificationId : String) : Option Nat :=
  if !m.mockMode && m.m_platform == "ios" && m.controlPointValid then
    toUInt (mid5 notificationId)
  else none

/-- The packets one call of `dismissNotification` writes: none or one. -/
def dismissPackets (m : Manager) (notificationId : String) : List (List Byte) :=
  match deviceUid m notificationId with
  | some u => [commandPacket 2 u]
  | none => []

/-- The signal is `notificationDismissed`. -/
def isDismissed : Signal → Bool
  | Signal.notificationDismissed _ => true
  | _ => false

/-- The signals `dismissAll` emits for the records it goes through. -/
def dismissAllSignals : List Notification → List Signal
  | [] => []
  | x :: rest =>
    removalSignals ++ [Signal.notificationDismissed x.id] ++ dismissAllSignals rest

/-- The packets `dismissAll` writes for the records it goes through. -/
def dismissAllPackets (m : Manager) : List Notification → List (List Byte)
  | [] => []
  | x :: rest => dismissPackets m x.id ++ dismissAllPackets m rest

/-- The state `linkUp` with three active records: the scenario record twice
and a local echo between them. -/
def threeOnLink : Manager :=
  { linkUp with
    m_notifications := [scenarioRecord, replyEcho 3 "ancs_42" "OK", scenarioRecord] }

/-- What an operation may do to a record it leaves in the active list: leave
it as it is, or set its key `read`. -/
def Survives (r r' : Notification) : Prop :=
  r' = r ∨ r' = { r with read := true }

instance (r r' : Notification) : Decidable (Survives r r') :=
  inferInstanceAs (Decidable (r' = r ∨ r' = { r with read := true }))

/-- The records an event hands to `addNotification`, last one first: the echo
of a reply, the record a pending snooze timer captured (with the key
`snoozed` set), the mock records, the record decoded from a frame.  Every
other event hands over none. -/
def inserted (m : Manager) : Op → List Notification
  | .replyToNotification now id msg => [replyEcho now id msg]
  | .sendQuickReply now id i =>
    match m.m_quickReplies.get? i.toNat with
    | some reply => [replyEcho now id reply]
    | none => []
  | .snoozeTimeout h =>
    match m.timers.find? (fun t => t.handle == h) with
    | some t => [resurfaced t.notification]
    | none => []
  | .mockStartup now => (mockNotifs now).reverse
  | .characteristicChanged _ v now => (parseAncsNotification v now).toList
  | _ => []

/-- The real-mode run in which the scenario record has arrived and has been
read. -/
def readArrived : Manager :=
  run (construct defaultSettings false)
    [Op.characteristicChanged true scenarioFrame 0, Op.markAsRead "ancs_42"]

/-- The time, in milliseconds, at which a single-shot timer times out:
`interval` milliseconds after the second `startedAt` in which it was started. -/
def dueAt (t : SnoozeTimer) : Int :=
  t.startedAt * 1000 + t.interval

/-- The real-mode run in which the sweep is started with a threshold of
`seconds` and the scenario record arrives at time 0. -/
def sweepArmed (seconds : Int) : Manager :=
  run (construct defaultSettings false)
    [Op.setAutoDismissAfter seconds, Op.characteristicChanged true scenarioFrame 0]

theorem isAppAllowed_iff (m : Manager) (appId : String) :
    isAppAllowed m appId = true ↔
      appId ∉ m.m_blockedApps ∧ (m.m_allowedApps = [] ∨ appId ∈ m.m_allowedApps) := by
  unfold isAppAllowed
  by_cases hb : appId ∈ m.m_blockedApps
  · simp [hb]
  · by_cases he : m.m_allowedApps = []
    · simp [hb, he]
    · simp [hb, he, List.isEmpty_iff]

theorem shouldShowNotification_iff (m : Manager) (priority : Int) :
    shouldShowNotification m priority = true ↔
      m.m_doNotDisturb = false ∨ priority = Urgent := by
  unfold shouldShowNotification
  cases m.m_doNotDisturb <;> simp

theorem passesPolicy_iff (m : Manager) (n : Notification) :
    passesPolicy m n = true ↔
      n.appId ∉ m.m_blockedApps ∧ (m.m_allowedApps = [] ∨ n.appId ∈ m.m_allowedApps) ∧
        (m.m_doNotDisturb = false ∨ n.priority = Urgent) := by
  unfold passesPolicy
  rw [Bool.and_eq_true, isAppAllowed_iff, shouldShowNotification_iff, and_assoc]

theorem addNotification_rejected (m : Manager) (n : Notification)
    (h : passesPolicy m n = false) : addNotification m n = m := by
  unfold passesPolicy at h
  cases ha : isAppAllowed m n.appId
  · simp [addNotification, ha]
  · cases hs : shouldShowNotification m n.priority
    · simp [addNotification, hs]
    · simp [ha, hs] at h

theorem addNotification_accepted (m : Manager) (n : Notification)
    (h : passesPolicy m n = true) :
    addNotification m n =
      { m with
        m_notifications := n :: m.m_notifications
        emitted := m.emitted ++ admissionSignals n } := by
  unfold passesPolicy at h
  rw [Bool.and_eq_true] at h
  obtain ⟨h1, h2⟩ := h
  by_cases hu : n.priority = Urgent
  · have hb : (n.priority == Urgent) = true := by simp [hu]
    simp only [addNotification, admissionSignals, h1, h2, hb, if_pos hu, emit]
    simp
  · have hb : (n.priority == Urgent) = false := by simp [hu]
    simp only [addNotification, admissionSignals, h1, h2, hb, if_neg hu, emit]
    simp

/-- C1: the admission decision of `addNotification` depends only on the app
id, the priority, the two app lists and the do-not-disturb flag: the record is
prepended exactly when its app is not blocked, the allow-list is empty or
holds the app, and do-not-disturb is off or the priority is Urgent.  An app on
both lists is rejected, and under do-not-disturb every priority other than
Urgent (Silent, Low, Normal and High among them) is rejected. -/
theorem admission_decision (m : Manager) (n : Notification) :
    ((addNotification m n).m_notifications = n :: m.m_notifications ↔
      n.appId ∉ m.m_blockedApps ∧ (m.m_allowedApps = [] ∨ n.appId ∈ m.m_allowedApps) ∧
        (m.m_doNotDisturb = false ∨ n.priority = Urgent)) ∧
    (passesPolicy m n = true ↔
      n.appId ∉ m.m_blockedApps ∧ (m.m_allowedApps = [] ∨ n.appId ∈ m.m_allowedApps) ∧
        (m.m_doNotDisturb = false ∨ n.priority = Urgent)) ∧
    (n.appId ∈ m.m_blockedApps → n.appId ∈ m.m_allowedApps → addNotification m n = m) ∧
    (m.m_doNotDisturb = true → n.priority ≠ Urgent → addNotification m n = m) ∧
    (m.m_doNotDisturb = true →
      shouldShowNotification m Silent = false ∧ shouldShowNotification m Low = false ∧
      shouldShowNotification m Normal = false ∧ shouldShowNotification m High = false) := by
  refine ⟨?_, passesPolicy_iff m n, ?_, ?_, ?_⟩
  · rw [← passesPolicy_iff]
    constructor
    · intro h
      by_contra hc
      rw [Bool.not_eq_true] at hc
      rw [addNotification_rejected m n hc] at h
      exact absurd h (List.cons_ne_self n m.m_notifications).symm
    · intro h
      rw [addNotification_accepted m n h]
  · intro hb _
    apply addNotification_rejected
    rw [← Bool.not_eq_true, passesPolicy_iff]
    exact fun h => h.1 hb
  · intro hd hp
    apply addNotification_rejected
    rw [← Bool.not_eq_true, passesPolicy_iff]
    intro h
    rcases h.2.2 with h1 | h1
    · rw [hd] at h1
      exact Bool.noConfusion h1
    · exact hp h1
  · intro hd
    simp [shouldShowNotification, hd, Silent, Low, Normal, High, Urgent]

/-- C1 at a state where the app is on both lists and do-not-disturb is on. -/
theorem admission_decision_witness :
    addNotification strictManager sampleRecord = strictManager ∧
    shouldShowNotification strictManager High = false :=
  ⟨(admission_decision strictManager sampleRecord).2.2.1 (by decide) (by decide),
   ((admission_decision strictManager sampleRecord).2.2.2.2 rfl).2.2.2⟩

/-- C2: a record the policy suppresses leaves the whole object unchanged
(active list, history, policy, emitted signals); an passesPolicy record is
prepended to the active list, nothing else of the store changes, and the
signals emitted are notificationsChanged, notificationCountChanged,
hasUnreadChanged, notificationReceived and, exactly when the priority is
Urgent, urgentNotification. -/
theorem addNotification_effect (m : Manager) (r : Notification) :
    (passesPolicy m r = false → addNotification m r = m) ∧
    (passesPolicy m r = true →
      addNotification m r =
        { m with
          m_notifications := r :: m.m_notifications
          emitted := m.emitted ++ admissionSignals r } ∧
      (addNotification m r).m_notifications = r :: m.m_notifications ∧
      (addNotification m r).m_notifications.length = m.m_notifications.length + 1 ∧
      (addNotification m r).m_history = m.m_history ∧
      (addNotification m r).emitted =
        m.emitted ++
          [Signal.notificationsChanged, Signal.notificationCountChanged,
            Signal.hasUnreadChanged, Signal.notificationReceived r] ++
          (if r.priority = Urgent then [Signal.urgentNotification r] else []) ∧
      (Signal.urgentNotification r ∈ admissionSignals r ↔ r.priority = Urgent)) := by
  refine ⟨addNotification_rejected m r, fun h => ?_⟩
  rw [addNotification_accepted m r h]
  refine ⟨rfl, rfl, rfl, rfl, ?_, ?_⟩
  · show m.emitted ++ admissionSignals r = _
    rw [admissionSignals, List.append_assoc]
  · by_cases hu : r.priority = Urgent <;> simp [admissionSignals, hu]

/-- C2 at the freshly constructed object, which admits every record. -/
theorem addNotification_effect_witness :
    (addNotification (construct defaultSettings false) sampleRecord).m_notifications.length
      = (construct defaultSettings false).m_notifications.length + 1 :=
  ((addNotification_effect (construct defaultSettings false) sampleRecord).2
    (by decide)).2.2.1

/-! ## Decimal rendering and parsing of the UID -/

theorem digitChar_decimal : ∀ k, k < 10 →
    Nat.digitChar k ∈ decimalChars ∧ (Nat.digitChar k).toNat - 48 = k := by
  decide

theorem decimalChars_props : ∀ c ∈ decimalChars,
    Char.isDigit c = true ∧ Char.isWhitespace c = false ∧ c ≠ '+' := by
  decide

theorem toDigitsCore_value (f : Nat) : ∀ (n : Nat) (ds : List Char), n < f →
    (Nat.toDigitsCore 10 f n ds).foldl (fun acc c => acc * 10 + (c.toNat - 48)) 0
      = ds.foldl (fun acc c => acc * 10 + (c.toNat - 48)) n := by
  induction f with
  | zero => intro n ds h; omega
  | succ f ih =>
    intro n ds h
    have hd := (digitChar_decimal (n % 10) (Nat.mod_lt _ (by decide))).2
    unfold Nat.toDigitsCore
    by_cases h0 : n / 10 = 0
    · simp only [h0, if_true, List.foldl_cons, hd]
      congr 1
      omega
    · simp only [h0, if_false]
      rw [ih (n / 10) _ (by omega)]
      simp only [List.foldl_cons, hd]
      congr 1
      omega

theorem toDigitsCore_decimal (f : Nat) : ∀ (n : Nat) (ds : List Char),
    (∀ c ∈ ds, c ∈ decimalChars) → ∀ c ∈ Nat.toDigitsCore 10 f n ds, c ∈ decimalChars := by
  induction f with
  | zero => intro n ds h; simpa [Nat.toDigitsCore] using h
  | succ f ih =>
    intro n ds h
    have hd := (digitChar_decimal (n % 10) (Nat.mod_lt _ (by decide))).1
    have hcons : ∀ c ∈ Nat.digitChar (n % 10) :: ds, c ∈ decimalChars := by
      intro c hc
      rcases List.mem_cons.mp hc with rfl | hc
      · exact hd
      · exact h c hc
    unfold Nat.toDigitsCore
    by_cases h0 : n / 10 = 0
    · simpa only [h0, if_true] using hcons
    · simpa only [h0, if_false] using ih (n / 10) _ hcons

theorem toDigitsCore_ne_nil (f : Nat) : ∀ (n : Nat) (ds : List Char),
    ds ≠ [] ∨ 0 < f → Nat.toDigitsCore 10 f n ds ≠ [] := by
  induction f with
  | zero =>
    intro n ds h
    rcases h with h | h
    · simpa [Nat.toDigitsCore] using h
    · omega
  | succ f ih =>
    intro n ds _
    unfold Nat.toDigitsCore
    by_cases h0 : n / 10 = 0
    · simp [h0]
    · simp only [h0, if_false]
      exact ih _ _ (Or.inl (List.cons_ne_nil _ _))

theorem dropWhile_whitespace_decimal (l : List Char) (h : ∀ c ∈ l, c ∈ decimalChars) :
    l.dropWhile Char.isWhitespace = l := by
  cases l with
  | nil => rfl
  | cons c t =>
    have := (decimalChars_props c (h c (List.mem_cons_self c t))).2.1
    simp [List.dropWhile, this]

theorem toUInt_decimal (l : List Char) (h : ∀ c ∈ l, c ∈ decimalChars) (hne : l ≠ []) :
    toUInt (String.mk l) =
      if l.foldl (fun acc c => acc * 10 + (c.toNat - 48)) 0 < 4294967296 then
        some (l.foldl (fun acc c => acc * 10 + (c.toNat - 48)) 0)
      else none := by
  have hrev : ∀ c ∈ l.reverse, c ∈ decimalChars := fun c hc => h c (List.mem_reverse.mp hc)
  have hall : l.all Char.isDigit = true := by
    rw [List.all_eq_true]
    exact fun c hc => (decimalChars_props c (h c hc)).1
  unfold toUInt
  simp only [dropWhile_whitespace_decimal l h, dropWhile_whitespace_decimal l.reverse hrev,
    List.reverse_reverse]
  cases l with
  | nil => exact absurd rfl hne
  | cons c t =>
    have hplus := (decimalChars_props c (h c (List.mem_cons_self c t))).2.2
    have hmatch : (match c :: t with
        | '+' :: rest => rest
        | cs => cs) = c :: t := by
      split
      · rename_i heq
        exact absurd (List.cons.inj heq).1 hplus
      · rfl
    rw [hmatch]
    simp [hall]

theorem toUInt_mid5_ancsId (u : Nat) (hu : u < 4294967296) :
    toUInt (mid5 (ancsId u)) = some u := by
  have hmid : mid5 (ancsId u) = String.mk (Nat.toDigitsCore 10 (u + 1) u []) := by
    simp only [mid5, ancsId, Nat.repr, String.data_append, Nat.toDigits, List.asString]
    rfl
  rw [hmid, toUInt_decimal _ (toDigitsCore_decimal _ _ _ (by simp))
    (toDigitsCore_ne_nil _ _ _ (Or.inr (Nat.succ_pos u)))]
  have hv := toDigitsCore_value (u + 1) u [] (Nat.lt_succ_self u)
  simp only [List.foldl_nil] at hv
  rw [hv, if_pos hu]

theorem notificationUID_lt (data : List Byte) : notificationUID data < 4294967296 := by
  unfold notificationUID byteAt
  have h4 := (data.getD 4 0).isLt
  have h5 := (data.getD 5 0).isLt
  have h6 := (data.getD 6 0).isLt
  have h7 := (data.getD 7 0).isLt
  omega

/-! ## Decoding of inbound frames -/

theorem parseAncsNotification_of_le (data : List Byte) (now : Int) (h : 8 ≤ data.length) :
    parseAncsNotification data now = some
      { id := ancsId (notificationUID data)
        category := (byteAt data 2 : Int)
        priority := if byteAt data 1 &&& 2 ≠ 0 then Urgent else Normal
        timestamp := now
        read := false
        appName := "Unknown App"
        appId := "unknown"
        title := "New Notification"
        message := "Tap for details"
        dismissedAt := none
        snoozed := false } := by
  unfold parseAncsNotification
  rw [if_neg (by omega)]

theorem parseAncsNotification_of_lt (data : List Byte) (now : Int) (h : data.length < 8) :
    parseAncsNotification data now = none := by
  unfold parseAncsNotification
  rw [if_pos h]

/-- C3: a frame of at least 8 bytes decodes to a record whose id is "ancs_"
followed by the decimal rendering of the big-endian unsigned 32-bit integer in
bytes 4..7, whose category is the value of byte 2, whose read flag is false
and whose priority is Normal when bit 0x02 of byte 1 is clear; the frame
00 00 05 01 00 00 00 2A decodes to id "ancs_42", category Schedule (5),
priority Normal. -/
theorem parseAncsNotification_decodes (data : List Byte) (now : Int)
    (h : 8 ≤ data.length) :
    (∃ n, parseAncsNotification data now = some n ∧
      n.id = "ancs_" ++ Nat.repr
        ((data.getD 4 0).val * 2 ^ 24 + (data.getD 5 0).val * 2 ^ 16 +
          (data.getD 6 0).val * 2 ^ 8 + (data.getD 7 0).val) ∧
      (data.getD 4 0).val * 2 ^ 24 + (data.getD 5 0).val * 2 ^ 16 +
          (data.getD 6 0).val * 2 ^ 8 + (data.getD 7 0).val < 2 ^ 32 ∧
      n.category = ((data.getD 2 0).val : Int) ∧
      n.read = false ∧
      ((data.getD 1 0).val &&& 2 = 0 → n.priority = Normal)) ∧
    (∃ n, parseAncsNotification scenarioFrame now = some n ∧
      n.id = "ancs_42" ∧ n.category = Schedule ∧ n.category = 5 ∧ n.priority = Normal ∧
      n.read = false) := by
  constructor
  · refine ⟨_, parseAncsNotification_of_le data now h, rfl, ?_, rfl, rfl, ?_⟩
    · exact notificationUID_lt data
    · intro hb
      exact if_neg (fun hc => hc hb)
  · have hid : ancsId (notificationUID scenarioFrame) = "ancs_42" := by decide
    have hcat : ((byteAt scenarioFrame 2 : Nat) : Int) = Schedule := by decide
    have hpri : (if byteAt scenarioFrame 1 &&& 2 ≠ 0 then Urgent else Normal) = Normal := by
      decide
    exact ⟨_, parseAncsNotification_of_le scenarioFrame now (by decide), hid, hcat, hcat, hpri,
      rfl⟩

/-- C3 at the scenario frame. -/
theorem parseAncsNotification_decodes_witness :
    ∃ n, parseAncsNotification scenarioFrame 0 = some n ∧
      n.id = "ancs_42" ∧ n.category = Schedule ∧ n.category = 5 ∧ n.priority = Normal ∧
      n.read = false :=
  (parseAncsNotification_decodes scenarioFrame 0 (by decide)).2

/-- C4: a frame shorter than 8 bytes (the empty frame included) does not
decode, and handling it changes nothing: the active list, the history, the
policy, the snooze timers and every other member are as before, whether the
handler is called directly or as an event of the engine. -/
theorem short_frame_dropped (m : Manager) (isNotificationSource : Bool)
    (data : List Byte) (now : Int) (h : data.length < 8) :
    parseAncsNotification data now = none ∧
    onCharacteristicChanged m isNotificationSource data now = m ∧
    step m (Op.characteristicChanged isNotificationSource data now) = m := by
  have hp := parseAncsNotification_of_lt data now h
  have ho : onCharacteristicChanged m isNotificationSource data now = m := by
    unfold onCharacteristicChanged
    rw [hp]
    cases isNotificationSource <;> rfl
  refine ⟨hp, ho, ?_⟩
  show (if m.mockMode then m else onCharacteristicChanged m isNotificationSource data now) = m
  rw [ho, ite_self]

/-- C4 at the empty frame and at a seven-byte frame. -/
theorem short_frame_dropped_witness :
    onCharacteristicChanged (construct defaultSettings false) true [] 0
        = construct defaultSettings false ∧
    onCharacteristicChanged (construct defaultSettings false) true [0, 0, 5, 1, 0, 0, 0] 0
        = construct defaultSettings false :=
  ⟨(short_frame_dropped _ true [] 0 (by decide)).2.1,
   (short_frame_dropped _ true [0, 0, 5, 1, 0, 0, 0] 0 (by decide)).2.1⟩

/-- C5: the id is a function of the UID alone and can be inverted.  For a UID
u below 2^32, every frame of at least 8 bytes that carries u decodes (at any
time) to the id "ancs_" followed by the decimal rendering of u; dropping the
first five characters of that id and parsing the rest as an unsigned 32-bit
decimal succeeds with u; and a second frame decodes to the same id exactly
when it carries the same UID. -/
theorem id_derivation_invertible (u : Nat) (hu : u < 2 ^ 32) (data : List Byte) (now : Int)
    (hl : 8 ≤ data.length) (hd : notificationUID data = u) :
    ∃ n, parseAncsNotification data now = some n ∧
      n.id = "ancs_" ++ Nat.repr u ∧
      toUInt (mid5 n.id) = some u ∧
      ∀ (data2 : List Byte) (now2 : Int), 8 ≤ data2.length →
        ∃ n2, parseAncsNotification data2 now2 = some n2 ∧
          (notificationUID data2 = u → n2.id = n.id) ∧
          (n2.id = n.id → notificationUID data2 = u) := by
  refine ⟨_, parseAncsNotification_of_le data now hl, ?_, ?_, ?_⟩
  · rw [hd]
    rfl
  · show toUInt (mid5 (ancsId (notificationUID data))) = some u
    rw [hd]
    exact toUInt_mid5_ancsId u hu
  · intro data2 now2 hl2
    refine ⟨_, parseAncsNotification_of_le data2 now2 hl2, ?_, ?_⟩
    · intro h2
      show ancsId (notificationUID data2) = ancsId (notificationUID data)
      rw [h2, hd]
    · intro h2
      have h3 : ancsId (notificationUID data2) = ancsId (notificationUID data) := h2
      have h4 := toUInt_mid5_ancsId _ (notificationUID_lt data2)
      rw [h3, hd, toUInt_mid5_ancsId u hu] at h4
      exact (Option.some.inj h4).symm

/-- C5 at UID 42, carried by the scenario frame. -/
theorem id_derivation_invertible_witness :
    ∃ n, parseAncsNotification scenarioFrame 0 = some n ∧
      n.id = "ancs_" ++ Nat.repr 42 ∧
      toUInt (mid5 n.id) = some 42 ∧
      ∀ (data2 : List Byte) (now2 : Int), 8 ≤ data2.length →
        ∃ n2, parseAncsNotification data2 now2 = some n2 ∧
          (notificationUID data2 = 42 → n2.id = n.id) ∧
          (n2.id = n.id → notificationUID data2 = 42) :=
  id_derivation_invertible 42 (by decide) scenarioFrame 0 (by decide) (by decide)

/-! ## Removal and the bounded history -/

theorem limitLoop_eq_take (fuel : Nat) : ∀ h : List Notification,
    h.length ≤ fuel + 100 → limitLoop fuel h = h.take 100 := by
  induction fuel with
  | zero =>
    intro h hlen
    rw [limitLoop, List.take_of_length_le (by omega)]
  | succ fuel ih =>
    intro h hlen
    rw [limitLoop]
    by_cases hgt : 100 < h.length
    · rw [if_pos hgt, ih h.dropLast (by rw [List.length_dropLast]; omega),
        List.dropLast_eq_take, List.take_take]
      congr 1
      omega
    · rw [if_neg hgt, List.take_of_length_le (by omega)]

theorem limitHistory_eq_take (h : List Notification) : limitHistory h = h.take 100 :=
  limitLoop_eq_take h.length h (Nat.le_add_right _ _)

theorem findIndex_none (notificationId : String) (l : List Notification)
    (h : ∀ y ∈ l, y.id ≠ notificationId) : findIndex notificationId l = none := by
  induction l with
  | nil => rfl
  | cons n rest ih =>
    have hn : (n.id == notificationId) = false := by
      simpa using h n (List.mem_cons_self n rest)
    simp only [findIndex, hn, ih (fun y hy => h y (List.mem_cons_of_mem n hy))]
    rfl

theorem findIndex_append (notificationId : String) (pre : List Notification) (x : Notification)
    (post : List Notification) (hpre : ∀ y ∈ pre, y.id ≠ notificationId)
    (hx : x.id = notificationId) :
    findIndex notificationId (pre ++ x :: post) = some pre.length := by
  induction pre with
  | nil => simp [findIndex, hx]
  | cons n rest ih =>
    have hn : (n.id == notificationId) = false := by
      simpa using hpre n (List.mem_cons_self n rest)
    have hrest := ih (fun y hy => hpre y (List.mem_cons_of_mem n hy))
    simp [findIndex, hn, hrest]

theorem exists_first_with_id (notificationId : String) (l : List Notification)
    (h : ∃ y ∈ l, y.id = notificationId) :
    ∃ pre x post, l = pre ++ x :: post ∧ (∀ y ∈ pre, y.id ≠ notificationId) ∧
      x.id = notificationId := by
  induction l with
  | nil =>
    obtain ⟨y, hy, _⟩ := h
    exact absurd hy (List.not_mem_nil y)
  | cons n rest ih =>
    by_cases hn : n.id = notificationId
    · exact ⟨[], n, rest, rfl, fun y hy => absurd hy (List.not_mem_nil y), hn⟩
    · obtain ⟨y, hy, hyid⟩ := h
      rcases List.mem_cons.mp hy with rfl | hy
      · exact absurd hyid hn
      · obtain ⟨pre, x, post, hl, hpre, hx⟩ := ih ⟨y, hy, hyid⟩
        refine ⟨n :: pre, x, post, by rw [hl]; rfl, ?_, hx⟩
        intro z hz
        rcases List.mem_cons.mp hz with rfl | hz
        · exact hn
        · exact hpre z hz

theorem removeNotification_absent (m : Manager) (now : Int) (notificationId : String)
    (h : ∀ y ∈ m.m_notifications, y.id ≠ notificationId) :
    removeNotification m now notificationId = m := by
  unfold removeNotification
  rw [findIndex_none notificationId _ h]

theorem removeNotification_found (m : Manager) (now : Int) (notificationId : String)
    (pre : List Notification) (x : Notification) (post : List Notification)
    (hl : m.m_notifications = pre ++ x :: post)
    (hpre : ∀ y ∈ pre, y.id ≠ notificationId) (hx : x.id = notificationId) :
    removeNotification m now notificationId =
      { m with
        m_notifications := pre ++ post
        m_history := (dismissedCopy now x :: m.m_history).take 100
        emitted := m.emitted ++ removalSignals } := by
  have hget : (pre ++ x :: post).get? pre.length = some x := by
    rw [List.get?_eq_getElem?, List.getElem?_append_right (Nat.le_refl _)]
    simp
  have herase : (pre ++ x :: post).eraseIdx pre.length = pre ++ post := by
    rw [List.eraseIdx_append_of_length_le (Nat.le_refl _)]
    simp
  unfold removeNotification
  rw [hl, findIndex_append notificationId pre x post hpre hx]
  simp only [hget, herase, limitHistory_eq_take, emit, removalSignals, dismissedCopy,
    List.append_assoc, List.cons_append, List.nil_append, List.singleton_append]

/-- C6: when some active record has the id, `removeNotification` takes the
first such record out of the active list, leaving every other record in place
and in order (the count drops by exactly one), puts its copy with dismissedAt
set at the head of the history, and emits notificationCountChanged exactly
once; when no active record has the id the call changes nothing and emits
nothing. -/
theorem removeNotification_effect (m : Manager) (now : Int) (notificationId : String) :
    ((∃ y ∈ m.m_notifications, y.id = notificationId) →
      ∃ pre x post, m.m_notifications = pre ++ x :: post ∧
        (∀ y ∈ pre, y.id ≠ notificationId) ∧ x.id = notificationId ∧
        (removeNotification m now notificationId).m_notifications = pre ++ post ∧
        (removeNotification m now notificationId).m_notifications.length + 1
          = m.m_notifications.length ∧
        (removeNotification m now notificationId).m_history.head?
          = some { x with dismissedAt := some now } ∧
        (removeNotification m now notificationId).m_history
          = ({ x with dismissedAt := some now } :: m.m_history).take 100 ∧
        (∃ new, (removeNotification m now notificationId).emitted = m.emitted ++ new ∧
          new.count Signal.notificationCountChanged = 1)) ∧
    ((∀ y ∈ m.m_notifications, y.id ≠ notificationId) →
      removeNotification m now notificationId = m) := by
  refine ⟨fun h => ?_, removeNotification_absent m now notificationId⟩
  obtain ⟨pre, x, post, hl, hpre, hx⟩ := exists_first_with_id notificationId _ h
  refine ⟨pre, x, post, hl, hpre, hx, ?_⟩
  rw [removeNotification_found m now notificationId pre x post hl hpre hx]
  refine ⟨rfl, ?_, rfl, rfl, removalSignals, rfl, by decide⟩
  rw [hl]
  simp only [List.length_append, List.length_cons]
  omega

/-- C6 at an active list of two records, removing the second. -/
theorem removeNotification_effect_witness :
    ∃ pre x post, twoActive.m_notifications = pre ++ x :: post ∧
        (∀ y ∈ pre, y.id ≠ "ancs_7") ∧ x.id = "ancs_7" ∧
        (removeNotification twoActive 99 "ancs_7").m_notifications = pre ++ post ∧
        (removeNotification twoActive 99 "ancs_7").m_notifications.length + 1
          = twoActive.m_notifications.length ∧
        (removeNotification twoActive 99 "ancs_7").m_history.head?
          = some { x with dismissedAt := some 99 } ∧
        (removeNotification twoActive 99 "ancs_7").m_history
          = ({ x with dismissedAt := some 99 } :: twoActive.m_history).take 100 ∧
        (∃ new, (removeNotification twoActive 99 "ancs_7").emitted = twoActive.emitted ++ new ∧
          new.count Signal.notificationCountChanged = 1) :=
  (removeNotification_effect twoActive 99 "ancs_7").1 ⟨sampleRecord, by decide, by decide⟩

/-! ## Purging by a list of ids -/

theorem removeEach_nil (m : Manager) (now : Int) : removeEach m now [] = m := rfl

theorem removeEach_cons (m : Manager) (now : Int) (id : String) (ids : List String) :
    removeEach m now (id :: ids) = removeEach (removeNotification m now id) now ids := rfl

/-- The purge loops collect the ids of the active records that satisfy `P` and
then remove by id.  When records that share an id agree on `P`, the loop
removes exactly the records that satisfy `P`, in list order. -/
theorem removeEach_filter (P : Notification → Bool) (now : Int) :
    ∀ (L pre : List Notification) (m : Manager), m.m_notifications = pre ++ L →
      (∀ y ∈ pre, P y = false) →
      (∀ x ∈ pre ++ L, ∀ y ∈ pre ++ L, x.id = y.id → P x = P y) →
      removeEach m now ((L.filter P).map (·.id)) =
        { m with
          m_notifications := pre ++ L.filter (fun n => !P n)
          m_history := (L.filter P).foldl (pushHistory now) m.m_history
          emitted := m.emitted ++ repeatedRemovalSignals (L.filter P).length } := by
  intro L
  induction L with
  | nil =>
    intro pre m hl _ _
    cases m
    simp_all [removeEach_nil, repeatedRemovalSignals]
  | cons x rest ih =>
    intro pre m hl hpre hclosed
    by_cases hx : P x = true
    · have hpre_id : ∀ y ∈ pre, y.id ≠ x.id := by
        intro y hy hid
        have h1 := hclosed y (List.mem_append_left _ hy) x
          (List.mem_append_right _ (List.mem_cons_self x rest)) hid
        rw [hpre y hy, hx] at h1
        exact Bool.noConfusion h1
      have hstep := removeNotification_found m now x.id pre x rest hl hpre_id rfl
      have hclosed2 : ∀ a ∈ pre ++ rest, ∀ b ∈ pre ++ rest, a.id = b.id → P a = P b := by
        intro a ha b hb
        refine hclosed a ?_ b ?_
        · rcases List.mem_append.mp ha with h | h
          · exact List.mem_append_left _ h
          · exact List.mem_append_right _ (List.mem_cons_of_mem x h)
        · rcases List.mem_append.mp hb with h | h
          · exact List.mem_append_left _ h
          · exact List.mem_append_right _ (List.mem_cons_of_mem x h)
      have hrec := ih pre (removeNotification m now x.id) (by rw [hstep]) hpre hclosed2
      rw [List.filter_cons_of_pos hx, List.map_cons, removeEach_cons, hrec, hstep]
      have hnx : (!P x) = false := by simp [hx]
      simp only [List.filter_cons, hnx, List.foldl_cons, List.length_cons,
        repeatedRemovalSignals, pushHistory, List.append_assoc]
      rfl
    · have hxf : P x = false := by simpa using hx
      have hpre2 : ∀ y ∈ pre ++ [x], P y = false := by
        intro y hy
        rcases List.mem_append.mp hy with h | h
        · exact hpre y h
        · rw [List.mem_singleton.mp h]
          exact hxf
      have hrec := ih (pre ++ [x]) m (by rw [hl]; simp) hpre2
        (by simpa [List.append_assoc] using hclosed)
      rw [List.filter_cons_of_neg hx, hrec]
      have hnx : (!P x) = true := by simp [hxf]
      simp only [List.filter_cons, hnx, if_true, List.append_assoc, List.singleton_append]

theorem take_append_take (n : Nat) (A B : List Notification) :
    (A ++ B.take n).take n = (A ++ B).take n := by
  rw [List.take_append_eq_append_take, List.take_append_eq_append_take, List.take_take]
  congr 2
  omega

theorem foldl_pushHistory_length (now : Int) (rs : List Notification) :
    ∀ h : List Notification, h.length ≤ 100 →
      (rs.foldl (pushHistory now) h).length ≤ 100 := by
  induction rs with
  | nil => intro h hh; exact hh
  | cons r rest ih =>
    intro h _
    rw [List.foldl_cons]
    apply ih
    unfold pushHistory
    rw [List.length_take]
    exact Nat.min_le_left _ _

theorem foldl_pushHistory_eq (now : Int) (rs : List Notification) :
    ∀ h : List Notification, h.length ≤ 100 →
      rs.foldl (pushHistory now) h
        = ((rs.map (dismissedCopy now)).reverse ++ h).take 100 := by
  induction rs with
  | nil =>
    intro h hh
    simp [List.take_of_length_le hh]
  | cons r rest ih =>
    intro h hh
    have hlen : (pushHistory now h r).length ≤ 100 := by
      unfold pushHistory
      rw [List.length_take]
      exact Nat.min_le_left _ _
    rw [List.foldl_cons, ih _ hlen]
    unfold pushHistory
    simp only [List.map_cons, List.reverse_cons, List.append_assoc, List.singleton_append]
    exact take_append_take 100 _ _

/-! ## The store invariant -/

theorem inv_emit {m : Manager} (h : StoreInvariant m) (s : Signal) :
    StoreInvariant (emit m s) :=
  ⟨h.history_le, h.active_ok, h.timers_ok⟩

theorem inv_saveSettings {m : Manager} (h : StoreInvariant m) :
    StoreInvariant (saveSettings m) :=
  ⟨h.history_le, h.active_ok, h.timers_ok⟩

theorem inv_addNotification {m : Manager} (h : StoreInvariant m) (r : Notification)
    (hr : r.appId = originApp r.id) : StoreInvariant (addNotification m r) := by
  cases hp : passesPolicy m r
  · rw [addNotification_rejected m r hp]
    exact h
  · rw [addNotification_accepted m r hp]
    refine ⟨h.history_le, ?_, h.timers_ok⟩
    intro x hx
    rcases List.mem_cons.mp hx with rfl | hx
    · exact hr
    · exact h.active_ok x hx

theorem inv_removeNotification {m : Manager} (h : StoreInvariant m) (now : Int)
    (notificationId : String) : StoreInvariant (removeNotification m now notificationId) := by
  by_cases hex : ∃ y ∈ m.m_notifications, y.id = notificationId
  · obtain ⟨pre, x, post, hl, hpre, hx⟩ := exists_first_with_id notificationId _ hex
    rw [removeNotification_found m now notificationId pre x post hl hpre hx]
    refine ⟨?_, ?_, h.timers_ok⟩
    · show ((dismissedCopy now x :: m.m_history).take 100).length ≤ 100
      rw [List.length_take]
      exact Nat.min_le_left _ _
    · intro r hr
      apply h.active_ok
      rw [hl]
      rcases List.mem_append.mp hr with hr | hr
      · exact List.mem_append_left _ hr
      · exact List.mem_append_right _ (List.mem_cons_of_mem x hr)
  · rw [removeNotification_absent m now notificationId]
    · exact h
    · intro y hy hid
      exact hex ⟨y, hy, hid⟩

theorem inv_removeEach (now : Int) (ids : List String) :
    ∀ {m : Manager}, StoreInvariant m → StoreInvariant (removeEach m now ids) := by
  induction ids with
  | nil => intro m h; exact h
  | cons id rest ih =>
    intro m h
    rw [removeEach_cons]
    exact ih (inv_removeNotification h now id)

theorem inv_sendAncsCommand {m : Manager} (h : StoreInvariant m) (command : Byte)
    (notificationId : String) : StoreInvariant (sendAncsCommand m command notificationId) := by
  unfold sendAncsCommand
  split
  · exact h
  · split
    · exact h
    · exact ⟨h.history_le, h.active_ok, h.timers_ok⟩

theorem inv_dismissNotification {m : Manager} (h : StoreInvariant m) (now : Int)
    (notificationId : String) : StoreInvariant (dismissNotification m now notificationId) := by
  unfold dismissNotification
  apply inv_emit
  split
  · exact inv_removeNotification h now notificationId
  · apply inv_removeNotification
    split
    · exact inv_sendAncsCommand h 2 notificationId
    · exact h

theorem inv_dismissAll_loop (now : Int) (ids : List String) :
    ∀ {m : Manager}, StoreInvariant m →
      StoreInvariant (ids.foldl (fun acc id => dismissNotification acc now id) m) := by
  induction ids with
  | nil => intro m h; exact h
  | cons id rest ih =>
    intro m h
    exact ih (inv_dismissNotification h now id)

theorem markFirstRead_mem (notificationId : String) :
    ∀ (l l2 : List Notification), markFirstRead notificationId l = some l2 →
      ∀ r ∈ l2, ∃ r0 ∈ l, r.id = r0.id ∧ r.appId = r0.appId := by
  intro l
  induction l with
  | nil => intro l2 h; simp [markFirstRead] at h
  | cons n rest ih =>
    intro l2 h r hr
    unfold markFirstRead at h
    by_cases hn : (n.id == notificationId) = true
    · rw [if_pos hn] at h
      rw [← Option.some.inj h] at hr
      rcases List.mem_cons.mp hr with rfl | hr
      · exact ⟨n, List.mem_cons_self n rest, rfl, rfl⟩
      · exact ⟨r, List.mem_cons_of_mem n hr, rfl, rfl⟩
    · rw [if_neg hn] at h
      cases hm : markFirstRead notificationId rest with
      | none => rw [hm] at h; simp at h
      | some l3 =>
        rw [hm] at h
        rw [← Option.some.inj h] at hr
        rcases List.mem_cons.mp hr with rfl | hr
        · exact ⟨r, List.mem_cons_self r rest, rfl, rfl⟩
        · obtain ⟨r0, hr0, h1, h2⟩ := ih l3 hm r hr
          exact ⟨r0, List.mem_cons_of_mem n hr0, h1, h2⟩

theorem inv_markAsRead {m : Manager} (h : StoreInvariant m) (notificationId : String) :
    StoreInvariant (markAsRead m notificationId) := by
  unfold markAsRead
  split
  · exact h
  · rename_i l hl
    dsimp only
    apply inv_emit
    apply inv_emit
    apply inv_emit
    refine ⟨h.history_le, ?_, h.timers_ok⟩
    intro r hr
    obtain ⟨r0, hr0, h1, h2⟩ := markFirstRead_mem notificationId _ l hl r hr
    rw [h1, h2]
    exact h.active_ok r0 hr0

theorem originApp_reply (notificationId : String) :
    originApp ("reply_" ++ notificationId) = "com.apple.MobileSMS" := by
  have h5 : ("reply_" ++ notificationId).data.take 5 = ['r', 'e', 'p', 'l', 'y'] := by
    simp [String.data_append]
  have h6 : ("reply_" ++ notificationId).data.take 6 = "reply_".data := by
    simp [String.data_append]
  unfold originApp
  rw [h5, h6, if_neg (by decide), if_pos rfl]

theorem originApp_ancsId (uid : Nat) : originApp (ancsId uid) = "unknown" := by
  have h5 : (ancsId uid).data.take 5 = "ancs_".data := by
    simp [ancsId, String.data_append]
  unfold originApp
  rw [h5, if_pos rfl]

theorem inv_replyToNotification {m : Manager} (h : StoreInvariant m) (now : Int)
    (notificationId message : String) :
    StoreInvariant (replyToNotification m now notificationId message) := by
  unfold replyToNotification
  split
  · apply inv_emit
    apply inv_dismissNotification
    apply inv_addNotification h
    exact (originApp_reply notificationId).symm
  · exact inv_emit h _

theorem inv_openNotification {m : Manager} (h : StoreInvariant m) (now : Int)
    (notificationId : String) : StoreInvariant (openNotification m now notificationId) := by
  unfold openNotification
  apply inv_removeNotification
  split
  · exact inv_sendAncsCommand h 0 notificationId
  · exact h

theorem inv_snoozeNotification {m : Manager} (h : StoreInvariant m) (now : Int)
    (notificationId : String) (minutes : Int) :
    StoreInvariant (snoozeNotification m now notificationId minutes) := by
  unfold snoozeNotification
  split
  · exact h
  · rename_i notification hfind
    have hmem : notification ∈ m.m_notifications := List.mem_of_find?_eq_some hfind
    have h1 := inv_removeNotification h now notificationId
    refine ⟨h1.history_le, h1.active_ok, ?_⟩
    intro t ht
    rcases List.mem_append.mp ht with ht | ht
    · exact h1.timers_ok t ht
    · rw [List.mem_singleton.mp ht]
      exact h.active_ok notification hmem

theorem inv_onSnoozeTimeout {m : Manager} (h : StoreInvariant m) (handle : Nat) :
    StoreInvariant (onSnoozeTimeout m handle) := by
  unfold onSnoozeTimeout
  split
  · exact h
  · rename_i t hfind
    have hmem : t ∈ m.timers := List.mem_of_find?_eq_some hfind
    have h0 : StoreInvariant
        { m with timers := m.timers.filter (fun x => x.handle != handle) } :=
      ⟨h.history_le, h.active_ok, fun x hx => h.timers_ok x (List.mem_filter.mp hx).1⟩
    have h1 := inv_addNotification h0 { t.notification with snoozed := true }
      (h.timers_ok t hmem)
    dsimp only
    split
    · exact h1
    · exact ⟨h1.history_le, h1.active_ok,
        fun x hx => h1.timers_ok x (List.mem_filter.mp hx).1⟩

theorem inv_same {m m2 : Manager} (h : StoreInvariant m)
    (hn : m2.m_notifications = m.m_notifications) (hh : m2.m_history = m.m_history)
    (ht : m2.timers = m.timers) : StoreInvariant m2 :=
  ⟨hh ▸ h.history_le, hn ▸ h.active_ok, ht ▸ h.timers_ok⟩

theorem inv_setDoNotDisturb {m : Manager} (h : StoreInvariant m) (now : Int) (enabled : Bool) :
    StoreInvariant (setDoNotDisturb m now enabled) := by
  unfold setDoNotDisturb
  split
  · dsimp only
    have h3 : StoreInvariant
        (saveSettings (emit { m with m_doNotDisturb := enabled } Signal.doNotDisturbChanged)) :=
      (by apply inv_saveSettings; apply inv_emit; exact inv_same h rfl rfl rfl)
    split
    · exact inv_removeEach now _ h3
    · exact h3
  · exact h

theorem inv_setAllowedApps {m : Manager} (h : StoreInvariant m) (apps : List String) :
    StoreInvariant (setAllowedApps m apps) :=
  (by apply inv_saveSettings; apply inv_emit; exact inv_same h rfl rfl rfl)

theorem inv_setBlockedApps {m : Manager} (h : StoreInvariant m) (apps : List String) :
    StoreInvariant (setBlockedApps m apps) :=
  (by apply inv_saveSettings; apply inv_emit; exact inv_same h rfl rfl rfl)

theorem inv_allowApp {m : Manager} (h : StoreInvariant m) (appId : String) :
    StoreInvariant (allowApp m appId) := by
  have h1 : StoreInvariant
      (if !m.m_allowedApps.contains appId then
        saveSettings (emit { m with m_allowedApps := m.m_allowedApps ++ [appId] }
          Signal.allowedAppsChanged)
      else m) := by
    split
    · apply inv_saveSettings
      apply inv_emit
      exact inv_same h rfl rfl rfl
    · exact h
  have key : ∀ m1 : Manager, StoreInvariant m1 →
      StoreInvariant
        (if m1.m_blockedApps.contains appId then
          emit { m1 with m_blockedApps := m1.m_blockedApps.filter (· != appId) }
            Signal.blockedAppsChanged
        else m1) := by
    intro m1 hm1
    split
    · apply inv_emit
      exact inv_same hm1 rfl rfl rfl
    · exact hm1
  exact key _ h1

theorem inv_blockApp {m : Manager} (h : StoreInvariant m) (now : Int) (appId : String) :
    StoreInvariant (blockApp m now appId) := by
  have h1 : StoreInvariant
      (if !m.m_blockedApps.contains appId then
        saveSettings (emit { m with m_blockedApps := m.m_blockedApps ++ [appId] }
          Signal.blockedAppsChanged)
      else m) := by
    split
    · apply inv_saveSettings
      apply inv_emit
      exact inv_same h rfl rfl rfl
    · exact h
  have key : ∀ m1 : Manager, StoreInvariant m1 →
      StoreInvariant
        (if m1.m_allowedApps.contains appId then
          emit { m1 with m_allowedApps := m1.m_allowedApps.filter (· != appId) }
            Signal.allowedAppsChanged
        else m1) := by
    intro m1 hm1
    split
    · apply inv_emit
      exact inv_same hm1 rfl rfl rfl
    · exact hm1
  exact inv_removeEach now _ (key _ h1)

theorem inv_setShowPreviews {m : Manager} (h : StoreInvariant m) (enabled : Bool) :
    StoreInvariant (setShowPreviews m enabled) := by
  unfold setShowPreviews
  split
  · exact (by apply inv_saveSettings; apply inv_emit; exact inv_same h rfl rfl rfl)
  · exact h

theorem inv_setAutoDismissAfter {m : Manager} (h : StoreInvariant m) (seconds : Int) :
    StoreInvariant (setAutoDismissAfter m seconds) :=
  inv_same h rfl rfl rfl

theorem inv_clearHistory {m : Manager} (h : StoreInvariant m) :
    StoreInvariant (clearHistory m) :=
  ⟨Nat.zero_le _, h.active_ok, h.timers_ok⟩

theorem inv_setQuickReplies {m : Manager} (h : StoreInvariant m) (replies : List String) :
    StoreInvariant (setQuickReplies m replies) :=
  (by apply inv_saveSettings; apply inv_emit; exact inv_same h rfl rfl rfl)

theorem inv_sendQuickReply {m : Manager} (h : StoreInvariant m) (now : Int)
    (notificationId : String) (replyIndex : Int) :
    StoreInvariant (sendQuickReply m now notificationId replyIndex) := by
  unfold sendQuickReply
  split
  · exact h
  · split
    · exact h
    · exact inv_replyToNotification h now notificationId _

theorem inv_onNotificationTimeout {m : Manager} (h : StoreInvariant m) (now : Int) :
    StoreInvariant (onNotificationTimeout m now) := by
  unfold onNotificationTimeout
  split
  · exact h
  · exact inv_removeEach now _ h

theorem mockNotifs_origin (now : Int) : ∀ r ∈ mockNotifs now, r.appId = originApp r.id := by
  intro r hr
  simp only [mockNotifs, List.mem_cons, List.mem_singleton, List.not_mem_nil, or_false] at hr
  rcases hr with rfl | rfl | rfl
  · show "com.whatsapp" = originApp "notif_1"
    decide
  · show "com.google.Gmail" = originApp "notif_2"
    decide
  · show "com.apple.mobilecal" = originApp "notif_3"
    decide

theorem inv_addAll (rs : List Notification) :
    ∀ {m : Manager}, StoreInvariant m → (∀ r ∈ rs, r.appId = originApp r.id) →
      StoreInvariant (rs.foldl addNotification m) := by
  induction rs with
  | nil => intro m h _; exact h
  | cons r rest ih =>
    intro m h hrs
    exact ih (inv_addNotification h r (hrs r (List.mem_cons_self r rest)))
      (fun x hx => hrs x (List.mem_cons_of_mem r hx))

theorem inv_mockStartup {m : Manager} (h : StoreInvariant m) (now : Int) :
    StoreInvariant (mockStartup m now) := by
  unfold mockStartup generateMockNotifications
  exact inv_addAll _ (by apply inv_emit; apply inv_emit; exact inv_same h rfl rfl rfl)
    (mockNotifs_origin now)

theorem inv_connectToDevice {m : Manager} (h : StoreInvariant m)
    (deviceAddress platform : String) :
    StoreInvariant ((connectToDevice m deviceAddress platform).getD m) := by
  have h1 : StoreInvariant
      (emit { m with m_deviceAddress := deviceAddress, m_platform := toLower platform }
        Signal.platformChanged) := by
    apply inv_emit
    exact inv_same h rfl rfl rfl
  have key : ∀ m1 : Manager, StoreInvariant m1 →
      StoreInvariant
        ((if m1.mockMode then
            some (emit { m1 with m_isConnected := true } Signal.connectionChanged)
          else if m1.m_platform == "ios" then none
          else if m1.m_platform == "android" then
            some (emit m1 (Signal.error "Android notifications require companion app"))
          else some m1).getD m) := by
    intro m1 hm1
    split
    · apply inv_emit
      exact inv_same hm1 rfl rfl rfl
    · split
      · exact h
      · split
        · exact inv_emit hm1 _
        · exact hm1
  exact key _ h1

theorem inv_disconnect {m : Manager} (h : StoreInvariant m) : StoreInvariant (disconnect m) :=
  (by apply inv_emit; exact inv_same h rfl rfl rfl)

theorem inv_onServiceStateChanged {m : Manager} (h : StoreInvariant m)
    (discovered controlPoint source descriptor : Bool) :
    StoreInvariant (onServiceStateChanged m discovered controlPoint source descriptor) := by
  unfold onServiceStateChanged
  split
  · dsimp only
    split
    · exact (by apply inv_emit; exact inv_same h rfl rfl rfl)
    · exact (inv_same h rfl rfl rfl)
  · exact h

theorem inv_onCharacteristicChanged {m : Manager} (h : StoreInvariant m)
    (isNotificationSource : Bool) (value : List Byte) (now : Int) :
    StoreInvariant (onCharacteristicChanged m isNotificationSource value now) := by
  unfold onCharacteristicChanged
  split
  · by_cases hlen : value.length < 8
    · rw [parseAncsNotification_of_lt value now hlen]
      exact h
    · rw [parseAncsNotification_of_le value now (by omega)]
      exact inv_addNotification h _ (originApp_ancsId _).symm
  · exact h

theorem inv_step {m : Manager} (h : StoreInvariant m) (op : Op) : StoreInvariant (step m op) := by
  cases op with
  | connectToDevice a p => exact inv_connectToDevice h a p
  | disconnect => exact inv_disconnect h
  | dismissNotification now id => exact inv_dismissNotification h now id
  | dismissAll now => exact inv_dismissAll_loop now _ h
  | markAsRead id => exact inv_markAsRead h id
  | openNotification now id => exact inv_openNotification h now id
  | replyToNotification now id msg => exact inv_replyToNotification h now id msg
  | snoozeNotification now id minutes => exact inv_snoozeNotification h now id minutes
  | performAction id a => exact h
  | sendQuickReply now id i => exact inv_sendQuickReply h now id i
  | setDoNotDisturb now e => exact inv_setDoNotDisturb h now e
  | setAllowedApps apps => exact inv_setAllowedApps h apps
  | setBlockedApps apps => exact inv_setBlockedApps h apps
  | allowApp a => exact inv_allowApp h a
  | blockApp now a => exact inv_blockApp h now a
  | setShowPreviews e => exact inv_setShowPreviews h e
  | setAutoDismissAfter s => exact inv_setAutoDismissAfter h s
  | setQuickReplies r => exact inv_setQuickReplies h r
  | clearHistory => exact inv_clearHistory h
  | notificationTimeout now =>
    show StoreInvariant (if m.dismissTimerActive then onNotificationTimeout m now else m)
    split
    · exact inv_onNotificationTimeout h now
    · exact h
  | snoozeTimeout hd => exact inv_onSnoozeTimeout h hd
  | mockStartup now =>
    show StoreInvariant (if m.mockMode then mockStartup m now else m)
    split
    · exact inv_mockStartup h now
    · exact h
  | serviceStateChanged d c s e =>
    show StoreInvariant (if m.mockMode then m else onServiceStateChanged m d c s e)
    split
    · exact h
    · exact inv_onServiceStateChanged h d c s e
  | characteristicChanged b v now =>
    show StoreInvariant (if m.mockMode then m else onCharacteristicChanged m b v now)
    split
    · exact h
    · exact inv_onCharacteristicChanged h b v now

theorem inv_run (ops : List Op) :
    ∀ {m : Manager}, StoreInvariant m → StoreInvariant (run m ops) := by
  induction ops with
  | nil => intro m h; exact h
  | cons op rest ih =>
    intro m h
    exact ih (inv_step h op)

theorem inv_construct (st : Settings) (mock : Bool) : StoreInvariant (construct st mock) :=
  ⟨Nat.zero_le _, fun r hr => absurd hr (List.not_mem_nil r),
    fun t ht => absurd ht (List.not_mem_nil t)⟩

theorem inv_of_reachable {m : Manager} (h : Reachable m) : StoreInvariant m := by
  obtain ⟨st, mock, ops, rfl⟩ := h
  exact inv_run ops (inv_construct st mock)

theorem reachable_step {m : Manager} (h : Reachable m) (op : Op) : Reachable (step m op) := by
  obtain ⟨st, mock, ops, rfl⟩ := h
  refine ⟨st, mock, ops ++ [op], ?_⟩
  simp [run, List.foldl_append]

/-! ## The history bound -/

/-- C7: the history starts empty and holds at most 100 entries after any
sequence of events; and when a record is moved into a history of exactly 100
entries, the new history is that record (with dismissedAt set) followed by the
first 99 entries of the old one, in order: only the last, oldest entry is
evicted. -/
theorem history_capped :
    (∀ (st : Settings) (mock : Bool), (construct st mock).m_history = []) ∧
    (∀ (st : Settings) (mock : Bool) (ops : List Op),
      (run (construct st mock) ops).m_history.length ≤ 100) ∧
    (∀ (m : Manager) (now : Int) (notificationId : String)
      (pre : List Notification) (x : Notification) (post : List Notification),
      m.m_notifications = pre ++ x :: post → (∀ y ∈ pre, y.id ≠ notificationId) →
      x.id = notificationId → m.m_history.length = 100 →
      (removeNotification m now notificationId).m_history
          = { x with dismissedAt := some now } :: m.m_history.take 99 ∧
      (removeNotification m now notificationId).m_history.length = 100 ∧
      ∃ oldest, m.m_history = m.m_history.take 99 ++ [oldest]) := by
  refine ⟨fun _ _ => rfl, fun st mock ops => (inv_run ops (inv_construct st mock)).history_le, ?_⟩
  intro m now notificationId pre x post hl hpre hx hlen
  rw [removeNotification_found m now notificationId pre x post hl hpre hx]
  have htake : (dismissedCopy now x :: m.m_history).take 100
      = { x with dismissedAt := some now } :: m.m_history.take 99 := rfl
  refine ⟨htake, ?_, ?_⟩
  · show ((dismissedCopy now x :: m.m_history).take 100).length = 100
    rw [List.length_take, List.length_cons, hlen]
    rfl
  · have hne : m.m_history ≠ [] := by
      intro h0
      rw [h0] at hlen
      exact absurd hlen (by decide)
    refine ⟨m.m_history.getLast hne, ?_⟩
    have h1 := List.dropLast_append_getLast hne
    rw [List.dropLast_eq_take, hlen] at h1
    exact h1.symm

/-- C7 at a full history: removing the active record evicts the last entry. -/
theorem history_capped_witness :
    (removeNotification fullHistory 7 "ancs_7").m_history
        = { sampleRecord with dismissedAt := some 7 } :: fullHistory.m_history.take 99 ∧
    (removeNotification fullHistory 7 "ancs_7").m_history.length = 100 ∧
    ∃ oldest, fullHistory.m_history = fullHistory.m_history.take 99 ++ [oldest] :=
  history_capped.2.2 fullHistory 7 "ancs_7" [] sampleRecord [] rfl
    (fun y hy => absurd hy (List.not_mem_nil y)) rfl (by decide)

/-! ## Uniqueness of ids -/

/-- C8 as stated fails: after the same frame has arrived twice the active list
holds two records with id "ancs_42"; and after a record has been snoozed and
has resurfaced its id is both in the active list and in the history. -/
theorem id_uniqueness_fails :
    (Reachable sameFrameTwice ∧ activeIds sameFrameTwice = ["ancs_42", "ancs_42"] ∧
      ¬ (allIds sameFrameTwice).Nodup) ∧
    (Reachable snoozedAndBack ∧ activeIds snoozedAndBack = ["ancs_42"] ∧
      snoozedAndBack.m_history.map (·.id) = ["ancs_42"] ∧
      ¬ (allIds snoozedAndBack).Nodup) := by
  refine ⟨⟨⟨_, _, _, rfl⟩, by decide, by decide⟩, ⟨⟨_, _, _, rfl⟩, by decide, by decide, by decide⟩⟩

/-- C8, amended: the ids of the active list stay pairwise distinct under
`removeNotification`, and under `addNotification` when the id of the new
record is not already active; `addNotification` itself never looks for an
existing id, so an admitted record raises the number of active records with
its id by one. -/
theorem active_ids_distinct_preserved (m : Manager) (r : Notification) (now : Int)
    (notificationId : String) (h : (activeIds m).Nodup) :
    (activeIds (removeNotification m now notificationId)).Nodup ∧
    (r.id ∉ activeIds m → (activeIds (addNotification m r)).Nodup) ∧
    (passesPolicy m r = true →
      (activeIds (addNotification m r)).count r.id = (activeIds m).count r.id + 1) := by
  refine ⟨?_, ?_, ?_⟩
  · by_cases hex : ∃ y ∈ m.m_notifications, y.id = notificationId
    · obtain ⟨pre, x, post, hl, hpre, hx⟩ := exists_first_with_id notificationId _ hex
      rw [removeNotification_found m now notificationId pre x post hl hpre hx]
      unfold activeIds at h ⊢
      rw [hl] at h
      refine List.Nodup.sublist ?_ h
      show List.Sublist (List.map (·.id) (pre ++ post)) (List.map (·.id) (pre ++ x :: post))
      exact List.Sublist.map _
        (List.Sublist.append (List.Sublist.refl pre) (List.sublist_cons_self x post))
    · rw [removeNotification_absent m now notificationId
        (fun y hy hid => hex ⟨y, hy, hid⟩)]
      exact h
  · intro hfresh
    cases hp : passesPolicy m r
    · rw [addNotification_rejected m r hp]
      exact h
    · rw [addNotification_accepted m r hp]
      exact List.nodup_cons.mpr ⟨hfresh, h⟩
  · intro hp
    rw [addNotification_accepted m r hp]
    show List.count r.id (r.id :: activeIds m) = _
    rw [List.count_cons_self]

/-- C8, amended, at an active list of two records with distinct ids: removal
keeps them distinct, a record with a new id keeps them distinct, and a record
with the id of an active one becomes a second record with that id. -/
theorem active_ids_distinct_preserved_witness :
    (activeIds (removeNotification twoActive 9 "ancs_7")).Nodup ∧
    (activeIds (addNotification (removeNotification twoActive 9 "ancs_7") urgentRecord)).Nodup ∧
    (activeIds (addNotification twoActive urgentRecord)).count urgentRecord.id
      = (activeIds twoActive).count urgentRecord.id + 1 :=
  ⟨(active_ids_distinct_preserved twoActive urgentRecord 9 "ancs_7" (by decide)).1,
   (active_ids_distinct_preserved (removeNotification twoActive 9 "ancs_7") urgentRecord 9
      "ancs_7" (by decide)).2.1 (by decide),
   (active_ids_distinct_preserved twoActive urgentRecord 9 "ancs_7" (by decide)).2.2
      (by decide)⟩

/-! ## Purge on do-not-disturb -/

theorem setDoNotDisturb_enable (m : Manager) (now : Int) (hoff : m.m_doNotDisturb = false) :
    setDoNotDisturb m now true =
      removeEach
        (saveSettings (emit { m with m_doNotDisturb := true } Signal.doNotDisturbChanged)) now
        ((m.m_notifications.filter (fun n => n.priority != Urgent)).map (·.id)) := by
  unfold setDoNotDisturb
  simp [hoff]
  rfl

/-- The purge of `setDoNotDisturb(true)` where it works: in a state with
do-not-disturb off in which active records that share an id agree on being
Urgent (in particular when the active ids are pairwise distinct), exactly the
Urgent records stay active, unchanged and in order, and every other record is
moved, in list order, into the history through the capped insertion with
dismissedAt set. -/
theorem setDoNotDisturb_purges (m : Manager) (now : Int) (hoff : m.m_doNotDisturb = false)
    (hagree : ∀ x ∈ m.m_notifications, ∀ y ∈ m.m_notifications, x.id = y.id →
      (x.priority = Urgent ↔ y.priority = Urgent)) :
    (setDoNotDisturb m now true).m_notifications
      = m.m_notifications.filter (fun n => n.priority == Urgent) ∧
    (∀ r ∈ (setDoNotDisturb m now true).m_notifications, r.priority = Urgent) ∧
    (setDoNotDisturb m now true).m_history
      = (m.m_notifications.filter (fun n => n.priority != Urgent)).foldl
          (pushHistory now) m.m_history ∧
    (m.m_history.length ≤ 100 →
      (setDoNotDisturb m now true).m_history
        = (((m.m_notifications.filter (fun n : Notification => n.priority != Urgent)).map
            (fun n : Notification => { n with dismissedAt := some now })).reverse
              ++ m.m_history).take 100) ∧
    (setDoNotDisturb m now true).m_doNotDisturb = true := by
  have hclosed : ∀ x ∈ [] ++ m.m_notifications, ∀ y ∈ [] ++ m.m_notifications, x.id = y.id →
      (fun n : Notification => n.priority != Urgent) x
        = (fun n : Notification => n.priority != Urgent) y := by
    intro x hx y hy hid
    have hiff := hagree x (by simpa using hx) y (by simpa using hy) hid
    by_cases hxu : x.priority = Urgent
    · simp [hxu, hiff.mp hxu]
    · have hyu : y.priority ≠ Urgent := fun hc => hxu (hiff.mpr hc)
      have h1 : (x.priority != Urgent) = true := bne_iff_ne.mpr hxu
      have h2 : (y.priority != Urgent) = true := bne_iff_ne.mpr hyu
      show (x.priority != Urgent) = (y.priority != Urgent)
      rw [h1, h2]
  have hmain := removeEach_filter (fun n => n.priority != Urgent) now m.m_notifications []
    (saveSettings (emit { m with m_doNotDisturb := true } Signal.doNotDisturbChanged))
    rfl (fun y hy => absurd hy (List.not_mem_nil y)) hclosed
  have hfilter : m.m_notifications.filter (fun n => !(n.priority != Urgent))
      = m.m_notifications.filter (fun n => n.priority == Urgent) := by
    apply List.filter_congr
    intro x _
    simp [bne]
  rw [setDoNotDisturb_enable m now hoff, hmain]
  refine ⟨?_, ?_, rfl, ?_, rfl⟩
  · show [] ++ m.m_notifications.filter (fun n => !(n.priority != Urgent)) = _
    rw [List.nil_append, hfilter]
  · intro r hr
    have hr2 : r ∈ [] ++ m.m_notifications.filter (fun n => !(n.priority != Urgent)) := hr
    rw [List.nil_append, hfilter] at hr2
    simpa using (List.mem_filter.mp hr2).2
  · intro hlen
    exact foldl_pushHistory_eq now _ m.m_history hlen

/-- The purge of `setDoNotDisturb(true)` at the mock records: the calendar
event is the only Urgent one and stays; the two others are moved to the
history. -/
theorem setDoNotDisturb_purges_witness :
    (setDoNotDisturb mockStarted 200 true).m_notifications
      = mockStarted.m_notifications.filter (fun n => n.priority == Urgent) ∧
    (setDoNotDisturb mockStarted 200 true).m_history
      = (mockStarted.m_notifications.filter (fun n => n.priority != Urgent)).foldl
          (pushHistory 200) mockStarted.m_history :=
  ⟨(setDoNotDisturb_purges mockStarted 200 (by decide) (by decide)).1,
   (setDoNotDisturb_purges mockStarted 200 (by decide) (by decide)).2.2.1⟩

/-! ## Purge on blocking an app -/

/-- The policy part of `blockApp` touches neither the store nor the outbound
trace and leaves the app on the block-list; the rest is the purge loop. -/
theorem blockApp_policy_stage (m : Manager) (now : Int) (appId : String) :
    ∃ m2 : Manager, m2.m_notifications = m.m_notifications ∧ m2.m_history = m.m_history ∧
      m2.written = m.written ∧ m2.timers = m.timers ∧ appId ∈ m2.m_blockedApps ∧
      blockApp m now appId
        = removeEach m2 now ((m2.m_notifications.filter (fun n => n.appId == appId)).map (·.id)) := by
  by_cases hb : appId ∈ m.m_blockedApps <;> by_cases ha : appId ∈ m.m_allowedApps
  · refine ⟨emit { m with m_allowedApps := m.m_allowedApps.filter (· != appId) }
      Signal.allowedAppsChanged, rfl, rfl, rfl, rfl, hb, ?_⟩
    simp [blockApp, hb, ha]
  · refine ⟨m, rfl, rfl, rfl, rfl, hb, ?_⟩
    simp [blockApp, hb, ha]
  · refine ⟨emit { saveSettings (emit { m with m_blockedApps := m.m_blockedApps ++ [appId] }
        Signal.blockedAppsChanged) with m_allowedApps := m.m_allowedApps.filter (· != appId) }
      Signal.allowedAppsChanged, rfl, rfl, rfl, rfl, ?_, ?_⟩
    · show appId ∈ m.m_blockedApps ++ [appId]
      simp
    · simp [blockApp, hb, ha, saveSettings, emit]
  · refine ⟨saveSettings (emit { m with m_blockedApps := m.m_blockedApps ++ [appId] }
        Signal.blockedAppsChanged), rfl, rfl, rfl, rfl, ?_, ?_⟩
    · show appId ∈ m.m_blockedApps ++ [appId]
      simp
    · simp [blockApp, hb, ha, saveSettings, emit]

/-- C10: in every reachable state, after `blockApp(a)` the active list is the
previous one without the records of app a (no record of a is left, every
other record is still there, unchanged and in order); the purged records have
been moved, in list order, into the history through the capped insertion with
dismissedAt set; nothing was written to the device; and an admission attempt
for a record of app a returns the object unchanged. -/
theorem blockApp_purges (m : Manager) (h : Reachable m) (now : Int) (a : String) :
    (∀ r ∈ (blockApp m now a).m_notifications, r.appId ≠ a) ∧
    (blockApp m now a).m_notifications = m.m_notifications.filter (fun n => n.appId != a) ∧
    (blockApp m now a).m_history
      = (m.m_notifications.filter (fun n => n.appId == a)).foldl (pushHistory now) m.m_history ∧
    (blockApp m now a).m_history
      = (((m.m_notifications.filter (fun n : Notification => n.appId == a)).map
          (fun n : Notification => { n with dismissedAt := some now })).reverse
            ++ m.m_history).take 100 ∧
    (blockApp m now a).written = m.written ∧
    (∀ r : Notification, r.appId = a → addNotification (blockApp m now a) r = blockApp m now a) := by
  have hinv := inv_of_reachable h
  obtain ⟨m2, hn, hh, hw, _, hblocked, heq⟩ := blockApp_policy_stage m now a
  have hclosed : ∀ x ∈ [] ++ m2.m_notifications, ∀ y ∈ [] ++ m2.m_notifications, x.id = y.id →
      (fun n : Notification => n.appId == a) x = (fun n : Notification => n.appId == a) y := by
    intro x hx y hy hid
    rw [List.nil_append, hn] at hx hy
    show (x.appId == a) = (y.appId == a)
    rw [hinv.active_ok x hx, hinv.active_ok y hy, hid]
  have hmain := removeEach_filter (fun n => n.appId == a) now m2.m_notifications [] m2
    rfl (fun y hy => absurd hy (List.not_mem_nil y)) hclosed
  have hfilter : m.m_notifications.filter (fun n => !(n.appId == a))
      = m.m_notifications.filter (fun n => n.appId != a) := rfl
  rw [heq, hmain]
  have hact : ([] ++ m2.m_notifications.filter (fun n => !(n.appId == a)))
      = m.m_notifications.filter (fun n => n.appId != a) := by
    rw [List.nil_append, hn, hfilter]
  refine ⟨?_, hact, ?_, ?_, hw, ?_⟩
  · intro r hr
    have hr2 : r ∈ [] ++ m2.m_notifications.filter (fun n => !(n.appId == a)) := hr
    rw [hact] at hr2
    simpa using (List.mem_filter.mp hr2).2
  · show (m2.m_notifications.filter (fun n => n.appId == a)).foldl (pushHistory now) m2.m_history
      = _
    rw [hn, hh]
  · show (m2.m_notifications.filter (fun n => n.appId == a)).foldl (pushHistory now) m2.m_history
      = _
    rw [hn, hh]
    exact foldl_pushHistory_eq now _ m.m_history hinv.history_le
  · intro r hr
    apply addNotification_rejected
    rw [← Bool.not_eq_true, passesPolicy_iff]
    intro hp
    apply hp.1
    rw [hr]
    exact hblocked

/-- C10 at the mock records, blocking WhatsApp. -/
theorem blockApp_purges_witness :
    (∀ r ∈ (blockApp mockStarted 200 "com.whatsapp").m_notifications,
      r.appId ≠ "com.whatsapp") ∧
    (blockApp mockStarted 200 "com.whatsapp").m_notifications
      = mockStarted.m_notifications.filter (fun n => n.appId != "com.whatsapp") ∧
    (blockApp mockStarted 200 "com.whatsapp").written = mockStarted.written :=
  ⟨(blockApp_purges mockStarted ⟨_, _, _, rfl⟩ 200 "com.whatsapp").1,
   (blockApp_purges mockStarted ⟨_, _, _, rfl⟩ 200 "com.whatsapp").2.1,
   (blockApp_purges mockStarted ⟨_, _, _, rfl⟩ 200 "com.whatsapp").2.2.2.2.1⟩

/-! ## What the removal primitives leave alone -/

/-- The only members `removeNotification` writes are the active list, the
history and the signal trace. -/
theorem removeNotification_frame (m : Manager) (now : Int) (notificationId : String) :
    ∃ n h e, removeNotification m now notificationId =
      { m with m_notifications := n, m_history := h, emitted := e } := by
  by_cases hex : ∃ y ∈ m.m_notifications, y.id = notificationId
  · obtain ⟨pre, x, post, hl, hpre, hx⟩ := exists_first_with_id notificationId _ hex
    exact ⟨_, _, _, removeNotification_found m now notificationId pre x post hl hpre hx⟩
  · refine ⟨m.m_notifications, m.m_history, m.emitted, ?_⟩
    rw [removeNotification_absent m now notificationId (fun y hy hid => hex ⟨y, hy, hid⟩)]

theorem removeEach_frame (now : Int) (ids : List String) :
    ∀ m : Manager, ∃ n h e, removeEach m now ids =
      { m with m_notifications := n, m_history := h, emitted := e } := by
  induction ids with
  | nil => intro m; exact ⟨m.m_notifications, m.m_history, m.emitted, rfl⟩
  | cons id rest ih =>
    intro m
    obtain ⟨n1, h1, e1, hstep⟩ := removeNotification_frame m now id
    obtain ⟨n2, h2, e2, hrest⟩ := ih (removeNotification m now id)
    refine ⟨n2, h2, e2, ?_⟩
    rw [removeEach_cons, hrest, hstep]

/-! ## The policy lists -/

theorem filter_ne_eq_self (l : List String) (x : String) (h : x ∉ l) :
    l.filter (· != x) = l := by
  rw [List.filter_eq_self]
  intro a ha
  exact bne_iff_ne.mpr (fun hax => h (hax ▸ ha))

theorem allowApp_lists (m : Manager) (x : String) :
    (allowApp m x).m_allowedApps
      = (if x ∈ m.m_allowedApps then m.m_allowedApps else m.m_allowedApps ++ [x]) ∧
    (allowApp m x).m_blockedApps = m.m_blockedApps.filter (· != x) := by
  by_cases ha : x ∈ m.m_allowedApps <;> by_cases hb : x ∈ m.m_blockedApps
  · simp [allowApp, ha, hb, emit]
  · simp [allowApp, ha, hb, filter_ne_eq_self _ _ hb]
  · simp [allowApp, ha, hb, emit, saveSettings]
  · simp [allowApp, ha, hb, emit, saveSettings, filter_ne_eq_self _ _ hb]

theorem blockApp_lists (m : Manager) (now : Int) (x : String) :
    (blockApp m now x).m_blockedApps
      = (if x ∈ m.m_blockedApps then m.m_blockedApps else m.m_blockedApps ++ [x]) ∧
    (blockApp m now x).m_allowedApps = m.m_allowedApps.filter (· != x) := by
  have hframe : ∀ (m2 : Manager) (ids : List String),
      (removeEach m2 now ids).m_blockedApps = m2.m_blockedApps ∧
      (removeEach m2 now ids).m_allowedApps = m2.m_allowedApps := by
    intro m2 ids
    obtain ⟨n, h, e, heq⟩ := removeEach_frame now ids m2
    rw [heq]
    exact ⟨rfl, rfl⟩
  unfold blockApp
  dsimp only
  rw [(hframe _ _).1, (hframe _ _).2]
  by_cases hb : x ∈ m.m_blockedApps <;> by_cases ha : x ∈ m.m_allowedApps
  · simp [ha, hb, emit]
  · simp [ha, hb, filter_ne_eq_self _ _ ha]
  · simp [ha, hb, emit, saveSettings]
  · simp [ha, hb, emit, saveSettings, filter_ne_eq_self _ _ ha]

theorem mem_filter_ne (l : List String) (x y : String) :
    y ∈ l.filter (· != x) ↔ y ∈ l ∧ y ≠ x := by
  rw [List.mem_filter]
  constructor
  · intro h
    exact ⟨h.1, bne_iff_ne.mp h.2⟩
  · intro h
    exact ⟨h.1, bne_iff_ne.mpr h.2⟩

theorem mem_append_new (l : List String) (x y : String) :
    y ∈ (if x ∈ l then l else l ++ [x]) ↔ y ∈ l ∨ y = x := by
  by_cases hx : x ∈ l
  · rw [if_pos hx]
    constructor
    · exact Or.inl
    · intro h
      rcases h with h | h
      · exact h
      · exact h ▸ hx
  · rw [if_neg hx, List.mem_append, List.mem_singleton]

/-- C11: after `blockApp(x)` the app x is on the block-list and not on the
allow-list; after `allowApp(x)` it is on the allow-list and not on the
block-list; in both cases every other app id is on a list afterwards exactly
when it was on that list before. -/
theorem policy_lists_after_block_allow (m : Manager) (now : Int) (x : String) :
    (x ∈ (blockApp m now x).m_blockedApps ∧ x ∉ (blockApp m now x).m_allowedApps ∧
      ∀ y : String, y ≠ x →
        (y ∈ (blockApp m now x).m_blockedApps ↔ y ∈ m.m_blockedApps) ∧
        (y ∈ (blockApp m now x).m_allowedApps ↔ y ∈ m.m_allowedApps)) ∧
    (x ∈ (allowApp m x).m_allowedApps ∧ x ∉ (allowApp m x).m_blockedApps ∧
      ∀ y : String, y ≠ x →
        (y ∈ (allowApp m x).m_allowedApps ↔ y ∈ m.m_allowedApps) ∧
        (y ∈ (allowApp m x).m_blockedApps ↔ y ∈ m.m_blockedApps)) := by
  obtain ⟨hb1, hb2⟩ := blockApp_lists m now x
  obtain ⟨ha1, ha2⟩ := allowApp_lists m x
  rw [hb1, hb2, ha1, ha2]
  refine ⟨⟨?_, ?_, ?_⟩, ⟨?_, ?_, ?_⟩⟩
  · exact (mem_append_new _ x x).mpr (Or.inr rfl)
  · intro h
    exact ((mem_filter_ne _ x x).mp h).2 rfl
  · intro y hy
    rw [mem_append_new, mem_filter_ne]
    exact ⟨⟨fun h => h.resolve_right hy, Or.inl⟩, ⟨fun h => h.1, fun h => ⟨h, hy⟩⟩⟩
  · exact (mem_append_new _ x x).mpr (Or.inr rfl)
  · intro h
    exact ((mem_filter_ne _ x x).mp h).2 rfl
  · intro y hy
    rw [mem_append_new, mem_filter_ne]
    exact ⟨⟨fun h => h.resolve_right hy, Or.inl⟩, ⟨fun h => h.1, fun h => ⟨h, hy⟩⟩⟩

/-- C11 at a policy with two allowed apps and one blocked app: blocking an
allowed app and allowing the blocked one. -/
theorem policy_lists_after_block_allow_witness :
    ("com.whatsapp" ∈ (blockApp mixedPolicy 0 "com.whatsapp").m_blockedApps ∧
      "com.whatsapp" ∉ (blockApp mixedPolicy 0 "com.whatsapp").m_allowedApps ∧
      ("com.google.Gmail" ∈ (blockApp mixedPolicy 0 "com.whatsapp").m_allowedApps
        ↔ "com.google.Gmail" ∈ mixedPolicy.m_allowedApps)) ∧
    ("com.apple.mobilecal" ∈ (allowApp mixedPolicy "com.apple.mobilecal").m_allowedApps ∧
      "com.apple.mobilecal" ∉ (allowApp mixedPolicy "com.apple.mobilecal").m_blockedApps) :=
  ⟨⟨(policy_lists_after_block_allow mixedPolicy 0 "com.whatsapp").1.1,
    (policy_lists_after_block_allow mixedPolicy 0 "com.whatsapp").1.2.1,
    ((policy_lists_after_block_allow mixedPolicy 0 "com.whatsapp").1.2.2
      "com.google.Gmail" (by decide)).2⟩,
   ⟨(policy_lists_after_block_allow mixedPolicy 0 "com.apple.mobilecal").2.1,
    (policy_lists_after_block_allow mixedPolicy 0 "com.apple.mobilecal").2.2.1⟩⟩

/-- C12 as stated fails for the two setters: with `com.whatsapp` on the
block-list and an empty allow-list the lists share no id, and after
`setAllowedApps(["com.whatsapp"])` they share `com.whatsapp`; likewise
`setBlockedApps` with an allowed app. -/
theorem setters_break_exclusion :
    (Exclusive whatsappBlocked ∧
      ¬ Exclusive (setAllowedApps whatsappBlocked ["com.whatsapp"])) ∧
    (Exclusive mixedPolicy ∧
      ¬ Exclusive (setBlockedApps mixedPolicy ["com.google.Gmail"])) := by
  refine ⟨⟨?_, ?_⟩, ⟨?_, ?_⟩⟩
  · intro a ha
    exact absurd ha (List.not_mem_nil a)
  · intro h
    exact h "com.whatsapp" (by decide) (by decide)
  · unfold Exclusive
    decide
  · intro h
    exact h "com.google.Gmail" (by decide) (by decide)

/-- C12, amended: `allowApp` and `blockApp` keep the two lists free of a
common id; `setAllowedApps` and `setBlockedApps` store the given list as it
is, so afterwards the lists share no id exactly when the given list shares
none with the other list. -/
theorem exclusion_preserved (m : Manager) (now : Int) (x : String) (apps : List String)
    (h : Exclusive m) :
    Exclusive (allowApp m x) ∧
    Exclusive (blockApp m now x) ∧
    ((setAllowedApps m apps).m_allowedApps = apps ∧
      (setAllowedApps m apps).m_blockedApps = m.m_blockedApps ∧
      (Exclusive (setAllowedApps m apps) ↔ ∀ a ∈ apps, a ∉ m.m_blockedApps)) ∧
    ((setBlockedApps m apps).m_blockedApps = apps ∧
      (setBlockedApps m apps).m_allowedApps = m.m_allowedApps ∧
      (Exclusive (setBlockedApps m apps) ↔ ∀ a ∈ m.m_allowedApps, a ∉ apps)) := by
  refine ⟨?_, ?_, ⟨rfl, rfl, Iff.rfl⟩, ⟨rfl, rfl, Iff.rfl⟩⟩
  · intro a ha hb
    rw [(allowApp_lists m x).1, mem_append_new] at ha
    rw [(allowApp_lists m x).2, mem_filter_ne] at hb
    rcases ha with ha | ha
    · exact h a ha hb.1
    · exact hb.2 ha
  · intro a ha hb
    rw [(blockApp_lists m now x).2, mem_filter_ne] at ha
    rw [(blockApp_lists m now x).1, mem_append_new] at hb
    rcases hb with hb | hb
    · exact h a ha.1 hb
    · exact ha.2 hb

/-- C12, amended, at a policy with two allowed apps and one blocked app. -/
theorem exclusion_preserved_witness :
    Exclusive (allowApp mixedPolicy "com.apple.mobilecal") ∧
    Exclusive (blockApp mixedPolicy 0 "com.whatsapp") ∧
    (Exclusive (setAllowedApps mixedPolicy ["com.whatsapp"])
      ↔ ∀ a ∈ ["com.whatsapp"], a ∉ mixedPolicy.m_blockedApps) :=
  ⟨(exclusion_preserved mixedPolicy 0 "com.apple.mobilecal" [] (by unfold Exclusive; decide)).1,
   (exclusion_preserved mixedPolicy 0 "com.whatsapp" [] (by unfold Exclusive; decide)).2.1,
   (exclusion_preserved mixedPolicy 0 "com.whatsapp" ["com.whatsapp"]
      (by unfold Exclusive; decide)).2.2.1.2.2⟩

/-! ## Snoozing -/

theorem findNotification_append (notificationId : String) (pre : List Notification)
    (x : Notification) (post : List Notification)
    (hpre : ∀ y ∈ pre, y.id ≠ notificationId) (hx : x.id = notificationId) :
    findNotification notificationId (pre ++ x :: post) = some x := by
  unfold findNotification
  induction pre with
  | nil => simp [hx]
  | cons n rest ih =>
    have hn : (n.id == notificationId) = false := by
      simpa using hpre n (List.mem_cons_self n rest)
    rw [List.cons_append, List.find?_cons, hn]
    exact ih (fun y hy => hpre y (List.mem_cons_of_mem n hy))

theorem findNotification_none (notificationId : String) (l : List Notification)
    (h : ∀ y ∈ l, y.id ≠ notificationId) : findNotification notificationId l = none := by
  unfold findNotification
  rw [List.find?_eq_none]
  intro y hy
  simpa using h y hy

theorem snoozeNotification_absent (m : Manager) (now : Int) (notificationId : String)
    (minutes : Int) (h : ∀ y ∈ m.m_notifications, y.id ≠ notificationId) :
    snoozeNotification m now notificationId minutes = m := by
  unfold snoozeNotification
  rw [findNotification_none notificationId _ h]

theorem snoozeNotification_found (m : Manager) (now : Int) (notificationId : String)
    (minutes : Int) (pre : List Notification) (x : Notification) (post : List Notification)
    (hl : m.m_notifications = pre ++ x :: post)
    (hpre : ∀ y ∈ pre, y.id ≠ notificationId) (hx : x.id = notificationId) :
    snoozeNotification m now notificationId minutes =
      { m with
        m_notifications := pre ++ post
        m_history := (dismissedCopy now x :: m.m_history).take 100
        emitted := m.emitted ++ removalSignals
        nextHandle := m.nextHandle + 1
        m_snoozeTimers := mapInsert notificationId m.nextHandle m.m_snoozeTimers
        timers := m.timers ++
          [{ handle := m.nextHandle, notification := x,
             interval := snoozeInterval minutes, startedAt := now }] } := by
  have hfind : findNotification notificationId m.m_notifications = some x := by
    rw [hl]
    exact findNotification_append notificationId pre x post hpre hx
  unfold snoozeNotification
  rw [hfind]
  dsimp only
  rw [removeNotification_found m now notificationId pre x post hl hpre hx]

/-- C13 as stated fails: snoozing the only active record "ancs_42" of a
reachable state with an empty history leaves the history with one entry, the
copy of that record with dismissedAt set. -/
theorem snooze_writes_history :
    Reachable oneArrived ∧
    oneArrived.m_notifications.map (·.id) = ["ancs_42"] ∧
    oneArrived.m_history = [] ∧
    (snoozeNotification oneArrived 5 "ancs_42" 1).m_history.map
        (fun n : Notification => (n.id, n.dismissedAt)) = [("ancs_42", some 5)] ∧
    (snoozeNotification oneArrived 5 "ancs_42" 1).m_history ≠ oneArrived.m_history := by
  refine ⟨⟨_, _, _, rfl⟩, by decide, by decide, by decide, by decide⟩

/-- C13, amended: when some active record has the id, `snoozeNotification`
takes the first such record out of the active list through
`removeNotification`, so a copy with dismissedAt set is also put at the head
of the history (capped at 100); it registers the id in the timer registry and
starts a single-shot timer that holds the record as it was in the active
list; nothing else changes but the signal trace.  When no active record has
the id, the call changes nothing. -/
theorem snoozeNotification_effect (m : Manager) (now : Int) (notificationId : String)
    (minutes : Int) :
    ((∃ y ∈ m.m_notifications, y.id = notificationId) →
      ∃ pre x post, m.m_notifications = pre ++ x :: post ∧
        (∀ y ∈ pre, y.id ≠ notificationId) ∧ x.id = notificationId ∧
        (snoozeNotification m now notificationId minutes).m_notifications = pre ++ post ∧
        (snoozeNotification m now notificationId minutes).m_history
          = ({ x with dismissedAt := some now } :: m.m_history).take 100 ∧
        (snoozeNotification m now notificationId minutes).timers
          = m.timers ++ [{ handle := m.nextHandle, notification := x,
                           interval := snoozeInterval minutes, startedAt := now }] ∧
        (snoozeNotification m now notificationId minutes).m_snoozeTimers
          = (notificationId, m.nextHandle)
              :: m.m_snoozeTimers.filter (fun e => e.1 != notificationId) ∧
        (snoozeNotification m now notificationId minutes).m_allowedApps = m.m_allowedApps ∧
        (snoozeNotification m now notificationId minutes).m_blockedApps = m.m_blockedApps ∧
        (snoozeNotification m now notificationId minutes).written = m.written) ∧
    ((∀ y ∈ m.m_notifications, y.id ≠ notificationId) →
      snoozeNotification m now notificationId minutes = m) := by
  refine ⟨fun h => ?_, snoozeNotification_absent m now notificationId minutes⟩
  obtain ⟨pre, x, post, hl, hpre, hx⟩ := exists_first_with_id notificationId _ h
  refine ⟨pre, x, post, hl, hpre, hx, ?_⟩
  rw [snoozeNotification_found m now notificationId minutes pre x post hl hpre hx]
  exact ⟨rfl, rfl, rfl, rfl, rfl, rfl, rfl⟩

/-- C13, amended, at the state in which the scenario record has arrived. -/
theorem snoozeNotification_effect_witness :
    ∃ pre x post, oneArrived.m_notifications = pre ++ x :: post ∧
      (∀ y ∈ pre, y.id ≠ "ancs_42") ∧ x.id = "ancs_42" ∧
      (snoozeNotification oneArrived 5 "ancs_42" 1).m_notifications = pre ++ post ∧
      (snoozeNotification oneArrived 5 "ancs_42" 1).m_history
        = ({ x with dismissedAt := some 5 } :: oneArrived.m_history).take 100 ∧
      (snoozeNotification oneArrived 5 "ancs_42" 1).timers
        = oneArrived.timers ++ [{ handle := oneArrived.nextHandle, notification := x,
                                  interval := snoozeInterval 1, startedAt := 5 }] ∧
      (snoozeNotification oneArrived 5 "ancs_42" 1).m_snoozeTimers
        = ("ancs_42", oneArrived.nextHandle)
            :: oneArrived.m_snoozeTimers.filter (fun e => e.1 != "ancs_42") ∧
      (snoozeNotification oneArrived 5 "ancs_42" 1).m_allowedApps = oneArrived.m_allowedApps ∧
      (snoozeNotification oneArrived 5 "ancs_42" 1).m_blockedApps = oneArrived.m_blockedApps ∧
      (snoozeNotification oneArrived 5 "ancs_42" 1).written = oneArrived.written :=
  (snoozeNotification_effect oneArrived 5 "ancs_42" 1).1 (by decide)

/-! ## Resurfacing -/

theorem registry_filter_of_not_found (reg : List (String × Nat)) (id : String)
    (h : reg.find? (fun e => e.1 == id) = none) :
    reg.filter (fun x => x.1 != id) = reg := by
  rw [List.filter_eq_self]
  intro e he
  rw [List.find?_eq_none] at h
  have := h e he
  exact bne_iff_ne.mpr (fun hc => this (by simp [hc]))

theorem addNotification_timers (m : Manager) (tm : List SnoozeTimer) (r : Notification) :
    addNotification { m with timers := tm } r = { addNotification m r with timers := tm } := by
  cases hp : passesPolicy m r
  · have hp0 : passesPolicy { m with timers := tm } r = false := hp
    rw [addNotification_rejected _ _ hp0, addNotification_rejected _ _ hp]
  · have hp0 : passesPolicy { m with timers := tm } r = true := hp
    rw [addNotification_accepted _ _ hp0, addNotification_accepted _ _ hp]

/-- The only members `addNotification` writes are the active list and the
signal trace. -/
theorem addNotification_frame (m : Manager) (r : Notification) :
    ∃ n e, addNotification m r = { m with m_notifications := n, emitted := e } := by
  cases hp : passesPolicy m r
  · exact ⟨m.m_notifications, m.emitted, addNotification_rejected m r hp⟩
  · exact ⟨_, _, addNotification_accepted m r hp⟩

/-- What a firing does.  The pending timer `t` with the given handle hands its
record, marked as snoozed, to `addNotification`; the timer is no longer
pending, the timer the registry names for the id is deleted and the registry
entry of the id is removed. -/
theorem onSnoozeTimeout_fired (m : Manager) (handle : Nat) (t : SnoozeTimer)
    (hfind : m.timers.find? (fun t => t.handle == handle) = some t) :
    onSnoozeTimeout m handle =
      { addNotification m (resurfaced t.notification) with
        timers := timersAfterFiring m handle t.notification.id
        m_snoozeTimers := m.m_snoozeTimers.filter (fun x => x.1 != t.notification.id) } := by
  obtain ⟨n, e, hadd⟩ := addNotification_frame m (resurfaced t.notification)
  have hbody : onSnoozeTimeout m handle =
      (match (addNotification { m with timers := m.timers.filter (fun x => x.handle != handle) }
          (resurfaced t.notification)).m_snoozeTimers.find?
            (fun e => e.1 == t.notification.id) with
        | none => addNotification
            { m with timers := m.timers.filter (fun x => x.handle != handle) }
            (resurfaced t.notification)
        | some e =>
          { addNotification
              { m with timers := m.timers.filter (fun x => x.handle != handle) }
              (resurfaced t.notification) with
            timers := (addNotification
              { m with timers := m.timers.filter (fun x => x.handle != handle) }
              (resurfaced t.notification)).timers.filter (fun x => x.handle != e.2)
            m_snoozeTimers := (addNotification
              { m with timers := m.timers.filter (fun x => x.handle != handle) }
              (resurfaced t.notification)).m_snoozeTimers.filter
                (fun x => x.1 != t.notification.id) }) := by
    unfold onSnoozeTimeout
    rw [hfind]
    rfl
  rw [hbody, addNotification_timers, hadd]
  unfold timersAfterFiring
  cases hreg : m.m_snoozeTimers.find? (fun e => e.1 == t.notification.id) with
  | none =>
    simp only [hreg]
    rw [registry_filter_of_not_found _ _ hreg]
  | some e => simp only [hreg]

theorem onSnoozeTimeout_not_pending (m : Manager) (handle : Nat)
    (hfind : m.timers.find? (fun t => t.handle == handle) = none) :
    onSnoozeTimeout m handle = m := by
  unfold onSnoozeTimeout
  rw [hfind]

/-- A pending timer that fires while the policy admits its record puts the
record, marked as snoozed, at the head of the active list. -/
theorem onSnoozeTimeout_accepted (m : Manager) (handle : Nat) (t : SnoozeTimer)
    (hfind : m.timers.find? (fun t => t.handle == handle) = some t)
    (hp : passesPolicy m (resurfaced t.notification) = true) :
    (onSnoozeTimeout m handle).m_notifications
      = resurfaced t.notification :: m.m_notifications := by
  rw [onSnoozeTimeout_fired m handle t hfind]
  show (addNotification m (resurfaced t.notification)).m_notifications = _
  rw [addNotification_accepted m _ hp]

/-- C15 as stated fails: the scenario record is snoozed and, while it is
parked, its app is blocked (or do-not-disturb is enabled); when the timer
fires the record is not re-inserted, the active list stays empty and no timer
is left that could bring it back. -/
theorem resurfacing_is_filtered :
    (Reachable blockedWhileParked ∧ blockedWhileParked.m_notifications = [] ∧
      blockedWhileParked.timers = []) ∧
    (Reachable dndWhileParked ∧ dndWhileParked.m_notifications = [] ∧
      dndWhileParked.timers = []) := by
  refine ⟨⟨⟨_, _, _, rfl⟩, by decide, by decide⟩, ⟨⟨_, _, _, rfl⟩, by decide, by decide⟩⟩

/-- C15, amended: resurfacing goes through `addNotification`, so the policy of
the moment of firing decides.  When the pending timer fires, its record
(marked as snoozed) is put at the head of the active list exactly when its app
is not blocked, the allow-list is empty or holds the app, and do-not-disturb
is off or the priority is Urgent; otherwise the active list is unchanged and
the record is dropped.  In both cases the timer is no longer pending and the
registry has no entry for the id. -/
theorem resurfacing_applies_policy (m : Manager) (handle : Nat) (t : SnoozeTimer)
    (hfind : m.timers.find? (fun t => t.handle == handle) = some t) :
    (passesPolicy m (resurfaced t.notification) = true →
      (onSnoozeTimeout m handle).m_notifications
        = resurfaced t.notification :: m.m_notifications) ∧
    (passesPolicy m (resurfaced t.notification) = false →
      (onSnoozeTimeout m handle).m_notifications = m.m_notifications ∧
      (onSnoozeTimeout m handle).emitted = m.emitted) ∧
    (passesPolicy m (resurfaced t.notification) = true ↔
      t.notification.appId ∉ m.m_blockedApps ∧
      (m.m_allowedApps = [] ∨ t.notification.appId ∈ m.m_allowedApps) ∧
      (m.m_doNotDisturb = false ∨ t.notification.priority = Urgent)) ∧
    (∀ x ∈ (onSnoozeTimeout m handle).timers, x.handle ≠ handle) ∧
    (∀ e ∈ (onSnoozeTimeout m handle).m_snoozeTimers, e.1 ≠ t.notification.id) := by
  refine ⟨onSnoozeTimeout_accepted m handle t hfind, ?_⟩
  rw [onSnoozeTimeout_fired m handle t hfind]
  refine ⟨?_, passesPolicy_iff m (resurfaced t.notification), ?_, ?_⟩
  · intro hp
    show (addNotification m (resurfaced t.notification)).m_notifications = _ ∧
      (addNotification m (resurfaced t.notification)).emitted = _
    rw [addNotification_rejected m _ hp]
    exact ⟨rfl, rfl⟩
  · intro x hx
    have hx2 : x ∈ timersAfterFiring m handle t.notification.id := hx
    have hmem : x ∈ m.timers.filter (fun x => x.handle != handle) := by
      unfold timersAfterFiring at hx2
      split at hx2
      · exact hx2
      · exact (List.mem_filter.mp hx2).1
    exact bne_iff_ne.mp (List.mem_filter.mp hmem).2
  · intro e he
    have he2 : e ∈ m.m_snoozeTimers.filter (fun x => x.1 != t.notification.id) := he
    exact bne_iff_ne.mp (List.mem_filter.mp he2).2

/-- C15, amended, at the state in which the scenario record is parked and its
app has been blocked: the firing leaves the active list unchanged. -/
theorem resurfacing_applies_policy_witness :
    (onSnoozeTimeout
        (run oneArrived [Op.snoozeNotification 5 "ancs_42" 1, Op.blockApp 10 "unknown"])
        0).m_notifications
      = (run oneArrived
          [Op.snoozeNotification 5 "ancs_42" 1, Op.blockApp 10 "unknown"]).m_notifications ∧
    (onSnoozeTimeout (run oneArrived [Op.snoozeNotification 5 "ancs_42" 1]) 0).m_notifications.map
        (fun n : Notification => (n.id, n.snoozed)) = [("ancs_42", true)] :=
  ⟨((resurfacing_applies_policy
      (run oneArrived [Op.snoozeNotification 5 "ancs_42" 1, Op.blockApp 10 "unknown"]) 0
      ((run oneArrived [Op.snoozeNotification 5 "ancs_42" 1]).timers.headD
        ⟨0, sampleRecord, 0, 0⟩) (by decide)).2.1 (by decide)).1,
   by decide⟩

/-! ## No cancellation of snooze timers -/

theorem sendAncsCommand_frame (m : Manager) (command : Byte) (notificationId : String) :
    ∃ w, sendAncsCommand m command notificationId = { m with written := w } := by
  unfold sendAncsCommand
  split
  · exact ⟨m.written, rfl⟩
  · split
    · exact ⟨m.written, rfl⟩
    · exact ⟨_, rfl⟩

/-- The only members `dismissNotification` writes are the active list, the
history and the two traces. -/
theorem dismissNotification_frame (m : Manager) (now : Int) (notificationId : String) :
    ∃ n h e w, dismissNotification m now notificationId =
      { m with m_notifications := n, m_history := h, emitted := e, written := w } := by
  have key : ∀ m0 : Manager, (∃ w, m0 = { m with written := w }) →
      ∃ n h e w, emit (removeNotification m0 now notificationId)
          (Signal.notificationDismissed notificationId) =
        { m with m_notifications := n, m_history := h, emitted := e, written := w } := by
    intro m0 hm0
    obtain ⟨w, rfl⟩ := hm0
    obtain ⟨n, h, e, hrem⟩ := removeNotification_frame { m with written := w } now notificationId
    rw [hrem]
    exact ⟨n, h, e ++ [Signal.notificationDismissed notificationId], w, rfl⟩
  unfold dismissNotification
  dsimp only
  split
  · exact key m ⟨m.written, rfl⟩
  · split
    · exact key _ (sendAncsCommand_frame m 2 notificationId)
    · exact key m ⟨m.written, rfl⟩

/-- C16 as stated fails: the scenario record is snoozed, then its id is
dismissed and the history is cleared.  The timer is still pending and still
registered afterwards, and when it fires the record is back in the active
list. -/
theorem dismissed_record_resurfaces :
    Reachable dismissedWhileParked ∧
    dismissedWhileParked.m_notifications = [] ∧
    dismissedWhileParked.timers.map (fun t : SnoozeTimer => (t.handle, t.notification.id))
      = [(0, "ancs_42")] ∧
    dismissedWhileParked.m_snoozeTimers = [("ancs_42", 0)] ∧
    (onSnoozeTimeout dismissedWhileParked 0).m_notifications.map (·.id) = ["ancs_42"] := by
  refine ⟨⟨_, _, _, rfl⟩, by decide, by decide, by decide, by decide⟩

/-- C16, amended: the class has no cancellation of snooze timers.
`dismissNotification(id)` and `clearHistory()` leave the pending timers, the
registry and the policy as they are, so a timer that was pending before is
pending afterwards, and when it fires while the policy admits its record the
record is re-inserted at the head of the active list. -/
theorem dismiss_and_clear_keep_timers (m : Manager) (now : Int) (notificationId : String) :
    ((dismissNotification m now notificationId).timers = m.timers ∧
      (dismissNotification m now notificationId).m_snoozeTimers = m.m_snoozeTimers ∧
      (clearHistory m).timers = m.timers ∧
      (clearHistory m).m_snoozeTimers = m.m_snoozeTimers) ∧
    (∀ (handle : Nat) (t : SnoozeTimer),
      m.timers.find? (fun t => t.handle == handle) = some t →
      passesPolicy m (resurfaced t.notification) = true →
      (onSnoozeTimeout (dismissNotification m now notificationId) handle).m_notifications
        = resurfaced t.notification
            :: (dismissNotification m now notificationId).m_notifications ∧
      (onSnoozeTimeout (clearHistory m) handle).m_notifications
        = resurfaced t.notification :: (clearHistory m).m_notifications) := by
  obtain ⟨n, h, e, w, hd⟩ := dismissNotification_frame m now notificationId
  refine ⟨⟨by rw [hd], by rw [hd], rfl, rfl⟩, ?_⟩
  intro handle t hfind hp
  constructor
  · have hfind2 : (dismissNotification m now notificationId).timers.find?
        (fun t => t.handle == handle) = some t := by
      rw [hd]
      exact hfind
    have hp2 : passesPolicy (dismissNotification m now notificationId)
        (resurfaced t.notification) = true := by
      rw [hd]
      exact hp
    exact onSnoozeTimeout_accepted _ handle t hfind2 hp2
  · exact onSnoozeTimeout_accepted (clearHistory m) handle t hfind hp

/-- C16, amended, at the state in which the scenario record is parked. -/
theorem dismiss_and_clear_keep_timers_witness :
    (dismissNotification (run oneArrived [Op.snoozeNotification 5 "ancs_42" 1]) 6
        "ancs_42").timers
      = (run oneArrived [Op.snoozeNotification 5 "ancs_42" 1]).timers ∧
    (clearHistory (run oneArrived [Op.snoozeNotification 5 "ancs_42" 1])).m_snoozeTimers
      = (run oneArrived [Op.snoozeNotification 5 "ancs_42" 1]).m_snoozeTimers :=
  ⟨(dismiss_and_clear_keep_timers (run oneArrived [Op.snoozeNotification 5 "ancs_42" 1]) 6
      "ancs_42").1.1,
   (dismiss_and_clear_keep_timers (run oneArrived [Op.snoozeNotification 5 "ancs_42" 1]) 6
      "ancs_42").1.2.2.2⟩

/-! ## Invariants of the active and the parked records -/

section Parked

variable {G : Notification → Prop} {H : SnoozeTimer → Prop} {B : Nat}

theorem pk_same {m m2 : Manager} (h : ParkedInvariant G H B m)
    (hn : m2.m_notifications = m.m_notifications) (ht : m2.timers = m.timers)
    (hh : m2.nextHandle = m.nextHandle) : ParkedInvariant G H B m2 :=
  ⟨hn ▸ h.active_ok, by rw [ht, hh]; exact h.timers_ok, hh ▸ h.bound⟩

theorem pk_emit {m : Manager} (h : ParkedInvariant G H B m) (s : Signal) :
    ParkedInvariant G H B (emit m s) :=
  pk_same h rfl rfl rfl

theorem pk_saveSettings {m : Manager} (h : ParkedInvariant G H B m) :
    ParkedInvariant G H B (saveSettings m) :=
  pk_same h rfl rfl rfl

theorem pk_addNotification {m : Manager} (h : ParkedInvariant G H B m) (r : Notification)
    (hr : G r) : ParkedInvariant G H B (addNotification m r) := by
  cases hp : passesPolicy m r
  · rw [addNotification_rejected m r hp]
    exact h
  · rw [addNotification_accepted m r hp]
    refine ⟨?_, h.timers_ok, h.bound⟩
    intro x hx
    rcases List.mem_cons.mp hx with rfl | hx
    · exact hr
    · exact h.active_ok x hx

theorem pk_removeNotification {m : Manager} (h : ParkedInvariant G H B m) (now : Int)
    (notificationId : String) :
    ParkedInvariant G H B (removeNotification m now notificationId) := by
  by_cases hex : ∃ y ∈ m.m_notifications, y.id = notificationId
  · obtain ⟨pre, x, post, hl, hpre, hx⟩ := exists_first_with_id notificationId _ hex
    rw [removeNotification_found m now notificationId pre x post hl hpre hx]
    refine ⟨?_, h.timers_ok, h.bound⟩
    intro r hr
    apply h.active_ok
    rw [hl]
    rcases List.mem_append.mp hr with hr | hr
    · exact List.mem_append_left _ hr
    · exact List.mem_append_right _ (List.mem_cons_of_mem x hr)
  · rw [removeNotification_absent m now notificationId (fun y hy hid => hex ⟨y, hy, hid⟩)]
    exact h

theorem pk_removeEach (now : Int) (ids : List String) :
    ∀ {m : Manager}, ParkedInvariant G H B m → ParkedInvariant G H B (removeEach m now ids) := by
  induction ids with
  | nil => intro m h; exact h
  | cons id rest ih =>
    intro m h
    rw [removeEach_cons]
    exact ih (pk_removeNotification h now id)

theorem pk_sendAncsCommand {m : Manager} (h : ParkedInvariant G H B m) (command : Byte)
    (notificationId : String) :
    ParkedInvariant G H B (sendAncsCommand m command notificationId) := by
  obtain ⟨w, hw⟩ := sendAncsCommand_frame m command notificationId
  rw [hw]
  exact pk_same h rfl rfl rfl

theorem pk_dismissNotification {m : Manager} (h : ParkedInvariant G H B m) (now : Int)
    (notificationId : String) :
    ParkedInvariant G H B (dismissNotification m now notificationId) := by
  unfold dismissNotification
  apply pk_emit
  split
  · exact pk_removeNotification h now notificationId
  · apply pk_removeNotification
    split
    · exact pk_sendAncsCommand h 2 notificationId
    · exact h

theorem pk_dismissAll_loop (now : Int) (ids : List String) :
    ∀ {m : Manager}, ParkedInvariant G H B m →
      ParkedInvariant G H B (ids.foldl (fun acc id => dismissNotification acc now id) m) := by
  induction ids with
  | nil => intro m h; exact h
  | cons id rest ih =>
    intro m h
    exact ih (pk_dismissNotification h now id)

theorem markFirstRead_origin (notificationId : String) :
    ∀ (l l2 : List Notification), markFirstRead notificationId l = some l2 →
      ∀ r ∈ l2, r ∈ l ∨ ∃ r0 ∈ l, r = { r0 with read := true } := by
  intro l
  induction l with
  | nil => intro l2 h; simp [markFirstRead] at h
  | cons n rest ih =>
    intro l2 h r hr
    unfold markFirstRead at h
    by_cases hn : (n.id == notificationId) = true
    · rw [if_pos hn] at h
      rw [← Option.some.inj h] at hr
      rcases List.mem_cons.mp hr with rfl | hr
      · exact Or.inr ⟨n, List.mem_cons_self n rest, rfl⟩
      · exact Or.inl (List.mem_cons_of_mem n hr)
    · rw [if_neg hn] at h
      cases hm : markFirstRead notificationId rest with
      | none => rw [hm] at h; simp at h
      | some l3 =>
        rw [hm] at h
        rw [← Option.some.inj h] at hr
        rcases List.mem_cons.mp hr with rfl | hr
        · exact Or.inl (List.mem_cons_self r rest)
        · rcases ih l3 hm r hr with h1 | ⟨r0, hr0, h1⟩
          · exact Or.inl (List.mem_cons_of_mem n h1)
          · exact Or.inr ⟨r0, List.mem_cons_of_mem n hr0, h1⟩

theorem pk_markAsRead (hA : Admissible G H B) {m : Manager} (h : ParkedInvariant G H B m)
    (notificationId : String) : ParkedInvariant G H B (markAsRead m notificationId) := by
  unfold markAsRead
  split
  · exact h
  · rename_i l hl
    dsimp only
    apply pk_emit
    apply pk_emit
    apply pk_emit
    refine ⟨?_, h.timers_ok, h.bound⟩
    intro r hr
    rcases markFirstRead_origin notificationId _ l hl r hr with h1 | ⟨r0, hr0, h1⟩
    · exact h.active_ok r h1
    · rw [h1]
      exact hA.read r0 (h.active_ok r0 hr0)

theorem pk_replyToNotification (hA : Admissible G H B) {m : Manager}
    (h : ParkedInvariant G H B m) (now : Int) (notificationId message : String) :
    ParkedInvariant G H B (replyToNotification m now notificationId message) := by
  unfold replyToNotification
  split
  · apply pk_emit
    apply pk_dismissNotification
    exact pk_addNotification h _ (hA.echo now notificationId message)
  · exact pk_emit h _

theorem pk_openNotification {m : Manager} (h : ParkedInvariant G H B m) (now : Int)
    (notificationId : String) :
    ParkedInvariant G H B (openNotification m now notificationId) := by
  unfold openNotification
  apply pk_removeNotification
  split
  · exact pk_sendAncsCommand h 0 notificationId
  · exact h

theorem pk_snoozeNotification (hA : Admissible G H B) {m : Manager}
    (h : ParkedInvariant G H B m) (now : Int) (notificationId : String) (minutes : Int) :
    ParkedInvariant G H B (snoozeNotification m now notificationId minutes) := by
  by_cases hex : ∃ y ∈ m.m_notifications, y.id = notificationId
  · obtain ⟨pre, x, post, hl, hpre, hx⟩ := exists_first_with_id notificationId _ hex
    have hxG : G x := h.active_ok x (by rw [hl]; simp)
    rw [snoozeNotification_found m now notificationId minutes pre x post hl hpre hx]
    refine ⟨?_, ?_, Nat.le_succ_of_le h.bound⟩
    · intro r hr
      apply h.active_ok
      rw [hl]
      rcases List.mem_append.mp hr with hr | hr
      · exact List.mem_append_left _ hr
      · exact List.mem_append_right _ (List.mem_cons_of_mem x hr)
    · intro t ht
      rcases List.mem_append.mp ht with ht | ht
      · obtain ⟨h1, h2, h3⟩ := h.timers_ok t ht
        exact ⟨h1, h2, Nat.lt_succ_of_lt h3⟩
      · rw [List.mem_singleton.mp ht]
        exact ⟨hxG, hA.fresh _ _ _ _ h.bound hxG, Nat.lt_succ_self _⟩
  · rw [snoozeNotification_absent m now notificationId minutes
      (fun y hy hid => hex ⟨y, hy, hid⟩)]
    exact h

theorem pk_onSnoozeTimeout (hA : Admissible G H B) {m : Manager}
    (h : ParkedInvariant G H B m) (handle : Nat) :
    ParkedInvariant G H B (onSnoozeTimeout m handle) := by
  cases hfind : m.timers.find? (fun t => t.handle == handle) with
  | none =>
    rw [onSnoozeTimeout_not_pending m handle hfind]
    exact h
  | some t =>
    have hmem : t ∈ m.timers := List.mem_of_find?_eq_some hfind
    have h1 := pk_addNotification h (resurfaced t.notification)
      (hA.snoozed _ (h.timers_ok t hmem).1)
    obtain ⟨n, e, hadd⟩ := addNotification_frame m (resurfaced t.notification)
    rw [onSnoozeTimeout_fired m handle t hfind]
    rw [hadd] at h1 ⊢
    refine ⟨h1.active_ok, ?_, h1.bound⟩
    intro x hx
    have hx2 : x ∈ timersAfterFiring m handle t.notification.id := hx
    have hx3 : x ∈ m.timers := by
      unfold timersAfterFiring at hx2
      split at hx2
      · exact (List.mem_filter.mp hx2).1
      · exact (List.mem_filter.mp (List.mem_filter.mp hx2).1).1
    exact h.timers_ok x hx3

end Parked

section ParkedSteps

variable {G : Notification → Prop} {H : SnoozeTimer → Prop} {B : Nat}

theorem pk_setDoNotDisturb {m : Manager} (h : ParkedInvariant G H B m) (now : Int)
    (enabled : Bool) : ParkedInvariant G H B (setDoNotDisturb m now enabled) := by
  unfold setDoNotDisturb
  split
  · dsimp only
    have h3 : ParkedInvariant G H B
        (saveSettings (emit { m with m_doNotDisturb := enabled } Signal.doNotDisturbChanged)) :=
      pk_same h rfl rfl rfl
    split
    · exact pk_removeEach now _ h3
    · exact h3
  · exact h

theorem pk_allowApp {m : Manager} (h : ParkedInvariant G H B m) (appId : String) :
    ParkedInvariant G H B (allowApp m appId) := by
  have h1 : ParkedInvariant G H B
      (if !m.m_allowedApps.contains appId then
        saveSettings (emit { m with m_allowedApps := m.m_allowedApps ++ [appId] }
          Signal.allowedAppsChanged)
      else m) := by
    split
    · exact pk_same h rfl rfl rfl
    · exact h
  have key : ∀ m1 : Manager, ParkedInvariant G H B m1 →
      ParkedInvariant G H B
        (if m1.m_blockedApps.contains appId then
          emit { m1 with m_blockedApps := m1.m_blockedApps.filter (· != appId) }
            Signal.blockedAppsChanged
        else m1) := by
    intro m1 hm1
    split
    · exact pk_same hm1 rfl rfl rfl
    · exact hm1
  exact key _ h1

theorem pk_blockApp {m : Manager} (h : ParkedInvariant G H B m) (now : Int) (appId : String) :
    ParkedInvariant G H B (blockApp m now appId) := by
  have h1 : ParkedInvariant G H B
      (if !m.m_blockedApps.contains appId then
        saveSettings (emit { m with m_blockedApps := m.m_blockedApps ++ [appId] }
          Signal.blockedAppsChanged)
      else m) := by
    split
    · exact pk_same h rfl rfl rfl
    · exact h
  have key : ∀ m1 : Manager, ParkedInvariant G H B m1 →
      ParkedInvariant G H B
        (if m1.m_allowedApps.contains appId then
          emit { m1 with m_allowedApps := m1.m_allowedApps.filter (· != appId) }
            Signal.allowedAppsChanged
        else m1) := by
    intro m1 hm1
    split
    · exact pk_same hm1 rfl rfl rfl
    · exact hm1
  exact pk_removeEach now _ (key _ h1)

theorem pk_setShowPreviews {m : Manager} (h : ParkedInvariant G H B m) (enabled : Bool) :
    ParkedInvariant G H B (setShowPreviews m enabled) := by
  unfold setShowPreviews
  split
  · exact pk_same h rfl rfl rfl
  · exact h

theorem pk_sendQuickReply (hA : Admissible G H B) {m : Manager}
    (h : ParkedInvariant G H B m) (now : Int) (notificationId : String) (replyIndex : Int) :
    ParkedInvariant G H B (sendQuickReply m now notificationId replyIndex) := by
  unfold sendQuickReply
  split
  · exact h
  · split
    · exact h
    · exact pk_replyToNotification hA h now notificationId _

theorem pk_onNotificationTimeout {m : Manager} (h : ParkedInvariant G H B m) (now : Int) :
    ParkedInvariant G H B (onNotificationTimeout m now) := by
  unfold onNotificationTimeout
  split
  · exact h
  · exact pk_removeEach now _ h

theorem pk_addAll (rs : List Notification) :
    ∀ {m : Manager}, ParkedInvariant G H B m → (∀ r ∈ rs, G r) →
      ParkedInvariant G H B (rs.foldl addNotification m) := by
  induction rs with
  | nil => intro m h _; exact h
  | cons r rest ih =>
    intro m h hrs
    exact ih (pk_addNotification h r (hrs r (List.mem_cons_self r rest)))
      (fun x hx => hrs x (List.mem_cons_of_mem r hx))

theorem pk_mockStartup (hA : Admissible G H B) {m : Manager} (h : ParkedInvariant G H B m)
    (now : Int) : ParkedInvariant G H B (mockStartup m now) := by
  unfold mockStartup generateMockNotifications
  refine pk_addAll _ ?_ (hA.mock now)
  exact pk_same h rfl rfl rfl

theorem pk_connectToDevice {m : Manager} (h : ParkedInvariant G H B m)
    (deviceAddress platform : String) :
    ParkedInvariant G H B ((connectToDevice m deviceAddress platform).getD m) := by
  have h1 : ParkedInvariant G H B
      (emit { m with m_deviceAddress := deviceAddress, m_platform := toLower platform }
        Signal.platformChanged) :=
    pk_same h rfl rfl rfl
  have key : ∀ m1 : Manager, ParkedInvariant G H B m1 →
      ParkedInvariant G H B
        ((if m1.mockMode then
            some (emit { m1 with m_isConnected := true } Signal.connectionChanged)
          else if m1.m_platform == "ios" then none
          else if m1.m_platform == "android" then
            some (emit m1 (Signal.error "Android notifications require companion app"))
          else some m1).getD m) := by
    intro m1 hm1
    split
    · exact pk_same hm1 rfl rfl rfl
    · split
      · exact h
      · split
        · exact pk_emit hm1 _
        · exact hm1
  exact key _ h1

theorem pk_onServiceStateChanged {m : Manager} (h : ParkedInvariant G H B m)
    (discovered controlPoint source descriptor : Bool) :
    ParkedInvariant G H B
      (onServiceStateChanged m discovered controlPoint source descriptor) := by
  unfold onServiceStateChanged
  split
  · dsimp only
    split
    · exact pk_same h rfl rfl rfl
    · exact pk_same h rfl rfl rfl
  · exact h

theorem pk_onCharacteristicChanged (hA : Admissible G H B) {m : Manager}
    (h : ParkedInvariant G H B m) (isNotificationSource : Bool) (value : List Byte)
    (now : Int) :
    ParkedInvariant G H B (onCharacteristicChanged m isNotificationSource value now) := by
  unfold onCharacteristicChanged
  split
  · cases hp : parseAncsNotification value now with
    | none => exact h
    | some n => exact pk_addNotification h n (hA.decoded value now n hp)
  · exact h

theorem pk_step (hA : Admissible G H B) {m : Manager} (h : ParkedInvariant G H B m)
    (op : Op) : ParkedInvariant G H B (step m op) := by
  cases op with
  | connectToDevice a p => exact pk_connectToDevice h a p
  | disconnect => exact pk_same h rfl rfl rfl
  | dismissNotification now id => exact pk_dismissNotification h now id
  | dismissAll now => exact pk_dismissAll_loop now _ h
  | markAsRead id => exact pk_markAsRead hA h id
  | openNotification now id => exact pk_openNotification h now id
  | replyToNotification now id msg => exact pk_replyToNotification hA h now id msg
  | snoozeNotification now id minutes => exact pk_snoozeNotification hA h now id minutes
  | performAction id a => exact h
  | sendQuickReply now id i => exact pk_sendQuickReply hA h now id i
  | setDoNotDisturb now e => exact pk_setDoNotDisturb h now e
  | setAllowedApps apps => exact pk_same h rfl rfl rfl
  | setBlockedApps apps => exact pk_same h rfl rfl rfl
  | allowApp a => exact pk_allowApp h a
  | blockApp now a => exact pk_blockApp h now a
  | setShowPreviews e => exact pk_setShowPreviews h e
  | setAutoDismissAfter s => exact pk_same h rfl rfl rfl
  | setQuickReplies r => exact pk_same h rfl rfl rfl
  | clearHistory => exact pk_same h rfl rfl rfl
  | notificationTimeout now =>
    show ParkedInvariant G H B
      (if m.dismissTimerActive then onNotificationTimeout m now else m)
    split
    · exact pk_onNotificationTimeout h now
    · exact h
  | snoozeTimeout hd => exact pk_onSnoozeTimeout hA h hd
  | mockStartup now =>
    show ParkedInvariant G H B (if m.mockMode then mockStartup m now else m)
    split
    · exact pk_mockStartup hA h now
    · exact h
  | serviceStateChanged d c s e =>
    show ParkedInvariant G H B
      (if m.mockMode then m else onServiceStateChanged m d c s e)
    split
    · exact h
    · exact pk_onServiceStateChanged h d c s e
  | characteristicChanged b v now =>
    show ParkedInvariant G H B
      (if m.mockMode then m else onCharacteristicChanged m b v now)
    split
    · exact h
    · exact pk_onCharacteristicChanged hA h b v now

theorem pk_run (hA : Admissible G H B) (ops : List Op) :
    ∀ {m : Manager}, ParkedInvariant G H B m → ParkedInvariant G H B (run m ops) := by
  induction ops with
  | nil => intro m h; exact h
  | cons op rest ih =>
    intro m h
    exact ih (pk_step hA h op)

end ParkedSteps

/-! ## The resurfaced record -/

theorem clean_admissible :
    Admissible (fun r => r.dismissedAt = none) (fun _ => True) 0 where
  read := fun _ h => h
  snoozed := fun _ h => h
  decoded := by
    intro data now n hp
    by_cases hlen : data.length < 8
    · rw [parseAncsNotification_of_lt data now hlen] at hp
      exact Option.noConfusion hp
    · rw [parseAncsNotification_of_le data now (by omega)] at hp
      rw [← Option.some.inj hp]
  echo := fun _ _ _ => rfl
  mock := by
    intro now r hr
    simp only [mockNotifs, List.mem_cons, List.mem_singleton, List.not_mem_nil, or_false] at hr
    rcases hr with rfl | rfl | rfl <;> rfl
  fresh := fun _ _ _ _ _ _ => trivial

/-- In every reachable state no active and no parked record carries
dismissedAt, and every pending timer has a handle below the next one. -/
theorem clean_of_reachable {m : Manager} (h : Reachable m) :
    ParkedInvariant (fun r => r.dismissedAt = none) (fun _ => True) 0 m := by
  obtain ⟨st, mock, ops, rfl⟩ := h
  refine pk_run clean_admissible ops ?_
  exact ⟨fun r hr => absurd hr (List.not_mem_nil r), fun t ht => absurd ht (List.not_mem_nil t),
    Nat.zero_le _⟩

theorem holder_admissible (h0 : Nat) (x : Notification) :
    Admissible (fun _ => True) (fun t => t.handle = h0 → t.notification = x) (h0 + 1) where
  read := fun _ _ => trivial
  snoozed := fun _ _ => trivial
  decoded := fun _ _ _ _ => trivial
  echo := fun _ _ _ => trivial
  mock := fun _ _ _ => trivial
  fresh := by
    intro h r i s hle _ heq
    have heq2 : h = h0 := heq
    omega

/-- C14: a record x of a reachable state is snoozed; after any further events,
if its timer is still pending and fires while the policy admits the record,
the record put at the head of the active list is x with the key `snoozed`
set and nothing else changed (same id, title, message, app id and name,
category, priority, timestamp and read flag, no dismissedAt); the records
that were active before the firing follow unchanged, the registry has no
entry for the id any more, and notificationReceived is emitted for it. -/
theorem resurfaced_is_original (m0 : Manager) (hreach : Reachable m0) (now : Int)
    (notificationId : String) (minutes : Int)
    (pre : List Notification) (x : Notification) (post : List Notification)
    (hl : m0.m_notifications = pre ++ x :: post)
    (hpre : ∀ y ∈ pre, y.id ≠ notificationId) (hx : x.id = notificationId)
    (ops : List Op) (t : SnoozeTimer)
    (hfind : (run (snoozeNotification m0 now notificationId minutes) ops).timers.find?
      (fun t => t.handle == m0.nextHandle) = some t)
    (hpol : passesPolicy (run (snoozeNotification m0 now notificationId minutes) ops)
      (resurfaced x) = true) :
    t.notification = x ∧
    (onSnoozeTimeout (run (snoozeNotification m0 now notificationId minutes) ops)
        m0.nextHandle).m_notifications
      = { x with snoozed := true }
          :: (run (snoozeNotification m0 now notificationId minutes) ops).m_notifications ∧
    x.dismissedAt = none ∧
    (∀ e ∈ (onSnoozeTimeout (run (snoozeNotification m0 now notificationId minutes) ops)
        m0.nextHandle).m_snoozeTimers, e.1 ≠ notificationId) ∧
    (onSnoozeTimeout (run (snoozeNotification m0 now notificationId minutes) ops)
        m0.nextHandle).emitted
      = (run (snoozeNotification m0 now notificationId minutes) ops).emitted
          ++ admissionSignals { x with snoozed := true } := by
  have hclean := clean_of_reachable hreach
  have hxclean : x.dismissedAt = none := hclean.active_ok x (by rw [hl]; simp)
  -- the timer created by the snooze is the only one with its handle
  have hbase : ParkedInvariant (fun _ => True)
      (fun t => t.handle = m0.nextHandle → t.notification = x) (m0.nextHandle + 1)
      (snoozeNotification m0 now notificationId minutes) := by
    rw [snoozeNotification_found m0 now notificationId minutes pre x post hl hpre hx]
    refine ⟨fun _ _ => trivial, ?_, Nat.le_refl _⟩
    intro t1 ht1
    rcases List.mem_append.mp ht1 with ht1 | ht1
    · have hlt := (hclean.timers_ok t1 ht1).2.2
      refine ⟨trivial, ?_, Nat.lt_succ_of_lt hlt⟩
      intro heq
      omega
    · rw [List.mem_singleton.mp ht1]
      exact ⟨trivial, fun _ => rfl, Nat.lt_succ_self _⟩
  have hlater := pk_run (holder_admissible m0.nextHandle x) ops hbase
  have hmem : t ∈ (run (snoozeNotification m0 now notificationId minutes) ops).timers :=
    List.mem_of_find?_eq_some hfind
  have hhandle : t.handle = m0.nextHandle := by
    have := List.find?_some hfind
    simpa using this
  have ht : t.notification = x := (hlater.timers_ok t hmem).2.1 hhandle
  have hfired := onSnoozeTimeout_fired _ _ t hfind
  rw [ht] at hfired
  rw [hfired, addNotification_accepted _ _ hpol]
  refine ⟨ht, rfl, hxclean, ?_, rfl⟩
  intro e he
  have he2 : e ∈ (run (snoozeNotification m0 now notificationId minutes) ops).m_snoozeTimers.filter
      (fun e => e.1 != x.id) := he
  rw [hx] at he2
  exact bne_iff_ne.mp (List.mem_filter.mp he2).2

/-- C14 at the scenario: the record arrives, is snoozed for one minute, an
unrelated event happens, and the timer fires. -/
theorem resurfaced_is_original_witness :
    (onSnoozeTimeout (run (snoozeNotification oneArrived 5 "ancs_42" 1) [Op.markAsRead "x"])
        oneArrived.nextHandle).m_notifications
      = { scenarioRecord with snoozed := true }
          :: (run (snoozeNotification oneArrived 5 "ancs_42" 1)
                [Op.markAsRead "x"]).m_notifications ∧
    scenarioRecord.dismissedAt = none :=
  ⟨(resurfaced_is_original oneArrived ⟨_, _, _, rfl⟩ 5 "ancs_42" 1 [] scenarioRecord []
      (by decide) (fun y hy => absurd hy (List.not_mem_nil y)) rfl [Op.markAsRead "x"]
      ⟨0, scenarioRecord, snoozeInterval 1, 5⟩ (by decide) (by decide)).2.1,
   rfl⟩

/-! ## The auto-dismiss sweep -/

/-- C17 does not hold of the code: in the reachable state with threshold 30
whose active list holds two records with id "ancs_42", received at 25 (head)
and at 0, the tick at time 30 finds the older record expired, collects its id
and removes the first record with that id: the record of age 5 is moved to the
history and the record of age 30 stays active. -/
theorem sweep_removes_younger_record :
    Reachable sameUidTwoTimes ∧
    sameUidTwoTimes.m_autoDismissAfter = 30 ∧
    sameUidTwoTimes.dismissTimerActive = true ∧
    sameUidTwoTimes.m_notifications.map (fun n : Notification => (n.id, n.timestamp))
      = [("ancs_42", 25), ("ancs_42", 0)] ∧
    (step sameUidTwoTimes (Op.notificationTimeout 30)).m_notifications.map
        (fun n : Notification => (n.id, n.timestamp)) = [("ancs_42", 0)] ∧
    (step sameUidTwoTimes (Op.notificationTimeout 30)).m_history.map
        (fun n : Notification => (n.id, n.timestamp)) = [("ancs_42", 25)] := by
  refine ⟨⟨_, _, _, rfl⟩, by decide, by decide, by decide, by decide, by decide⟩

/-- The sweep where it works: with a positive threshold, in a state in which
active records that share an id agree on being expired (in particular when
the active ids are pairwise distinct), one tick removes exactly the expired
records, moves them in list order into the history through the capped
insertion and emits the three change signals once per removed record; with a
threshold of zero or less the tick changes nothing. -/
theorem onNotificationTimeout_sweeps (m : Manager) (now : Int) :
    (0 < m.m_autoDismissAfter →
      (∀ x ∈ m.m_notifications, ∀ y ∈ m.m_notifications, x.id = y.id →
        expired m now x = expired m now y) →
      onNotificationTimeout m now =
        { m with
          m_notifications := m.m_notifications.filter (fun n => !expired m now n)
          m_history := (m.m_notifications.filter (expired m now)).foldl
            (pushHistory now) m.m_history
          emitted := m.emitted
            ++ repeatedRemovalSignals (m.m_notifications.filter (expired m now)).length }) ∧
    (m.m_autoDismissAfter ≤ 0 → onNotificationTimeout m now = m) := by
  constructor
  · intro hpos hagree
    have hmain := removeEach_filter (expired m now) now m.m_notifications [] m rfl
      (fun y hy => absurd hy (List.not_mem_nil y))
      (by simpa using hagree)
    unfold onNotificationTimeout
    rw [if_neg (by omega)]
    exact hmain
  · intro hle
    unfold onNotificationTimeout
    rw [if_pos hle]

/-- The sweep at the mock records (created at time 100) with threshold 30 at
time 110: the mail of age 310 and the event of age 70 are removed, the
message of age 10 stays. -/
theorem onNotificationTimeout_sweeps_witness :
    (onNotificationTimeout mockStarted 110).m_notifications
        = mockStarted.m_notifications.filter (fun n => !expired mockStarted 110 n) ∧
    (onNotificationTimeout mockStarted 110).m_notifications.map (·.id) = ["notif_1"] :=
  ⟨congrArg Manager.m_notifications
    ((onNotificationTimeout_sweeps mockStarted 110).1 (by decide) (by decide)),
   by decide⟩

/-! ## Outbound commands -/

theorem toUInt_lt (s : String) (u : Nat) (h : toUInt s = some u) : u < 4294967296 := by
  unfold toUInt at h
  dsimp only at h
  split at h
  · exact Option.noConfusion h
  · split at h
    · rw [← Option.some.inj h]
      assumption
    · exact Option.noConfusion h

theorem littleEndian_uidBytes (u : Nat) (hu : u < 4294967296) :
    littleEndian (uidBytes u) = u := by
  show u % 256 + u / 256 % 256 * 256 + u / 65536 % 256 * 65536
    + u / 16777216 % 256 * 16777216 = u
  omega

theorem sendAncsCommand_sent (m : Manager) (command : Byte) (notificationId : String)
    (u : Nat) (hcp : m.controlPointValid = true) (hu : toUInt (mid5 notificationId) = some u) :
    sendAncsCommand m command notificationId
      = { m with written := m.written ++ [command :: uidBytes u] } := by
  unfold sendAncsCommand
  simp [hcp, hu]

theorem sendAncsCommand_skipped (m : Manager) (command : Byte) (notificationId : String)
    (hu : toUInt (mid5 notificationId) = none) :
    sendAncsCommand m command notificationId = m := by
  unfold sendAncsCommand
  split
  · rfl
  · rw [hu]

theorem removeNotification_written (m : Manager) (now : Int) (notificationId : String) :
    (removeNotification m now notificationId).written = m.written := by
  obtain ⟨n, h, e, heq⟩ := removeNotification_frame m now notificationId
  rw [heq]

/-- C18: on a real-mode object whose platform is "ios" and whose control point
is valid, for an id whose text after the first five characters parses to the
UID u, `dismissNotification` and `openNotification` each write exactly one
packet; the packet is 5 bytes long, its first byte is 2 for dismiss and 0 for
open, and its other four bytes are u (below 2^32) in the byte order of the
target (least significant byte first). -/
theorem outbound_command_format (m : Manager) (now : Int) (notificationId : String) (u : Nat)
    (hreal : m.mockMode = false) (hios : m.m_platform = "ios")
    (hcp : m.controlPointValid = true) (hu : toUInt (mid5 notificationId) = some u) :
    (dismissNotification m now notificationId).written = m.written ++ [2 :: uidBytes u] ∧
    (openNotification m now notificationId).written = m.written ++ [0 :: uidBytes u] ∧
    ((2 : Byte) :: uidBytes u).length = 5 ∧ ((0 : Byte) :: uidBytes u).length = 5 ∧
    u < 2 ^ 32 ∧ littleEndian (uidBytes u) = u := by
  have hlt := toUInt_lt _ u hu
  have hsend2 := sendAncsCommand_sent m 2 notificationId u hcp hu
  have hsend0 := sendAncsCommand_sent m 0 notificationId u hcp hu
  refine ⟨?_, ?_, rfl, rfl, hlt, littleEndian_uidBytes u hlt⟩
  · unfold dismissNotification
    simp only [hreal, hios, beq_self_eq_true, if_true, Bool.false_eq_true, if_false]
    show (removeNotification (sendAncsCommand m 2 notificationId) now notificationId).written = _
    rw [removeNotification_written, hsend2]
  · unfold openNotification
    simp only [hreal, hios, beq_self_eq_true, Bool.not_false, Bool.and_self, if_true]
    rw [removeNotification_written, hsend0]

/-- C18 at the state `linkUp` with the scenario record: dismissing
"ancs_42" writes the packet 02 2A 00 00 00, opening it writes 00 2A 00 00 00. -/
theorem outbound_command_format_witness :
    (dismissNotification linkUp 9 "ancs_42").written = linkUp.written ++ [2 :: uidBytes 42] ∧
    (openNotification linkUp 9 "ancs_42").written = linkUp.written ++ [0 :: uidBytes 42] ∧
    (2 :: uidBytes 42 : List Byte) = [2, 42, 0, 0, 0] :=
  ⟨(outbound_command_format linkUp 9 "ancs_42" 42 (by decide) (by decide) (by decide)
      (by decide)).1,
   (outbound_command_format linkUp 9 "ancs_42" 42 (by decide) (by decide) (by decide)
      (by decide)).2.1,
   by decide⟩

theorem dropWhile_append_singleton (p : Char → Bool) (c : Char) (hc : p c = false) :
    ∀ A : List Char, (A ++ [c]).dropWhile p = A.dropWhile p ++ [c] := by
  intro A
  induction A with
  | nil => simp [List.dropWhile, hc]
  | cons a A ih =>
    cases ha : p a
    · simp [List.dropWhile, ha]
    · simp only [List.cons_append, List.dropWhile, ha]
      exact ih

theorem toUInt_underscore (rest : List Char) : toUInt (String.mk ('_' :: rest)) = none := by
  have hws : Char.isWhitespace '_' = false := by decide
  have h1 : ('_' :: rest).dropWhile Char.isWhitespace = '_' :: rest := by
    simp [List.dropWhile, hws]
  have h2 : ((('_' :: rest).reverse).dropWhile Char.isWhitespace).reverse
      = '_' :: (rest.reverse.dropWhile Char.isWhitespace).reverse := by
    rw [List.reverse_cons, dropWhile_append_singleton _ '_' hws]
    simp
  unfold toUInt
  simp only [h1, h2]
  have hd : Char.isDigit '_' = false := by decide
  simp [hd]

theorem mid5_reply (s : String) : mid5 ("reply_" ++ s) = String.mk ('_' :: s.data) := by
  simp only [mid5, String.data_append]
  rfl

/-- An id of the form "reply_" followed by any text does not map to a UID. -/
theorem toUInt_mid5_reply (s : String) : toUInt (mid5 ("reply_" ++ s)) = none := by
  rw [mid5_reply]
  exact toUInt_underscore s.data

/-- C19: for an id whose text after the first five characters does not parse
as an unsigned 32-bit decimal number (every id "reply_" + text is one),
`dismissNotification` and `openNotification` write nothing to the device and
perform the local removal all the same: dismiss is `removeNotification`
followed by the notificationDismissed signal, open is `removeNotification`,
so the first active record with the id leaves the active list and its copy
with dismissedAt set is put at the head of the history. -/
theorem unparsable_id_still_removed (m : Manager) (now : Int) (notificationId : String)
    (hu : toUInt (mid5 notificationId) = none) :
    (dismissNotification m now notificationId).written = m.written ∧
    (openNotification m now notificationId).written = m.written ∧
    dismissNotification m now notificationId
      = emit (removeNotification m now notificationId)
          (Signal.notificationDismissed notificationId) ∧
    openNotification m now notificationId = removeNotification m now notificationId ∧
    (∀ (pre : List Notification) (x : Notification) (post : List Notification),
      m.m_notifications = pre ++ x :: post → (∀ y ∈ pre, y.id ≠ notificationId) →
      x.id = notificationId →
      ((dismissNotification m now notificationId).m_notifications = pre ++ post ∧
        (dismissNotification m now notificationId).m_history
          = ({ x with dismissedAt := some now } :: m.m_history).take 100) ∧
      ((openNotification m now notificationId).m_notifications = pre ++ post ∧
        (openNotification m now notificationId).m_history
          = ({ x with dismissedAt := some now } :: m.m_history).take 100)) ∧
    (∀ s : String, toUInt (mid5 ("reply_" ++ s)) = none) := by
  have hd : dismissNotification m now notificationId
      = emit (removeNotification m now notificationId)
          (Signal.notificationDismissed notificationId) := by
    unfold dismissNotification
    rw [sendAncsCommand_skipped m 2 notificationId hu]
    simp
  have ho : openNotification m now notificationId = removeNotification m now notificationId := by
    unfold openNotification
    rw [sendAncsCommand_skipped m 0 notificationId hu]
    simp
  refine ⟨?_, ?_, hd, ho, ?_, toUInt_mid5_reply⟩
  · rw [hd]
    exact removeNotification_written m now notificationId
  · rw [ho]
    exact removeNotification_written m now notificationId
  · intro pre x post hl hpre hx
    rw [hd, ho, removeNotification_found m now notificationId pre x post hl hpre hx]
    exact ⟨⟨rfl, rfl⟩, ⟨rfl, rfl⟩⟩

/-- C19 at the state `linkUp`: a reply echo "reply_ancs_42" is stored by
hand next to the scenario record; dismissing it writes nothing and removes
it. -/
theorem unparsable_id_still_removed_witness :
    (dismissNotification
        { linkUp with m_notifications := replyEcho 3 "ancs_42" "OK" :: linkUp.m_notifications }
        9 "reply_ancs_42").written = linkUp.written ∧
    (dismissNotification
        { linkUp with m_notifications := replyEcho 3 "ancs_42" "OK" :: linkUp.m_notifications }
        9 "reply_ancs_42").m_notifications = linkUp.m_notifications :=
  ⟨(unparsable_id_still_removed
      { linkUp with m_notifications := replyEcho 3 "ancs_42" "OK" :: linkUp.m_notifications }
      9 "reply_ancs_42" (by decide)).1,
   ((unparsable_id_still_removed
      { linkUp with m_notifications := replyEcho 3 "ancs_42" "OK" :: linkUp.m_notifications }
      9 "reply_ancs_42" (by decide)).2.2.2.2.1 [] (replyEcho 3 "ancs_42" "OK")
        linkUp.m_notifications rfl (fun y hy => absurd hy (List.not_mem_nil y))
        (by decide)).1.1⟩

/-! ## Quick replies -/

/-- C20: with an index below 0 or at least the length of the quick-reply list,
`sendQuickReply` returns the object unchanged (no mutation, nothing sent, no
signal); with an index inside the list it is `replyToNotification` with the
reply at that position. -/
theorem sendQuickReply_effect (m : Manager) (now : Int) (notificationId : String)
    (replyIndex : Int) :
    (replyIndex < 0 ∨ replyIndex ≥ (m.m_quickReplies.length : Int) →
      sendQuickReply m now notificationId replyIndex = m) ∧
    (0 ≤ replyIndex ∧ replyIndex < (m.m_quickReplies.length : Int) →
      ∃ reply, m.m_quickReplies.get? replyIndex.toNat = some reply ∧
        sendQuickReply m now notificationId replyIndex
          = replyToNotification m now notificationId reply) := by
  constructor
  · intro h
    unfold sendQuickReply
    rw [if_pos h]
  · intro h
    have hlt : replyIndex.toNat < m.m_quickReplies.length := by omega
    refine ⟨m.m_quickReplies.get ⟨replyIndex.toNat, hlt⟩, List.get?_eq_get hlt, ?_⟩
    unfold sendQuickReply
    rw [if_neg (by omega), List.get?_eq_get hlt]

/-- C20 at the started mock object with the seven default replies: index 7
and index -1 are rejected, index 1 replies "Thanks". -/
theorem sendQuickReply_effect_witness :
    sendQuickReply mockStarted 150 "notif_1" 7 = mockStarted ∧
    sendQuickReply mockStarted 150 "notif_1" (-1) = mockStarted ∧
    (∃ reply, mockStarted.m_quickReplies.get? (1 : Int).toNat = some reply ∧
      sendQuickReply mockStarted 150 "notif_1" 1
        = replyToNotification mockStarted 150 "notif_1" reply) :=
  ⟨(sendQuickReply_effect mockStarted 150 "notif_1" 7).1 (by decide),
   (sendQuickReply_effect mockStarted 150 "notif_1" (-1)).1 (by decide),
   (sendQuickReply_effect mockStarted 150 "notif_1" 1).2 (by decide)⟩

/-! ## Replies -/

theorem replyToNotification_mock (m : Manager) (now : Int) (notificationId message : String)
    (hmock : m.mockMode = true) :
    replyToNotification m now notificationId message =
      emit (dismissNotification (addNotification m (replyEcho now notificationId message))
        now notificationId) (Signal.replySent notificationId message) := by
  unfold replyToNotification
  rw [if_pos hmock]
  rfl

theorem replyToNotification_real (m : Manager) (now : Int) (notificationId message : String)
    (hreal : m.mockMode = false) :
    replyToNotification m now notificationId message =
      emit m (Signal.replySent notificationId message) := by
  unfold replyToNotification
  rw [if_neg (by rw [hreal]; exact Bool.false_ne_true)]

/-- C21 as stated fails: in mock mode with do-not-disturb on, or with the
Messages app blocked, the echo is not stored (the active list stays empty);
in real mode no echo is built and the record with the id is not dismissed. -/
theorem reply_echo_is_filtered :
    (dndMock.mockMode = true ∧ dndMock.m_doNotDisturb = true ∧
      (replyToNotification dndMock 5 "notif_1" "OK").m_notifications = []) ∧
    (messagesBlockedMock.mockMode = true ∧
      (replyToNotification messagesBlockedMock 5 "notif_1" "OK").m_notifications = []) ∧
    (oneArrived.mockMode = false ∧
      (replyToNotification oneArrived 5 "ancs_42" "OK").m_notifications
        = oneArrived.m_notifications ∧
      (replyToNotification oneArrived 5 "ancs_42" "OK").m_history = oneArrived.m_history) := by
  refine ⟨⟨rfl, rfl, by decide⟩, ⟨rfl, by decide⟩, ⟨by decide, by decide, by decide⟩⟩

/-- C21, amended: in mock mode `replyToNotification(id, text)` hands the echo
record (id "reply_" + id, category Other, priority Silent, read = true, the
given text) to `addNotification`, so the echo is put at the head of the active
list exactly when the Messages app is not blocked, the allow-list is empty or
holds it, and do-not-disturb is off; otherwise it is dropped.  Then
`dismissNotification(id)` runs and replySent(id, text) is emitted.  In real
mode the call only emits replySent(id, text). -/
theorem replyToNotification_effect (m : Manager) (now : Int) (notificationId text : String) :
    (m.mockMode = true →
      replyToNotification m now notificationId text =
        emit (dismissNotification (addNotification m (replyEcho now notificationId text))
          now notificationId) (Signal.replySent notificationId text)) ∧
    (m.mockMode = false →
      replyToNotification m now notificationId text =
        emit m (Signal.replySent notificationId text)) ∧
    ((replyEcho now notificationId text).id = "reply_" ++ notificationId ∧
      (replyEcho now notificationId text).category = Other ∧
      (replyEcho now notificationId text).priority = Silent ∧
      (replyEcho now notificationId text).read = true ∧
      (replyEcho now notificationId text).message = text) ∧
    (passesPolicy m (replyEcho now notificationId text) = true ↔
      "com.apple.MobileSMS" ∉ m.m_blockedApps ∧
      (m.m_allowedApps = [] ∨ "com.apple.MobileSMS" ∈ m.m_allowedApps) ∧
      m.m_doNotDisturb = false) ∧
    (passesPolicy m (replyEcho now notificationId text) = true →
      (addNotification m (replyEcho now notificationId text)).m_notifications
        = replyEcho now notificationId text :: m.m_notifications) ∧
    (passesPolicy m (replyEcho now notificationId text) = false →
      addNotification m (replyEcho now notificationId text) = m) ∧
    (replyToNotification m now notificationId text).emitted.getLast?
      = some (Signal.replySent notificationId text) := by
  refine ⟨replyToNotification_mock m now notificationId text,
    replyToNotification_real m now notificationId text, ⟨rfl, rfl, rfl, rfl, rfl⟩, ?_, ?_,
    addNotification_rejected m _, ?_⟩
  · rw [passesPolicy_iff]
    have hsilent : (replyEcho now notificationId text).priority ≠ Urgent := by
      show Silent ≠ Urgent
      decide
    constructor
    · intro h
      exact ⟨h.1, h.2.1, h.2.2.resolve_right hsilent⟩
    · intro h
      exact ⟨h.1, h.2.1, Or.inl h.2.2⟩
  · intro hp
    rw [addNotification_accepted m _ hp]
  · cases hmode : m.mockMode
    · rw [replyToNotification_real m now notificationId text hmode]
      simp [emit]
    · rw [replyToNotification_mock m now notificationId text hmode]
      simp [emit]

/-- C21, amended, at the started mock object: replying to "notif_1" stores the
echo at the head and moves "notif_1" to the history. -/
theorem replyToNotification_effect_witness :
    replyToNotification mockStarted 150 "notif_1" "OK" =
      emit (dismissNotification (addNotification mockStarted (replyEcho 150 "notif_1" "OK"))
        150 "notif_1") (Signal.replySent "notif_1" "OK") ∧
    (addNotification mockStarted (replyEcho 150 "notif_1" "OK")).m_notifications
      = replyEcho 150 "notif_1" "OK" :: mockStarted.m_notifications ∧
    (replyToNotification mockStarted 150 "notif_1" "OK").m_notifications.map (·.id)
      = ["reply_notif_1", "notif_3", "notif_2"] :=
  ⟨(replyToNotification_effect mockStarted 150 "notif_1" "OK").1 (by decide),
   (replyToNotification_effect mockStarted 150 "notif_1" "OK").2.2.2.2.1 (by decide),
   by decide⟩

/-! ## Marking as read -/

theorem markFirstRead_none (notificationId : String) (l : List Notification)
    (h : ∀ y ∈ l, y.id ≠ notificationId) : markFirstRead notificationId l = none := by
  induction l with
  | nil => rfl
  | cons n rest ih =>
    have hn : (n.id == notificationId) = false := by
      simpa using h n (List.mem_cons_self n rest)
    simp [markFirstRead, hn, ih (fun y hy => h y (List.mem_cons_of_mem n hy))]

theorem markFirstRead_append (notificationId : String) (pre : List Notification)
    (x : Notification) (post : List Notification)
    (hpre : ∀ y ∈ pre, y.id ≠ notificationId) (hx : x.id = notificationId) :
    markFirstRead notificationId (pre ++ x :: post)
      = some (pre ++ { x with read := true } :: post) := by
  induction pre with
  | nil => simp [markFirstRead, hx]
  | cons n rest ih =>
    have hn : (n.id == notificationId) = false := by
      simpa using hpre n (List.mem_cons_self n rest)
    have hrest := ih (fun y hy => hpre y (List.mem_cons_of_mem n hy))
    simp [markFirstRead, hn, hrest]

theorem markAsRead_absent (m : Manager) (notificationId : String)
    (h : ∀ y ∈ m.m_notifications, y.id ≠ notificationId) : markAsRead m notificationId = m := by
  unfold markAsRead
  rw [markFirstRead_none notificationId _ h]

theorem markAsRead_found (m : Manager) (notificationId : String)
    (pre : List Notification) (x : Notification) (post : List Notification)
    (hl : m.m_notifications = pre ++ x :: post)
    (hpre : ∀ y ∈ pre, y.id ≠ notificationId) (hx : x.id = notificationId) :
    markAsRead m notificationId =
      { m with
        m_notifications := pre ++ { x with read := true } :: post
        emitted := m.emitted ++ readSignals notificationId } := by
  unfold markAsRead
  rw [hl, markFirstRead_append notificationId pre x post hpre hx]
  simp [emit, readSignals]

/-- C22: when some active record has the id, `markAsRead` sets read = true on
the first such record and leaves its other fields, every other record, the
order of the active list, the history and every other member but the signal
trace as they were; in particular, when that record is already read the
active list is unchanged.  When no active record has the id, the call returns
the object unchanged. -/
theorem markAsRead_effect (m : Manager) (notificationId : String) :
    ((∃ y ∈ m.m_notifications, y.id = notificationId) →
      ∃ pre x post, m.m_notifications = pre ++ x :: post ∧
        (∀ y ∈ pre, y.id ≠ notificationId) ∧ x.id = notificationId ∧
        markAsRead m notificationId =
          { m with
            m_notifications := pre ++ { x with read := true } :: post
            emitted := m.emitted ++
              [Signal.notificationsChanged, Signal.notificationUpdated notificationId,
                Signal.hasUnreadChanged] } ∧
        (markAsRead m notificationId).m_history = m.m_history ∧
        (x.read = true → (markAsRead m notificationId).m_notifications = m.m_notifications)) ∧
    ((∀ y ∈ m.m_notifications, y.id ≠ notificationId) → markAsRead m notificationId = m) := by
  refine ⟨fun h => ?_, markAsRead_absent m notificationId⟩
  obtain ⟨pre, x, post, hl, hpre, hx⟩ := exists_first_with_id notificationId _ h
  refine ⟨pre, x, post, hl, hpre, hx, ?_⟩
  rw [markAsRead_found m notificationId pre x post hl hpre hx]
  refine ⟨rfl, rfl, ?_⟩
  intro hread
  have hsame : ({ x with read := true } : Notification) = x := by
    cases x
    simp_all
  show pre ++ { x with read := true } :: post = m.m_notifications
  rw [hsame, hl]

/-- C22 at the started mock object: marking "notif_2" as read. -/
theorem markAsRead_effect_witness :
    ∃ pre x post, mockStarted.m_notifications = pre ++ x :: post ∧
      (∀ y ∈ pre, y.id ≠ "notif_2") ∧ x.id = "notif_2" ∧
      markAsRead mockStarted "notif_2" =
        { mockStarted with
          m_notifications := pre ++ { x with read := true } :: post
          emitted := mockStarted.emitted ++
            [Signal.notificationsChanged, Signal.notificationUpdated "notif_2",
              Signal.hasUnreadChanged] } ∧
      (markAsRead mockStarted "notif_2").m_history = mockStarted.m_history ∧
      (x.read = true →
        (markAsRead mockStarted "notif_2").m_notifications = mockStarted.m_notifications) :=
  (markAsRead_effect mockStarted "notif_2").1 (by decide)

/-! ## Priority decoded from the event flags -/

/-- C24 as stated fails: the frame 00 02 05 01 00 00 00 2A, whose byte 1 has
bit 0x02 set, decodes to priority Urgent (3), not Silent (-1). -/
theorem flag_bit_decodes_urgent :
    (importantFrame.getD 1 0).val &&& 2 ≠ 0 ∧
    (parseAncsNotification importantFrame 0).map (·.priority) = some Urgent ∧
    (parseAncsNotification importantFrame 0).map (·.priority) ≠ some Silent := by
  refine ⟨by decide, by decide, by decide⟩

/-- C24, amended: bit 0x02 of byte 1 separates Urgent from Normal.  A frame of
at least 8 bytes decodes to priority Urgent when the bit is set and to Normal
when it is clear; no frame decodes to Silent. -/
theorem priority_from_flags (data : List Byte) (now : Int) (h : 8 ≤ data.length) :
    ∃ n, parseAncsNotification data now = some n ∧
      ((data.getD 1 0).val &&& 2 ≠ 0 → n.priority = Urgent) ∧
      ((data.getD 1 0).val &&& 2 = 0 → n.priority = Normal) ∧
      n.priority ≠ Silent := by
  refine ⟨_, parseAncsNotification_of_le data now h, ?_, ?_, ?_⟩
  · intro hb
    exact if_pos hb
  · intro hb
    exact if_neg (fun hc => hc hb)
  · show (if byteAt data 1 &&& 2 ≠ 0 then Urgent else Normal) ≠ Silent
    split <;> decide

/-- C24, amended, at the scenario frame and at the frame with the bit set. -/
theorem priority_from_flags_witness :
    (∃ n, parseAncsNotification importantFrame 0 = some n ∧
      ((importantFrame.getD 1 0).val &&& 2 ≠ 0 → n.priority = Urgent) ∧
      ((importantFrame.getD 1 0).val &&& 2 = 0 → n.priority = Normal) ∧
      n.priority ≠ Silent) ∧
    (∃ n, parseAncsNotification scenarioFrame 0 = some n ∧
      ((scenarioFrame.getD 1 0).val &&& 2 ≠ 0 → n.priority = Urgent) ∧
      ((scenarioFrame.getD 1 0).val &&& 2 = 0 → n.priority = Normal) ∧
      n.priority ≠ Silent) :=
  ⟨priority_from_flags importantFrame 0 (by decide),
   priority_from_flags scenarioFrame 0 (by decide)⟩

/-! ## The snooze interval -/

theorem toInt32_range (x : Int) : -2147483648 ≤ toInt32 x ∧ toInt32 x ≤ 2147483647 := by
  unfold toInt32
  omega

/-- C25 as stated fails: 35792 minutes is a non-negative 32-bit value, but
35792 * 60 * 1000 = 2147520000 exceeds 2147483647; in 32-bit arithmetic the
product wraps to -2147447296. -/
theorem snooze_interval_overflows :
    (0 : Int) ≤ 35792 ∧ (35792 : Int) ≤ 2147483647 ∧
    snoozeInterval 35792 = -2147447296 ∧
    snoozeInterval 35792 ≠ 60000 * 35792 := by
  refine ⟨by decide, by decide, by decide, by decide⟩

/-- C25, amended: for 0 <= m <= 35791 minutes the interval computed as
minutes * 60 * 1000 in 32-bit signed arithmetic is exactly 60000 * m
milliseconds; from 35792 minutes on the product 60000 * m exceeds the largest
32-bit signed value, so the computed interval differs from it. -/
theorem snooze_interval_exact (m : Int) :
    (0 ≤ m → m ≤ 35791 → snoozeInterval m = 60000 * m) ∧
    (35792 ≤ m → 2147483647 < 60000 * m ∧ snoozeInterval m ≠ 60000 * m) := by
  constructor
  · intro h0 h1
    unfold snoozeInterval toInt32
    omega
  · intro h
    have hr := (toInt32_range (toInt32 (m * 60) * 1000)).2
    refine ⟨by omega, ?_⟩
    unfold snoozeInterval
    omega

/-- C25, amended, at 1 minute, at the last exact value and at the first value
that overflows. -/
theorem snooze_interval_exact_witness :
    snoozeInterval 1 = 60000 * 1 ∧ snoozeInterval 35791 = 60000 * 35791 ∧
    snoozeInterval 35792 ≠ 60000 * 35792 :=
  ⟨(snooze_interval_exact 1).1 (by decide) (by decide),
   (snooze_interval_exact 35791).1 (by decide) (by decide),
   ((snooze_interval_exact 35792).2 (by decide)).2⟩

/-! ## Allow-listing and admission -/

/-- C29 as stated fails: on a fresh object (both lists empty) the app
`com.whatsapp` passes the app check; after `allowApp("com.google.Gmail")` the
allow-list is no longer empty and `com.whatsapp` is rejected. -/
theorem allowApp_narrows_admission :
    (construct defaultSettings false).m_allowedApps = [] ∧
    isAppAllowed (construct defaultSettings false) "com.whatsapp" = true ∧
    isAppAllowed (allowApp (construct defaultSettings false) "com.google.Gmail")
      "com.whatsapp" = false := by
  refine ⟨rfl, by decide, by decide⟩

/-- C29, amended: after `allowApp(x)` the app x passes the app check.  When
the allow-list was not empty before the call, every app that passed the check
before passes it after.  When the allow-list was empty before the call (every
unblocked app passed), it holds x alone afterwards and the apps that pass are
exactly x. -/
theorem allowApp_admission (m : Manager) (x : String) :
    isAppAllowed (allowApp m x) x = true ∧
    (m.m_allowedApps ≠ [] → ∀ y : String,
      isAppAllowed m y = true → isAppAllowed (allowApp m x) y = true) ∧
    (m.m_allowedApps = [] → ∀ y : String,
      (isAppAllowed (allowApp m x) y = true ↔ y = x)) := by
  obtain ⟨ha, hb⟩ := allowApp_lists m x
  refine ⟨?_, ?_, ?_⟩
  · rw [isAppAllowed_iff, ha, hb, mem_filter_ne, mem_append_new]
    exact ⟨fun h => h.2 rfl, Or.inr (Or.inr rfl)⟩
  · intro hne y hy
    rw [isAppAllowed_iff] at hy
    rw [isAppAllowed_iff, ha, hb, mem_filter_ne, mem_append_new]
    refine ⟨fun h => hy.1 h.1, Or.inr (Or.inl ?_)⟩
    exact hy.2.resolve_left hne
  · intro hempty y
    rw [isAppAllowed_iff, ha, hb, mem_filter_ne, mem_append_new, hempty]
    constructor
    · intro h
      rcases h.2 with h1 | h1
      · have hx : x ∈ ([] : List String) := by
          by_contra hc
          rw [if_neg hc] at h1
          exact absurd h1 (by simp)
        exact absurd hx (List.not_mem_nil x)
      · rcases h1 with h2 | h2
        · exact absurd h2 (List.not_mem_nil y)
        · exact h2
    · intro hy
      exact ⟨fun h => h.2 hy, Or.inr (Or.inr hy)⟩

/-- C29, amended, at a policy with a non-empty allow-list: the allowed app
Gmail still passes after another app has been allowed. -/
theorem allowApp_admission_witness :
    isAppAllowed (allowApp mixedPolicy "com.apple.mobilecal") "com.apple.mobilecal" = true ∧
    isAppAllowed (allowApp mixedPolicy "com.apple.mobilecal") "com.google.Gmail" = true ∧
    (isAppAllowed (allowApp (construct defaultSettings false) "com.google.Gmail")
      "com.google.Gmail" = true ↔ "com.google.Gmail" = "com.google.Gmail") :=
  ⟨(allowApp_admission mixedPolicy "com.apple.mobilecal").1,
   (allowApp_admission mixedPolicy "com.apple.mobilecal").2.1 (by decide) "com.google.Gmail"
     (by decide),
   (allowApp_admission (construct defaultSettings false) "com.google.Gmail").2.2 rfl
     "com.google.Gmail"⟩

/-! ## Signals and packets of a dismissal -/

theorem removeNotification_with_written (m : Manager) (w : List (List Byte)) (now : Int)
    (notificationId : String) :
    removeNotification { m with written := w } now notificationId
      = { removeNotification m now notificationId with written := w } := by
  by_cases hex : ∃ y ∈ m.m_notifications, y.id = notificationId
  · obtain ⟨pre, x, post, hl, hpre, hx⟩ := exists_first_with_id notificationId _ hex
    rw [removeNotification_found m now notificationId pre x post hl hpre hx,
      removeNotification_found { m with written := w } now notificationId pre x post hl hpre hx]
  · have habs : ∀ y ∈ m.m_notifications, y.id ≠ notificationId :=
      fun y hy hid => hex ⟨y, hy, hid⟩
    rw [removeNotification_absent m now notificationId habs,
      removeNotification_absent { m with written := w } now notificationId habs]

theorem sendAncsCommand_eq (m : Manager) (notificationId : String)
    (hreal : m.mockMode = false) (hios : m.m_platform = "ios") :
    sendAncsCommand m 2 notificationId
      = { m with written := m.written ++ dismissPackets m notificationId } := by
  have hbeq : (m.m_platform == "ios") = true := by simp [hios]
  by_cases hcp : m.controlPointValid = true
  · rcases hu : toUInt (mid5 notificationId) with _ | u
    · have hp : dismissPackets m notificationId = [] := by
        simp [dismissPackets, deviceUid, hu]
      rw [hp, sendAncsCommand_skipped m 2 notificationId hu, List.append_nil]
    · have hp : dismissPackets m notificationId = [commandPacket 2 u] := by
        simp [dismissPackets, deviceUid, hreal, hbeq, hcp, hu]
      rw [hp, sendAncsCommand_sent m 2 notificationId u hcp hu]
      rfl
  · have hcp2 : m.controlPointValid = false := by simpa using hcp
    have hp : dismissPackets m notificationId = [] := by
      simp [dismissPackets, deviceUid, hcp2]
    have hs : sendAncsCommand m 2 notificationId = m := by
      unfold sendAncsCommand
      simp [hcp2]
    rw [hp, hs, List.append_nil]

/-- The slot `dismissNotification` in one piece: the local removal, the
signal notificationDismissed, and at most one packet. -/
theorem dismissNotification_eq (m : Manager) (now : Int) (notificationId : String) :
    dismissNotification m now notificationId =
      { emit (removeNotification m now notificationId)
          (Signal.notificationDismissed notificationId) with
        written := m.written ++ dismissPackets m notificationId } := by
  have hw := removeNotification_written m now notificationId
  cases hmock : m.mockMode
  · by_cases hios : m.m_platform = "ios"
    · have hbeq : (m.m_platform == "ios") = true := by simp [hios]
      unfold dismissNotification
      simp only [hmock, hbeq, if_true, Bool.false_eq_true, if_false]
      rw [sendAncsCommand_eq m notificationId hmock hios, removeNotification_with_written]
      rfl
    · have hbeq : (m.m_platform == "ios") = false := by simp [hios]
      have hp : dismissPackets m notificationId = [] := by
        simp [dismissPackets, deviceUid, hmock, hbeq]
      unfold dismissNotification
      simp only [hmock, hbeq, Bool.false_eq_true, if_false]
      rw [hp, List.append_nil, ← hw]
      rfl
  · have hp : dismissPackets m notificationId = [] := by
      simp [dismissPackets, deviceUid, hmock]
    unfold dismissNotification
    simp only [hmock, if_true]
    rw [hp, List.append_nil, ← hw]
    rfl

theorem openNotification_emitted (m : Manager) (now : Int) (notificationId : String) :
    (openNotification m now notificationId).emitted
      = (removeNotification m now notificationId).emitted ∧
    (openNotification m now notificationId).m_notifications
      = (removeNotification m now notificationId).m_notifications ∧
    (openNotification m now notificationId).m_history
      = (removeNotification m now notificationId).m_history := by
  unfold openNotification
  dsimp only
  split
  · obtain ⟨w, hw⟩ := sendAncsCommand_frame m 0 notificationId
    rw [hw, removeNotification_with_written]
    exact ⟨rfl, rfl, rfl⟩
  · exact ⟨rfl, rfl, rfl⟩

/-- What a purge loop does, whatever the ids: the active list afterwards is a
sublist of the one before, the removed records have gone through the capped
insertion into the history, and the three change signals were emitted once
per removed record. -/
theorem removeEach_trace (now : Int) (ids : List String) :
    ∀ m : Manager, ∃ rs : List Notification,
      (removeEach m now ids).m_notifications.Sublist m.m_notifications ∧
      (removeEach m now ids).m_history = rs.foldl (pushHistory now) m.m_history ∧
      (removeEach m now ids).emitted = m.emitted ++ repeatedRemovalSignals rs.length := by
  induction ids with
  | nil =>
    intro m
    exact ⟨[], List.Sublist.refl _, rfl, by simp [removeEach_nil, repeatedRemovalSignals]⟩
  | cons id rest ih =>
    intro m
    rw [removeEach_cons]
    obtain ⟨rs, h1, h2, h3⟩ := ih (removeNotification m now id)
    by_cases hex : ∃ y ∈ m.m_notifications, y.id = id
    · obtain ⟨pre, x, post, hl, hpre, hx⟩ := exists_first_with_id id _ hex
      rw [removeNotification_found m now id pre x post hl hpre hx] at h1 h2 h3 ⊢
      refine ⟨x :: rs, ?_, ?_, ?_⟩
      · refine h1.trans ?_
        rw [hl]
        exact List.Sublist.append (List.Sublist.refl pre) (List.sublist_cons_self x post)
      · rw [h2]
        rfl
      · rw [h3]
        show (m.emitted ++ removalSignals) ++ repeatedRemovalSignals rs.length
          = m.emitted ++ (removalSignals ++ repeatedRemovalSignals rs.length)
        rw [List.append_assoc]
    · rw [removeNotification_absent m now id (fun y hy hid => hex ⟨y, hy, hid⟩)] at h1 h2 h3 ⊢
      exact ⟨rs, h1, h2, h3⟩

theorem repeatedRemovalSignals_not_dismissed (k : Nat) :
    ∀ s ∈ repeatedRemovalSignals k, isDismissed s = false := by
  induction k with
  | zero => intro s hs; exact absurd hs (List.not_mem_nil s)
  | succ k ih =>
    intro s hs
    rcases List.mem_append.mp hs with h | h
    · simp only [removalSignals, List.mem_cons, List.mem_singleton, List.not_mem_nil,
        or_false] at h
      rcases h with rfl | rfl | rfl <;> rfl
    · exact ih s h

/-- C26, counterexample: `notificationDismissed` follows the slot
`dismissNotification`, not the move to the history.  On the fresh real-mode
object `dismissNotification` for an id that is nowhere leaves both lists as
they were and still emits the signal; `openNotification` on the one active
record moves it to the history, and the sweep at the mock records moves two
records to the history, and neither emits the signal. -/
theorem dismissed_signal_follows_slot :
    (dismissNotification (construct defaultSettings false) 5 "ancs_7").m_notifications = [] ∧
    (dismissNotification (construct defaultSettings false) 5 "ancs_7").m_history = [] ∧
    (dismissNotification (construct defaultSettings false) 5 "ancs_7").emitted
      = [Signal.notificationDismissed "ancs_7"] ∧
    oneArrived.m_notifications = [scenarioRecord] ∧
    (openNotification oneArrived 30 "ancs_42").m_notifications = [] ∧
    (openNotification oneArrived 30 "ancs_42").m_history = [dismissedCopy 30 scenarioRecord] ∧
    (openNotification oneArrived 30 "ancs_42").emitted.any isDismissed = false ∧
    (onNotificationTimeout mockStarted 110).m_history.map (·.id) = ["notif_2", "notif_3"] ∧
    (onNotificationTimeout mockStarted 110).emitted.any isDismissed = false := by
  decide

/-- C26, amended: `dismissNotification` emits what `removeNotification` emits
and then notificationDismissed(id), whether or not a record has the id;
`openNotification` and the sweep emit what their removals emit and nothing
else.  A removal that finds a first record with the id takes it out of the
active list, puts it through the capped insertion into the history and emits
the three change signals; a removal that finds none changes nothing, so that
`dismissNotification` on such an id changes neither list and emits exactly
notificationDismissed(id).  None of the change signals is
notificationDismissed. -/
theorem dismissed_signal_source (m : Manager) (now : Int) (notificationId : String) :
    (dismissNotification m now notificationId).emitted
      = (removeNotification m now notificationId).emitted
        ++ [Signal.notificationDismissed notificationId] ∧
    (openNotification m now notificationId).emitted
      = (removeNotification m now notificationId).emitted ∧
    (∃ k, (onNotificationTimeout m now).emitted = m.emitted ++ repeatedRemovalSignals k) ∧
    (∀ k, ∀ s ∈ repeatedRemovalSignals k, isDismissed s = false) ∧
    (∀ (pre : List Notification) (x : Notification) (post : List Notification),
      m.m_notifications = pre ++ x :: post → (∀ y ∈ pre, y.id ≠ notificationId) →
      x.id = notificationId →
      (removeNotification m now notificationId).m_notifications = pre ++ post ∧
      (removeNotification m now notificationId).m_history = pushHistory now m.m_history x ∧
      (removeNotification m now notificationId).emitted = m.emitted ++ removalSignals) ∧
    ((∀ y ∈ m.m_notifications, y.id ≠ notificationId) →
      removeNotification m now notificationId = m ∧
      (dismissNotification m now notificationId).m_notifications = m.m_notifications ∧
      (dismissNotification m now notificationId).m_history = m.m_history ∧
      (dismissNotification m now notificationId).emitted
        = m.emitted ++ [Signal.notificationDismissed notificationId]) := by
  refine ⟨?_, (openNotification_emitted m now notificationId).1, ?_,
    repeatedRemovalSignals_not_dismissed, ?_, ?_⟩
  · rw [dismissNotification_eq]
    rfl
  · unfold onNotificationTimeout
    split
    · exact ⟨0, by simp [repeatedRemovalSignals]⟩
    · obtain ⟨rs, _, _, h3⟩ := removeEach_trace now
        ((m.m_notifications.filter
          (fun n => decide (now - n.timestamp ≥ m.m_autoDismissAfter))).map (·.id)) m
      exact ⟨rs.length, h3⟩
  · intro pre x post hl hpre hx
    rw [removeNotification_found m now notificationId pre x post hl hpre hx]
    exact ⟨rfl, rfl, rfl⟩
  · intro habs
    have hrm := removeNotification_absent m now notificationId habs
    rw [dismissNotification_eq, hrm]
    exact ⟨rfl, rfl, rfl, rfl⟩

/-- C26, amended, at the fresh real-mode object, where no record has the id
"ancs_7": the dismissal changes neither list and emits the signal. -/
theorem dismissed_signal_source_witness :
    removeNotification (construct defaultSettings false) 5 "ancs_7"
      = construct defaultSettings false ∧
    (dismissNotification (construct defaultSettings false) 5 "ancs_7").m_notifications
      = (construct defaultSettings false).m_notifications ∧
    (dismissNotification (construct defaultSettings false) 5 "ancs_7").m_history
      = (construct defaultSettings false).m_history ∧
    (dismissNotification (construct defaultSettings false) 5 "ancs_7").emitted
      = (construct defaultSettings false).emitted ++ [Signal.notificationDismissed "ancs_7"] :=
  (dismissed_signal_source (construct defaultSettings false) 5 "ancs_7").2.2.2.2.2
    (fun y hy => absurd hy (List.not_mem_nil y))

/-! ## dismissAll -/

theorem dismissAllPackets_congr (m m1 : Manager) (h1 : m1.mockMode = m.mockMode)
    (h2 : m1.m_platform = m.m_platform) (h3 : m1.controlPointValid = m.controlPointValid) :
    ∀ A : List Notification, dismissAllPackets m1 A = dismissAllPackets m A := by
  intro A
  induction A with
  | nil => rfl
  | cons x rest ih =>
    show dismissPackets m1 x.id ++ dismissAllPackets m1 rest
      = dismissPackets m x.id ++ dismissAllPackets m rest
    rw [ih]
    unfold dismissPackets deviceUid
    rw [h1, h2, h3]

/-- The loop of `dismissAll` over a prefix of the active list. -/
theorem dismissAll_loop (now : Int) :
    ∀ (A B : List Notification) (m : Manager), m.m_notifications = A ++ B →
      (A.map (·.id)).foldl (fun acc id => dismissNotification acc now id) m =
        { m with
          m_notifications := B
          m_history := A.foldl (pushHistory now) m.m_history
          emitted := m.emitted ++ dismissAllSignals A
          written := m.written ++ dismissAllPackets m A } := by
  intro A
  induction A with
  | nil =>
    intro B m hl
    rw [List.nil_append] at hl
    simp only [List.map_nil, List.foldl_nil, dismissAllSignals, dismissAllPackets,
      List.append_nil]
    rw [← hl]
  | cons x rest ih =>
    intro B m hl
    have hrm := removeNotification_found m now x.id [] x (rest ++ B) (by simpa using hl)
      (fun y hy => absurd hy (List.not_mem_nil y)) rfl
    have hstep : dismissNotification m now x.id =
        { m with
          m_notifications := rest ++ B
          m_history := pushHistory now m.m_history x
          emitted := m.emitted ++ removalSignals ++ [Signal.notificationDismissed x.id]
          written := m.written ++ dismissPackets m x.id } := by
      rw [dismissNotification_eq, hrm]
      rfl
    have hc := dismissAllPackets_congr m
      { m with
        m_notifications := rest ++ B
        m_history := pushHistory now m.m_history x
        emitted := m.emitted ++ removalSignals ++ [Signal.notificationDismissed x.id]
        written := m.written ++ dismissPackets m x.id } rfl rfl rfl rest
    rw [List.map_cons, List.foldl_cons, hstep, ih B _ rfl, hc]
    simp only [List.foldl_cons, dismissAllSignals, dismissAllPackets, List.append_assoc]

theorem dismissAllPackets_eq (m : Manager) (A : List Notification) :
    dismissAllPackets m A
      = (A.map (·.id)).filterMap (fun id => (deviceUid m id).map (commandPacket 2)) := by
  induction A with
  | nil => rfl
  | cons x rest ih =>
    show dismissPackets m x.id ++ dismissAllPackets m rest = _
    rw [ih, List.map_cons, List.filterMap_cons]
    unfold dismissPackets
    cases deviceUid m x.id <;> rfl

/-- C27: in every state `dismissAll` leaves the active list empty.  The ids
are taken from the active list before the loop; after the first k calls of
`dismissNotification` the active list is the old one without its first k
records and these k records have gone, in list order, through the capped
insertion into the history, so that each call removes exactly one record;
at the end every previously active record has gone through that insertion
(with a history of at most 100 entries to start with: the dismissed copies in
reverse order before the old history, cut to 100), each call has emitted the
three change signals and notificationDismissed, and the packets written are
one Dismiss command, in order, for each snapshot id that has a device UID. -/
theorem dismissAll_empties (m : Manager) (now : Int) :
    dismissAll m now =
      { m with
        m_notifications := []
        m_history := m.m_notifications.foldl (pushHistory now) m.m_history
        emitted := m.emitted ++ dismissAllSignals m.m_notifications
        written := m.written ++ (m.m_notifications.map (·.id)).filterMap
          (fun id => (deviceUid m id).map (commandPacket 2)) } ∧
    (∀ k : Nat,
      (((m.m_notifications.map (·.id)).take k).foldl
        (fun acc id => dismissNotification acc now id) m).m_notifications
          = m.m_notifications.drop k ∧
      (((m.m_notifications.map (·.id)).take k).foldl
        (fun acc id => dismissNotification acc now id) m).m_history
          = (m.m_notifications.take k).foldl (pushHistory now) m.m_history) ∧
    (m.m_history.length ≤ 100 →
      (dismissAll m now).m_history
        = ((m.m_notifications.map (dismissedCopy now)).reverse ++ m.m_history).take 100) := by
  have hall := dismissAll_loop now m.m_notifications [] m (List.append_nil _).symm
  rw [dismissAllPackets_eq] at hall
  refine ⟨hall, ?_, ?_⟩
  · intro k
    have hk := dismissAll_loop now (m.m_notifications.take k) (m.m_notifications.drop k) m
      (List.take_append_drop k _).symm
    rw [← List.map_take, hk]
    exact ⟨rfl, rfl⟩
  · intro hh
    have h1 : (dismissAll m now).m_history
        = m.m_notifications.foldl (pushHistory now) m.m_history := by
      show ((m.m_notifications.map (·.id)).foldl
        (fun acc id => dismissNotification acc now id) m).m_history = _
      rw [hall]
    rw [h1, foldl_pushHistory_eq now m.m_notifications m.m_history hh]

/-- C27 at the state `threeOnLink` with three active records, two of them
with the id "ancs_42" and between them a local echo, whose id has no device
UID: the active list is emptied, the three records are in the history and two
Dismiss commands for UID 42 are written after the packets of the link. -/
theorem dismissAll_empties_witness :
    threeOnLink.m_history.length ≤ 100 ∧
    (dismissAll threeOnLink 9).m_history
      = ((threeOnLink.m_notifications.map (dismissedCopy 9)).reverse
          ++ threeOnLink.m_history).take 100 ∧
    (dismissAll threeOnLink 9).m_notifications = [] ∧
    (dismissAll threeOnLink 9).m_history.map (·.id) = ["ancs_42", "reply_ancs_42", "ancs_42"] ∧
    (dismissAll threeOnLink 9).written
      = threeOnLink.written ++ [[2, 0x2A, 0, 0, 0], [2, 0x2A, 0, 0, 0]] :=
  ⟨by decide, (dismissAll_empties threeOnLink 9).2.2 (by decide), by decide, by decide,
    by decide⟩

/-! ## The read flag -/

theorem survives_refl (l : List Notification) : List.Forall₂ Survives l l := by
  induction l with
  | nil => exact List.Forall₂.nil
  | cons r rest ih => exact List.Forall₂.cons (Or.inl rfl) ih

theorem addNotification_sublist (m : Manager) (r : Notification) :
    (addNotification m r).m_notifications.Sublist (r :: m.m_notifications) := by
  cases hp : passesPolicy m r
  · rw [addNotification_rejected m r hp]
    exact List.sublist_cons_self r _
  · rw [addNotification_accepted m r hp]

theorem removeNotification_sublist (m : Manager) (now : Int) (notificationId : String) :
    (removeNotification m now notificationId).m_notifications.Sublist m.m_notifications := by
  obtain ⟨rs, h, _, _⟩ := removeEach_trace now [notificationId] m
  exact h

theorem dismissNotification_sublist (m : Manager) (now : Int) (notificationId : String) :
    (dismissNotification m now notificationId).m_notifications.Sublist m.m_notifications := by
  rw [dismissNotification_eq]
  exact removeNotification_sublist m now notificationId

theorem addAll_sublist (rs : List Notification) :
    ∀ m : Manager,
      (rs.foldl addNotification m).m_notifications.Sublist (rs.reverse ++ m.m_notifications) := by
  induction rs with
  | nil => intro m; exact List.Sublist.refl _
  | cons r rest ih =>
    intro m
    rw [List.foldl_cons, List.reverse_cons, List.append_assoc]
    exact (ih (addNotification m r)).trans
      (List.Sublist.append (List.Sublist.refl _) (addNotification_sublist m r))

theorem replyToNotification_sublist (m : Manager) (now : Int)
    (notificationId message : String) :
    (replyToNotification m now notificationId message).m_notifications.Sublist
      (replyEcho now notificationId message :: m.m_notifications) := by
  cases hmock : m.mockMode
  · rw [replyToNotification_real m now notificationId message hmock]
    exact List.sublist_cons_self _ _
  · rw [replyToNotification_mock m now notificationId message hmock]
    exact (dismissNotification_sublist _ now notificationId).trans
      (addNotification_sublist m _)

theorem snoozeNotification_sublist (m : Manager) (now : Int) (notificationId : String)
    (minutes : Int) :
    (snoozeNotification m now notificationId minutes).m_notifications.Sublist
      m.m_notifications := by
  by_cases hex : ∃ y ∈ m.m_notifications, y.id = notificationId
  · obtain ⟨pre, x, post, hl, hpre, hx⟩ := exists_first_with_id notificationId _ hex
    rw [snoozeNotification_found m now notificationId minutes pre x post hl hpre hx, hl]
    exact List.Sublist.append (List.Sublist.refl pre) (List.sublist_cons_self x post)
  · rw [snoozeNotification_absent m now notificationId minutes
      (fun y hy hid => hex ⟨y, hy, hid⟩)]

theorem removeEach_sublist_of (m m2 : Manager) (now : Int) (ids : List String)
    (h : m2.m_notifications = m.m_notifications) :
    (removeEach m2 now ids).m_notifications.Sublist m.m_notifications := by
  obtain ⟨rs, h1, _, _⟩ := removeEach_trace now ids m2
  rw [h] at h1
  exact h1

theorem holder_full_admissible (h0 : Nat) (t0 : SnoozeTimer) :
    Admissible (fun _ => True) (fun t => t.handle = h0 → t = t0) (h0 + 1) where
  read := fun _ _ => trivial
  snoozed := fun _ _ => trivial
  decoded := fun _ _ _ _ => trivial
  echo := fun _ _ _ => trivial
  mock := fun _ _ _ => trivial
  fresh := by
    intro h r i s hle _ heq
    have heq2 : h = h0 := heq
    omega

/-- The timer a snooze creates in a reachable state is, as long as it is
pending, the only timer with its handle: it holds the snoozed record, the
interval computed from the minutes and the time of the snooze. -/
theorem snoozed_timer_pending (m0 : Manager) (hreach : Reachable m0) (now : Int)
    (notificationId : String) (minutes : Int)
    (pre : List Notification) (x : Notification) (post : List Notification)
    (hl : m0.m_notifications = pre ++ x :: post)
    (hpre : ∀ y ∈ pre, y.id ≠ notificationId) (hx : x.id = notificationId)
    (ops : List Op) (t : SnoozeTimer)
    (hfind : (run (snoozeNotification m0 now notificationId minutes) ops).timers.find?
      (fun t => t.handle == m0.nextHandle) = some t) :
    t = ⟨m0.nextHandle, x, snoozeInterval minutes, now⟩ := by
  have hclean := clean_of_reachable hreach
  have hbase : ParkedInvariant (fun _ => True)
      (fun t => t.handle = m0.nextHandle →
        t = ⟨m0.nextHandle, x, snoozeInterval minutes, now⟩) (m0.nextHandle + 1)
      (snoozeNotification m0 now notificationId minutes) := by
    rw [snoozeNotification_found m0 now notificationId minutes pre x post hl hpre hx]
    refine ⟨fun _ _ => trivial, ?_, Nat.le_refl _⟩
    intro t1 ht1
    rcases List.mem_append.mp ht1 with ht1 | ht1
    · have hlt := (hclean.timers_ok t1 ht1).2.2
      refine ⟨trivial, ?_, Nat.lt_succ_of_lt hlt⟩
      intro heq
      omega
    · rw [List.mem_singleton.mp ht1]
      exact ⟨trivial, fun _ => rfl, Nat.lt_succ_self _⟩
  have hlater := pk_run (holder_full_admissible m0.nextHandle _) ops hbase
  have hmem : t ∈ (run (snoozeNotification m0 now notificationId minutes) ops).timers :=
    List.mem_of_find?_eq_some hfind
  have hhandle : t.handle = m0.nextHandle := by
    have := List.find?_some hfind
    simpa using this
  exact (hlater.timers_ok t hmem).2.1 hhandle

theorem survives_mark (pre : List Notification) (x : Notification) (post : List Notification) :
    List.Forall₂ Survives (pre ++ x :: post) (pre ++ { x with read := true } :: post) := by
  induction pre with
  | nil => exact List.Forall₂.cons (Or.inr rfl) (survives_refl post)
  | cons r rest ih => exact List.Forall₂.cons (Or.inl rfl) ih

theorem eq_sublist {l1 l2 : List Notification} (h : l1 = l2) : l1.Sublist l2 := by
  rw [h]

/-- One event and the active list: the old records are kept in their order,
each as it was or with the key `read` set, some of them may be removed, and
what is new in front of them is among the records the event hands to
`addNotification`. -/
theorem step_active (m : Manager) (op : Op) :
    ∃ mid, List.Forall₂ Survives m.m_notifications mid ∧
      (step m op).m_notifications.Sublist (inserted m op ++ mid) := by
  cases op with
  | markAsRead id =>
    by_cases hex : ∃ y ∈ m.m_notifications, y.id = id
    · obtain ⟨pre, x, post, hl, hpre, hx⟩ := exists_first_with_id id _ hex
      refine ⟨pre ++ { x with read := true } :: post, ?_, ?_⟩
      · rw [hl]
        exact survives_mark pre x post
      · show (markAsRead m id).m_notifications.Sublist _
        rw [markAsRead_found m id pre x post hl hpre hx]
        exact List.Sublist.refl _
    · refine ⟨_, survives_refl _, ?_⟩
      show (markAsRead m id).m_notifications.Sublist m.m_notifications
      rw [markAsRead_absent m id (fun y hy hid => hex ⟨y, hy, hid⟩)]
  | connectToDevice a p =>
    refine ⟨_, survives_refl _, eq_sublist ?_⟩
    show ((connectToDevice m a p).getD m).m_notifications = m.m_notifications
    unfold connectToDevice
    dsimp only [emit]
    split_ifs <;> rfl
  | disconnect => exact ⟨_, survives_refl _, List.Sublist.refl _⟩
  | dismissNotification now id =>
    exact ⟨_, survives_refl _, dismissNotification_sublist m now id⟩
  | dismissAll now =>
    refine ⟨_, survives_refl _, ?_⟩
    show (dismissAll m now).m_notifications.Sublist m.m_notifications
    have h := dismissAll_loop now m.m_notifications [] m (List.append_nil _).symm
    unfold dismissAll
    dsimp only
    rw [h]
    exact List.nil_sublist _
  | openNotification now id =>
    refine ⟨_, survives_refl _, ?_⟩
    show (openNotification m now id).m_notifications.Sublist m.m_notifications
    rw [(openNotification_emitted m now id).2.1]
    exact removeNotification_sublist m now id
  | replyToNotification now id msg =>
    exact ⟨_, survives_refl _, replyToNotification_sublist m now id msg⟩
  | snoozeNotification now id minutes =>
    exact ⟨_, survives_refl _, snoozeNotification_sublist m now id minutes⟩
  | performAction id a => exact ⟨_, survives_refl _, List.Sublist.refl _⟩
  | sendQuickReply now id i =>
    refine ⟨_, survives_refl _, ?_⟩
    show (sendQuickReply m now id i).m_notifications.Sublist
      ((match m.m_quickReplies.get? i.toNat with
        | some reply => [replyEcho now id reply]
        | none => []) ++ m.m_notifications)
    unfold sendQuickReply
    split
    · exact List.sublist_append_right _ _
    · cases hq : m.m_quickReplies.get? i.toNat with
      | none => exact List.Sublist.refl _
      | some reply => exact replyToNotification_sublist m now id reply
  | setDoNotDisturb now e =>
    refine ⟨_, survives_refl _, ?_⟩
    show (setDoNotDisturb m now e).m_notifications.Sublist m.m_notifications
    unfold setDoNotDisturb
    dsimp only
    split
    · split
      · exact removeEach_sublist_of m _ now _ rfl
      · exact List.Sublist.refl _
    · exact List.Sublist.refl _
  | setAllowedApps apps => exact ⟨_, survives_refl _, List.Sublist.refl _⟩
  | setBlockedApps apps => exact ⟨_, survives_refl _, List.Sublist.refl _⟩
  | allowApp a =>
    refine ⟨_, survives_refl _, eq_sublist ?_⟩
    show (allowApp m a).m_notifications = m.m_notifications
    unfold allowApp
    dsimp only [emit, saveSettings]
    split_ifs <;> rfl
  | blockApp now a =>
    refine ⟨_, survives_refl _, ?_⟩
    show (blockApp m now a).m_notifications.Sublist m.m_notifications
    unfold blockApp
    dsimp only
    refine removeEach_sublist_of m _ now _ ?_
    dsimp only [emit, saveSettings]
    split_ifs <;> rfl
  | setShowPreviews e =>
    refine ⟨_, survives_refl _, eq_sublist ?_⟩
    show (setShowPreviews m e).m_notifications = m.m_notifications
    unfold setShowPreviews
    split <;> rfl
  | setAutoDismissAfter s => exact ⟨_, survives_refl _, List.Sublist.refl _⟩
  | setQuickReplies r => exact ⟨_, survives_refl _, List.Sublist.refl _⟩
  | clearHistory => exact ⟨_, survives_refl _, List.Sublist.refl _⟩
  | notificationTimeout now =>
    refine ⟨_, survives_refl _, ?_⟩
    show (if m.dismissTimerActive then onNotificationTimeout m now else m).m_notifications.Sublist
      m.m_notifications
    split
    · unfold onNotificationTimeout
      split
      · exact List.Sublist.refl _
      · exact removeEach_sublist_of m m now _ rfl
    · exact List.Sublist.refl _
  | snoozeTimeout hd =>
    refine ⟨_, survives_refl _, ?_⟩
    show (onSnoozeTimeout m hd).m_notifications.Sublist
      ((match m.timers.find? (fun t => t.handle == hd) with
        | some t => [resurfaced t.notification]
        | none => []) ++ m.m_notifications)
    cases hfind : m.timers.find? (fun t => t.handle == hd) with
    | none =>
      rw [onSnoozeTimeout_not_pending m hd hfind]
      exact List.Sublist.refl _
    | some t =>
      rw [onSnoozeTimeout_fired m hd t hfind]
      exact addNotification_sublist m (resurfaced t.notification)
  | mockStartup now =>
    refine ⟨_, survives_refl _, ?_⟩
    show (if m.mockMode then mockStartup m now else m).m_notifications.Sublist
      ((mockNotifs now).reverse ++ m.m_notifications)
    split
    · exact addAll_sublist (mockNotifs now) _
    · exact List.sublist_append_right _ _
  | serviceStateChanged d c s e =>
    refine ⟨_, survives_refl _, eq_sublist ?_⟩
    show (if m.mockMode then m else onServiceStateChanged m d c s e).m_notifications
      = m.m_notifications
    unfold onServiceStateChanged
    dsimp only [emit]
    split_ifs <;> rfl
  | characteristicChanged b v now =>
    refine ⟨_, survives_refl _, ?_⟩
    show (if m.mockMode then m else onCharacteristicChanged m b v now).m_notifications.Sublist
      ((parseAncsNotification v now).toList ++ m.m_notifications)
    split
    · exact List.sublist_append_right _ _
    · unfold onCharacteristicChanged
      split
      · cases hparse : parseAncsNotification v now with
        | none => exact List.Sublist.refl _
        | some n => exact addNotification_sublist m n
      · exact List.sublist_append_right _ _

/-- C23: the read flag is monotonic.  For every state and every event of the
engine the active list afterwards consists of new records, all of them among
the records the event hands to `addNotification`, followed by kept records:
the old records in their order, some possibly removed, each either as it was
or with the key `read` set and nothing else changed; so a kept record that
was read is read.  And in a reachable state, when a record x is snoozed and
its timer is still pending after any further events, the record the firing
hands to `addNotification` is x with the key `snoozed` set, whose read flag
is the one x had when it was snoozed. -/
theorem read_flag_monotonic :
    (∀ (m : Manager) (op : Op), ∃ mid new kept,
      List.Forall₂ Survives m.m_notifications mid ∧
      new.Sublist (inserted m op) ∧ kept.Sublist mid ∧
      (step m op).m_notifications = new ++ kept) ∧
    (∀ r r' : Notification, Survives r r' →
      (r.read = true → r'.read = true) ∧ r' = { r with read := r'.read }) ∧
    (∀ m0 : Manager, Reachable m0 →
      ∀ (now : Int) (notificationId : String) (minutes : Int)
        (pre : List Notification) (x : Notification) (post : List Notification),
      m0.m_notifications = pre ++ x :: post →
      (∀ y ∈ pre, y.id ≠ notificationId) → x.id = notificationId →
      ∀ (ops : List Op) (t : SnoozeTimer),
      (run (snoozeNotification m0 now notificationId minutes) ops).timers.find?
        (fun t => t.handle == m0.nextHandle) = some t →
      inserted (run (snoozeNotification m0 now notificationId minutes) ops)
          (Op.snoozeTimeout m0.nextHandle) = [resurfaced x] ∧
      (resurfaced x).read = x.read) := by
  refine ⟨?_, ?_, ?_⟩
  · intro m op
    obtain ⟨mid, h1, h2⟩ := step_active m op
    obtain ⟨new, kept, h3, h4, h5⟩ := List.sublist_append_iff.mp h2
    exact ⟨mid, new, kept, h1, h4, h5, h3⟩
  · intro r r' h
    rcases h with h | h
    · rw [h]
      exact ⟨fun hr => hr, rfl⟩
    · rw [h]
      exact ⟨fun _ => rfl, rfl⟩
  · intro m0 hreach now notificationId minutes pre x post hl hpre hx ops t hfind
    have ht := snoozed_timer_pending m0 hreach now notificationId minutes pre x post hl hpre hx
      ops t hfind
    refine ⟨?_, rfl⟩
    show (match (run (snoozeNotification m0 now notificationId minutes) ops).timers.find?
        (fun t => t.handle == m0.nextHandle) with
      | some t => [resurfaced t.notification]
      | none => []) = [resurfaced x]
    rw [hfind, ht]

/-- C23 at the scenario: the record arrives and is read, is snoozed for one
minute, an unrelated event happens and the timer fires; the record handed
back is the read record, and the active list then holds one read record. -/
theorem read_flag_monotonic_witness :
    inserted (run (snoozeNotification readArrived 5 "ancs_42" 1) [Op.markAsRead "x"])
        (Op.snoozeTimeout readArrived.nextHandle)
      = [resurfaced { scenarioRecord with read := true }] ∧
    (resurfaced { scenarioRecord with read := true }).read = true ∧
    (step (run (snoozeNotification readArrived 5 "ancs_42" 1) [Op.markAsRead "x"])
        (Op.snoozeTimeout readArrived.nextHandle)).m_notifications.map (·.read) = [true] :=
  ⟨(read_flag_monotonic.2.2 readArrived ⟨_, _, _, rfl⟩ 5 "ancs_42" 1 []
      { scenarioRecord with read := true } [] (by decide)
      (fun y hy => absurd hy (List.not_mem_nil y)) rfl [Op.markAsRead "x"]
      ⟨0, { scenarioRecord with read := true }, snoozeInterval 1, 5⟩ (by decide)).1,
   rfl, by decide⟩

/-! ## Resurfacing and the sweep -/

/-- A tick of the sweep in a state whose first active record is expired: the
first removal takes that record, the others follow. -/
theorem sweep_head_expired (m : Manager) (now : Int) (r : Notification)
    (l : List Notification) (hl : m.m_notifications = r :: l)
    (hpos : 0 < m.m_autoDismissAfter) (hexp : expired m now r = true) :
    onNotificationTimeout m now =
      removeEach
        { m with
          m_notifications := l
          m_history := pushHistory now m.m_history r
          emitted := m.emitted ++ removalSignals }
        now ((l.filter (expired m now)).map (·.id)) := by
  unfold onNotificationTimeout
  rw [if_neg (by omega)]
  show removeEach m now ((m.m_notifications.filter (expired m now)).map (·.id)) = _
  rw [hl, List.filter_cons_of_pos hexp, List.map_cons, removeEach_cons,
    removeNotification_found m now r.id [] r l hl
      (fun y hy => absurd hy (List.not_mem_nil y)) rfl]
  rfl

theorem onSnoozeTimeout_frame (m : Manager) (handle : Nat) :
    ∃ n e tm reg, onSnoozeTimeout m handle =
      { m with m_notifications := n, emitted := e, timers := tm, m_snoozeTimers := reg } := by
  cases hfind : m.timers.find? (fun t => t.handle == handle) with
  | none =>
    rw [onSnoozeTimeout_not_pending m handle hfind]
    exact ⟨_, _, _, _, rfl⟩
  | some t =>
    obtain ⟨n, e, hadd⟩ := addNotification_frame m (resurfaced t.notification)
    rw [onSnoozeTimeout_fired m handle t hfind, hadd]
    exact ⟨_, _, _, _, rfl⟩

/-- C28, counterexample: with the sweep running at a threshold of 1000
seconds the scenario record, received at time 0, is snoozed at time 0 for
71583 minutes.  The interval 71583 * 60 * 1000 wraps to 12704 milliseconds,
so the timer is due after 12.704 seconds; it fires, and the tick at second 13
finds the record 13 seconds old: it stays active and nothing is added to the
history, although 0 < 1000 <= 60 * 71583. -/
theorem long_snooze_escapes_sweep :
    Reachable (sweepArmed 1000) ∧
    (sweepArmed 1000).m_notifications = [scenarioRecord] ∧
    (snoozeNotification (sweepArmed 1000) 0 "ancs_42" 71583).timers
      = [⟨0, scenarioRecord, 12704, 0⟩] ∧
    dueAt ⟨0, scenarioRecord, 12704, 0⟩ ≤ 13 * 1000 ∧
    (sweepArmed 1000).m_autoDismissAfter = 1000 ∧ (1000 : Int) ≤ 60 * 71583 ∧
    (sweepArmed 1000).dismissTimerActive = true ∧
    (run (sweepArmed 1000)
      [Op.snoozeNotification 0 "ancs_42" 71583, Op.snoozeTimeout 0]).m_notifications
        = [resurfaced scenarioRecord] ∧
    (run (sweepArmed 1000)
      [Op.snoozeNotification 0 "ancs_42" 71583, Op.snoozeTimeout 0,
       Op.notificationTimeout 13]).m_notifications = [resurfaced scenarioRecord] ∧
    (run (sweepArmed 1000)
      [Op.snoozeNotification 0 "ancs_42" 71583, Op.snoozeTimeout 0,
       Op.notificationTimeout 13]).m_history = [dismissedCopy 0 scenarioRecord] := by
  refine ⟨⟨_, _, _, rfl⟩, by decide, by decide, by decide, by decide, by decide, by decide,
    by decide, by decide, by decide⟩

/-- C28, amended: a record x of a reachable state, received no later than
the second s, is snoozed at s for m minutes with 1 <= m <= 35791, so that the
interval of its timer is exactly 60000 * m milliseconds.  After any further
events the timer is still pending and fires in a state M in which the policy
admits the record, the sweep is running and the threshold T satisfies
0 < T <= 60 * m.  Then the record put at the head of the active list has the
timestamp of x, and a tick that comes directly after the firing, at a second
that is not before the timer was due, finds it expired: the first removal of
the tick takes it out of the active list and puts it through the capped
insertion into the history, the active list after the tick is a sublist of
the one before the firing, and the history is the one before the firing with
the record and then the other removed records pushed onto it. -/
theorem resurfaced_record_swept (m0 : Manager) (hreach : Reachable m0) (s : Int)
    (notificationId : String) (minutes : Int)
    (pre : List Notification) (x : Notification) (post : List Notification)
    (hl : m0.m_notifications = pre ++ x :: post)
    (hpre : ∀ y ∈ pre, y.id ≠ notificationId) (hx : x.id = notificationId)
    (hts : x.timestamp ≤ s) (hmin : 1 ≤ minutes) (hmax : minutes ≤ 35791)
    (ops : List Op) (M : Manager)
    (hM : M = run (snoozeNotification m0 s notificationId minutes) ops)
    (t : SnoozeTimer)
    (hfind : M.timers.find? (fun t => t.handle == m0.nextHandle) = some t)
    (hpol : passesPolicy M (resurfaced x) = true)
    (hactive : M.dismissTimerActive = true)
    (hpos : 0 < M.m_autoDismissAfter) (hT : M.m_autoDismissAfter ≤ 60 * minutes)
    (now : Int) (hdue : dueAt t ≤ now * 1000) :
    t.interval = 60000 * minutes ∧
    (onSnoozeTimeout M m0.nextHandle).m_notifications = resurfaced x :: M.m_notifications ∧
    (resurfaced x).timestamp = x.timestamp ∧
    expired (onSnoozeTimeout M m0.nextHandle) now (resurfaced x) = true ∧
    (∃ ids, step (onSnoozeTimeout M m0.nextHandle) (Op.notificationTimeout now) =
      removeEach
        { onSnoozeTimeout M m0.nextHandle with
          m_notifications := M.m_notifications
          m_history := pushHistory now M.m_history (resurfaced x)
          emitted := (onSnoozeTimeout M m0.nextHandle).emitted ++ removalSignals }
        now ids) ∧
    (step (onSnoozeTimeout M m0.nextHandle)
      (Op.notificationTimeout now)).m_notifications.Sublist M.m_notifications ∧
    (∃ later : List Notification,
      (step (onSnoozeTimeout M m0.nextHandle) (Op.notificationTimeout now)).m_history
        = later.foldl (pushHistory now) (pushHistory now M.m_history (resurfaced x))) := by
  subst hM
  have ht := snoozed_timer_pending m0 hreach s notificationId minutes pre x post hl hpre hx
    ops t hfind
  have hint : snoozeInterval minutes = 60000 * minutes := by
    unfold snoozeInterval toInt32
    omega
  have htn : t.notification = x := by rw [ht]
  have hti : t.interval = 60000 * minutes := by rw [ht]; exact hint
  have hdue2 : s * 1000 + 60000 * minutes ≤ now * 1000 := by
    have h1 : dueAt t = s * 1000 + 60000 * minutes := by
      rw [ht]
      show s * 1000 + snoozeInterval minutes = _
      rw [hint]
    rw [← h1]
    exact hdue
  have hhead := onSnoozeTimeout_accepted _ m0.nextHandle t hfind (by rw [htn]; exact hpol)
  rw [htn] at hhead
  obtain ⟨n, e, tm, reg, hframe⟩ :=
    onSnoozeTimeout_frame (run (snoozeNotification m0 s notificationId minutes) ops)
      m0.nextHandle
  have hthr : (onSnoozeTimeout (run (snoozeNotification m0 s notificationId minutes) ops)
      m0.nextHandle).m_autoDismissAfter
        = (run (snoozeNotification m0 s notificationId minutes) ops).m_autoDismissAfter := by
    rw [hframe]
  have hhist : (onSnoozeTimeout (run (snoozeNotification m0 s notificationId minutes) ops)
      m0.nextHandle).m_history
        = (run (snoozeNotification m0 s notificationId minutes) ops).m_history := by
    rw [hframe]
  have hact : (onSnoozeTimeout (run (snoozeNotification m0 s notificationId minutes) ops)
      m0.nextHandle).dismissTimerActive = true := by
    rw [hframe]
    exact hactive
  have hexp : expired (onSnoozeTimeout (run (snoozeNotification m0 s notificationId minutes) ops)
      m0.nextHandle) now (resurfaced x) = true := by
    unfold expired
    rw [hthr]
    show decide (now - x.timestamp ≥ _) = true
    rw [decide_eq_true_eq]
    omega
  have hsweep := sweep_head_expired _ now (resurfaced x) _ hhead (by rw [hthr]; exact hpos) hexp
  have hstep : step (onSnoozeTimeout (run (snoozeNotification m0 s notificationId minutes) ops)
      m0.nextHandle) (Op.notificationTimeout now)
        = onNotificationTimeout (onSnoozeTimeout
            (run (snoozeNotification m0 s notificationId minutes) ops) m0.nextHandle) now := by
    show (if _ then _ else _) = _
    rw [if_pos hact]
  rw [hstep, hsweep, hhist]
  obtain ⟨later, h1, h2, _⟩ := removeEach_trace now
    (((run (snoozeNotification m0 s notificationId minutes) ops).m_notifications.filter
      (expired (onSnoozeTimeout (run (snoozeNotification m0 s notificationId minutes) ops)
        m0.nextHandle) now)).map (·.id))
    { onSnoozeTimeout (run (snoozeNotification m0 s notificationId minutes) ops) m0.nextHandle with
      m_notifications := (run (snoozeNotification m0 s notificationId minutes) ops).m_notifications
      m_history := pushHistory now
        (run (snoozeNotification m0 s notificationId minutes) ops).m_history (resurfaced x)
      emitted := (onSnoozeTimeout (run (snoozeNotification m0 s notificationId minutes) ops)
        m0.nextHandle).emitted ++ removalSignals }
  exact ⟨hti, hhead, rfl, hexp, ⟨_, rfl⟩, h1, ⟨later, h2⟩⟩

/-- C28, amended, at the scenario: with the sweep running at a threshold of
30 seconds the record received at 0 is snoozed at second 5 for one minute;
the timer is due at second 65, fires, and the tick at second 65 removes the
record again. -/
theorem resurfaced_record_swept_witness :
    (step (onSnoozeTimeout (run (snoozeNotification (sweepArmed 30) 5 "ancs_42" 1) [])
      (sweepArmed 30).nextHandle) (Op.notificationTimeout 65)).m_notifications.Sublist
        (run (snoozeNotification (sweepArmed 30) 5 "ancs_42" 1) []).m_notifications ∧
    (run (snoozeNotification (sweepArmed 30) 5 "ancs_42" 1) []).m_notifications = [] ∧
    (step (onSnoozeTimeout (run (snoozeNotification (sweepArmed 30) 5 "ancs_42" 1) [])
      (sweepArmed 30).nextHandle) (Op.notificationTimeout 65)).m_history
        = [dismissedCopy 65 (resurfaced scenarioRecord), dismissedCopy 5 scenarioRecord] :=
  ⟨(resurfaced_record_swept (sweepArmed 30) ⟨_, _, _, rfl⟩ 5 "ancs_42" 1 [] scenarioRecord []
      (by decide) (fun y hy => absurd hy (List.not_mem_nil y)) rfl (by decide) (by decide)
      (by decide) [] _ rfl ⟨0, scenarioRecord, snoozeInterval 1, 5⟩ (by decide) (by decide)
      (by decide) (by decide) (by decide) 65 (by decide)).2.2.2.2.2.1,
   by decide, by decide⟩

/-! ## No run establishes a link -/

end HeadUnit
